import Mathlib

/-!
Verification of the coalescing broker of `src/coalescer.ts`
(`DownloadCoalescer`, a Durable Object that coalesces concurrent download
requests for the same `(b2Url, rangeHeader)` key into a single origin fetch
whose response is fanned out to every attached WebSocket client).

The embedding is a small-step state machine.  A `join` models one call of
`DownloadCoalescer.fetch` (the WebSocket-upgrade entry point), which runs
synchronously in the event loop up to and including issuing the origin
request (`fetch(b2Url, ...)` on line 144 runs before the first suspension).
The in-flight body of `fetchAndBroadcast` is represented as a task whose
`Phase` records the await point it is suspended at; a `resume` step runs the
code between two consecutive await points.  `wsClose` / `wsError` model the
`webSocketClose` / `webSocketError` handlers.

The environment supplies the origin's behaviour for each `(url, range)` pair
and, for each client and each point in time, whether a `send` on that
client's WebSocket throws (the broadcast loops catch such throws and prune
the client).  Every externally visible effect (origin fetch issued, frame
delivered, delivery attempt failed, socket closed, `session.error`
assignment) is recorded in an append-only log, so that trace properties can
be stated about it.
-/

namespace RXC

abbrev ClientId := Nat
abbrev Key := String

/-- Line 54: `const sessionKey = ` followed by the template literal
joining `b2Url` and `rangeHeader` with a `"|"` separator. -/
def buildKey (b2Url rangeHeader : String) : Key :=
  b2Url ++ "|" ++ rangeHeader

/-- The wire protocol frames of the broker (headers / binary chunk / done /
error), as produced on lines 103, 151, 161, 173, 184, 190, 197. -/
inductive Frame where
  | headersFrame : Nat → List (String × String) → Frame
  | binaryFrame : List Nat → Frame
  | doneFrame : Frame
  | errorFrame : Nat → String → Frame
deriving DecidableEq, Repr

/-- The `FileSession` interface (lines 13-23).  `clients` keeps the JS
`Set` in insertion order; `startTime` is the `Date.now()` at creation,
modelled by the logical clock. -/
structure FileSession where
  url : String
  clients : List ClientId
  fetchInProgress : Bool
  responseHeaders : Option (List (String × String))
  responseStatus : Option Nat
  error : Option String
  startTime : Nat
  totalClients : Nat
deriving DecidableEq, Repr

/-- The body stream an origin response carries: the chunks `reader.read()`
yields in order, and optionally an exception thrown by the read after the
last chunk (`streamError = none` means the stream ends with `done`). -/
structure OriginBody where
  chunks : List (List Nat)
  streamError : Option String
deriving DecidableEq, Repr

/-- Behaviour of `fetch(b2Url, { headers })` (line 144) for one
`(url, range)` pair: either the fetch itself throws, or it responds with a
status, headers, the text of the body (read on the error path, line 159),
and an optional body stream (`none` models `response.body` being null,
line 171-172). -/
inductive OriginOutcome where
  | throwBeforeResponse : String → OriginOutcome
  | respond : Nat → List (String × String) → String → Option OriginBody → OriginOutcome
deriving DecidableEq, Repr

/-- The external world: what the origin does for each `(url, range)`, and
whether the delivery attempt to client `c` at logical time `t` (the length
of the log at that attempt) throws inside `client.send` (lines 214, 233). -/
structure Env where
  origin : String → String → OriginOutcome
  sendFails : ClientId → Nat → Bool

/-- Append-only trace of externally visible effects.
`originFetch k sid u r`: the leader fetch for session instance `sid`
(its `startTime`) at key `k` was issued with url `u` and range `r`.
`sent sid c f`: frame `f` was delivered to client `c` of session `sid`.
`sendFailed sid c f`: the delivery attempt threw and was caught.
`closed sid c code reason`: `client.close(code, reason)` was invoked.
`errorSet sid v`: the assignment `session.error = v` ran. -/
inductive LogEvent where
  | originFetch : Key → Nat → String → String → LogEvent
  | sent : Nat → ClientId → Frame → LogEvent
  | sendFailed : Nat → ClientId → Frame → LogEvent
  | closed : Nat → ClientId → Nat → String → LogEvent
  | errorSet : Nat → String → LogEvent
deriving DecidableEq, Repr

/-- Await point at which an in-flight `fetchAndBroadcast` is suspended:
`awaitingResponse` is line 144 (`await fetch`), `awaitingErrorText status
errorBody` is line 159 (`await response.text()`, the response's status and
eventual text kept), `streaming pending streamErr` is line 180
(`await reader.read()`, with the chunks not yet read and the eventual
stream outcome). -/
inductive Phase where
  | awaitingResponse : Phase
  | awaitingErrorText : Nat → String → Phase
  | streaming : List (List Nat) → Option String → Phase
deriving DecidableEq, Repr

/-- One in-flight `fetchAndBroadcast(sessionKey, b2Url, rangeHeader)` call
(started on line 113), tagged with the `startTime` of the session instance
it serves. -/
structure FetchTask where
  key : Key
  url : String
  range : String
  sid : Nat
  phase : Phase
deriving DecidableEq, Repr

/-- The state of the Durable Object: the `sessions` map (line 28), the
in-flight fetch tasks, the effect log and a logical clock (incremented at
every step; it plays the role of `Date.now()`). -/
structure DOState where
  sessions : List (Key × FileSession)
  tasks : List FetchTask
  log : List LogEvent
  clock : Nat
deriving DecidableEq, Repr

/-- `this.sessions.get(sessionKey)` — first binding for the key wins. -/
def lookupS : List (Key × FileSession) → Key → Option FileSession
  | [], _ => none
  | (k', s) :: rest, k => if k' = k then some s else lookupS rest k

/-- `this.sessions.set(sessionKey, session)` — replace or insert. -/
def msetS : List (Key × FileSession) → Key → FileSession → List (Key × FileSession)
  | [], k, s => [(k, s)]
  | (k', s') :: rest, k, s =>
    if k' = k then (k, s) :: rest else (k', s') :: msetS rest k s

/-- `this.sessions.delete(sessionKey)` (line 269). -/
def mdelS : List (Key × FileSession) → Key → List (Key × FileSession)
  | [], _ => []
  | (k', s') :: rest, k => if k' = k then mdelS rest k else (k', s') :: mdelS rest k

/-- `session.clients.add(server)` (line 91): JS `Set.add`, a no-op when the
element is already present, otherwise appended in iteration order. -/
def addClient (cs : List ClientId) (c : ClientId) : List ClientId :=
  if c ∈ cs then cs else cs ++ [c]

/-- Find the in-flight task for a key. -/
def tfind : List FetchTask → Key → Option FetchTask
  | [], _ => none
  | t :: ts, k => if t.key = k then some t else tfind ts k

/-- Replace the in-flight task for a key (the task advanced one segment). -/
def tset : List FetchTask → Key → FetchTask → List FetchTask
  | [], _, _ => []
  | t :: ts, k, t' => if t.key = k then t' :: ts else t :: tset ts k t'

/-- Drop the in-flight task for a key (its `fetchAndBroadcast` returned). -/
def tdel : List FetchTask → Key → List FetchTask
  | [], _ => []
  | t :: ts, k => if t.key = k then tdel ts k else t :: tdel ts k

/-- Model of the JS string method `.slice(0, n)` (lines 164, 200). -/
def sliceUpTo (s : String) (n : Nat) : String :=
  String.mk (s.data.take n)

/-- `response.ok`: status in the inclusive range 200-299. -/
def respOk (status : Nat) : Bool :=
  decide (200 ≤ status) && decide (status ≤ 299)

/-- The loop body shared by `broadcastText` (lines 207-223) and
`broadcastBinary` (lines 225-242): iterate the client set in order,
attempt `client.send`, catch a throw and collect the client for removal.
Returns the clients that survive (the set after the `toRemove` deletions)
and the extended log; the attempt for a client is indexed by the log length
at that moment. -/
def deliver (env : Env) (sid : Nat) (f : Frame) :
    List ClientId → List LogEvent → List ClientId × List LogEvent
  | [], log => ([], log)
  | c :: cs, log =>
    if env.sendFails c log.length then
      deliver env sid f cs (log ++ [.sendFailed sid c f])
    else
      let r := deliver env sid f cs (log ++ [.sent sid c f])
      (c :: r.1, r.2)

/-- `broadcastText` / `broadcastBinary`: look the session up by key
(lines 208, 226; absent session is a no-op), deliver the frame to every
client, prune the clients whose send threw. -/
def broadcast (env : Env) (st : DOState) (k : Key) (f : Frame) : DOState :=
  match lookupS st.sessions k with
  | none => st
  | some s =>
    let r := deliver env s.startTime f s.clients st.log
    { st with log := r.2, sessions := msetS st.sessions k { s with clients := r.1 } }

/-- `closeSession` (lines 244-270): absent session is a no-op; otherwise
close every remaining client with `(1000, 'Complete')` (close errors are
ignored) and delete the session from the registry. -/
def closeSession (st : DOState) (k : Key) : DOState :=
  match lookupS st.sessions k with
  | none => st
  | some s =>
    { st with
      log := st.log ++ s.clients.map (fun c => .closed s.startTime c 1000 "Complete"),
      sessions := mdelS st.sessions k }

/-- The assignment `session.error = v` (lines 160, 196), recorded in the
log so that the written value is observable. -/
def setErr (st : DOState) (k : Key) (v : String) : DOState :=
  match lookupS st.sessions k with
  | none => st
  | some s =>
    { st with
      sessions := msetS st.sessions k { s with error := some v },
      log := st.log ++ [.errorSet s.startTime v] }

/-- Lines 147-148: store `response.status` and the response headers on the
session. -/
def setResp (st : DOState) (k : Key) (status : Nat)
    (hdrs : List (String × String)) : DOState :=
  match lookupS st.sessions k with
  | none => st
  | some s =>
    let s' := { s with responseStatus := some status, responseHeaders := some hdrs }
    { st with sessions := msetS st.sessions k s' }

/-- One segment of `fetchAndBroadcast` (lines 132-205): the code between
the await point recorded in `t.phase` and the next suspension (or the end
of the function).  Returns the new state and the task's next suspension
(`none` when the function returned, i.e. after the `finally` ran).

From `awaitingResponse`: on a fetch throw, the `catch` block (lines
194-201) sets `session.error`, broadcasts a 500 `error` frame with the
message sliced to 500, and the `finally` closes the session.  On a
response: store status/headers (147-148), broadcast the `headers` frame
(151-155); if `!response.ok && status !== 206` suspend at
`await response.text()` (159); else if there is no body reader broadcast
`done` and close (172-175, plus the `finally`); else suspend at the first
`reader.read()`.

From `awaitingErrorText`: set `session.error` to the full body text
(line 160), broadcast the `error` frame with the message sliced to 500
(161-165), close the session (166), return (the `finally` closes again,
a no-op).

From `streaming`: a pending chunk is broadcast as a binary frame when
`value.length > 0` (188-191) and the loop suspends at the next read; an
exhausted stream broadcasts `done` and the `finally` closes (182-186,
202-204); a read throw runs the `catch` and the `finally`. -/
def fetchAndBroadcastSegment (env : Env) (st : DOState) (t : FetchTask) :
    DOState × Option FetchTask :=
  match t.phase with
  | .awaitingResponse =>
    match env.origin t.url t.range with
    | .throwBeforeResponse msg =>
      let st1 := setErr st t.key msg
      let st2 := broadcast env st1 t.key (.errorFrame 500 (sliceUpTo msg 500))
      (closeSession st2 t.key, none)
    | .respond status hdrs errBody bodyOpt =>
      let st1 := setResp st t.key status hdrs
      let st2 := broadcast env st1 t.key (.headersFrame status hdrs)
      if !respOk status && status ≠ 206 then
        (st2, some { t with phase := .awaitingErrorText status errBody })
      else
        match bodyOpt with
        | none =>
          let st3 := broadcast env st2 t.key .doneFrame
          (closeSession (closeSession st3 t.key) t.key, none)
        | some ob =>
          (st2, some { t with phase := .streaming ob.chunks ob.streamError })
  | .awaitingErrorText status errBody =>
    let st1 := setErr st t.key errBody
    let st2 := broadcast env st1 t.key (.errorFrame status (sliceUpTo errBody 500))
    (closeSession (closeSession st2 t.key) t.key, none)
  | .streaming pending streamErr =>
    match pending with
    | chunk :: rest =>
      let st1 := if 0 < chunk.length
        then broadcast env st t.key (.binaryFrame chunk) else st
      (st1, some { t with phase := .streaming rest streamErr })
    | [] =>
      match streamErr with
      | none =>
        let st1 := broadcast env st t.key .doneFrame
        (closeSession st1 t.key, none)
      | some msg =>
        let st1 := setErr st t.key msg
        let st2 := broadcast env st1 t.key (.errorFrame 500 (sliceUpTo msg 500))
        (closeSession st2 t.key, none)

/-- JS truthiness of `session.error` as used on line 111
(`!session.error`): `null` and the empty string are falsy. -/
def errFalsy : Option String → Bool
  | none => true
  | some m => m = ""

/-- One call of `DownloadCoalescer.fetch` (lines 35-120) for a WebSocket
upgrade request carrying `url = u` and `range = r`, with `c` the fresh
server-side WebSocket.  Key construction (54), get-or-create of the session
(71-88, `startTime` is the current clock), add the client and bump
`totalClients` (91-92), the synchronous catch-up `headers` frame when
`session.responseHeaders && session.responseStatus` are both truthy
(101-108; a status of 0 is falsy), and the leader-fetch start when
`!session.fetchInProgress && !session.error` (110-114), which issues the
origin request at once and suspends at `awaitingResponse`. -/
def coalescerFetch (_env : Env) (st : DOState) (c : ClientId) (u r : String) :
    DOState :=
  let k := buildKey u r
  let p : FileSession × DOState :=
    match lookupS st.sessions k with
    | some s => (s, st)
    | none =>
      let s : FileSession :=
        { url := u, clients := [], fetchInProgress := false,
          responseHeaders := none, responseStatus := none, error := none,
          startTime := st.clock, totalClients := 0 }
      (s, { st with sessions := msetS st.sessions k s })
  let s1 : FileSession :=
    { p.1 with clients := addClient p.1.clients c, totalClients := p.1.totalClients + 1 }
  let st1 := { p.2 with sessions := msetS p.2.sessions k s1 }
  let st2 :=
    match s1.responseHeaders, s1.responseStatus with
    | some h, some n =>
      if n ≠ 0 then
        { st1 with log := st1.log ++ [.sent s1.startTime c (.headersFrame n h)] }
      else st1
    | _, _ => st1
  if !s1.fetchInProgress && errFalsy s1.error then
    { st2 with
      sessions := msetS st2.sessions k { s1 with fetchInProgress := true },
      log := st2.log ++ [.originFetch k s1.startTime u r],
      tasks := st2.tasks ++
        [{ key := k, url := u, range := r, sid := s1.startTime,
           phase := .awaitingResponse }] }
  else st2

/-- `webSocketClose` / `webSocketError` (lines 273-292): look the client's
session up by its stored key and delete the client from `session.clients`;
nothing else. -/
def removeFromSession (st : DOState) (c : ClientId) (k : Key) : DOState :=
  match lookupS st.sessions k with
  | none => st
  | some s =>
    { st with sessions := msetS st.sessions k { s with clients := s.clients.erase c } }

/-- The schedulable units of the event loop: a `fetch` call (join), the
resumption of the in-flight leader fetch of a key at its current await
point, and the two disconnect handlers. -/
inductive Action where
  | join : ClientId → String → String → Action
  | resume : Key → Action
  | wsClose : ClientId → Key → Action
  | wsError : ClientId → Key → Action
deriving DecidableEq, Repr

/-- Dispatch one action. -/
def stepCore (env : Env) (st : DOState) : Action → DOState
  | .join c u r => coalescerFetch env st c u r
  | .resume k =>
    match tfind st.tasks k with
    | none => st
    | some t =>
      let p := fetchAndBroadcastSegment env st t
      match p.2 with
      | some t' => { p.1 with tasks := tset p.1.tasks k t' }
      | none => { p.1 with tasks := tdel p.1.tasks k }
  | .wsClose c k => removeFromSession st c k
  | .wsError c k => removeFromSession st c k

/-- One step of the event loop; the logical clock advances. -/
def step (env : Env) (st : DOState) (a : Action) : DOState :=
  let st' := stepCore env st a
  { st' with clock := st'.clock + 1 }

/-- The Durable Object starts with an empty registry (line 28). -/
def initState : DOState :=
  { sessions := [], tasks := [], log := [], clock := 0 }

/-- Run a list of scheduled actions from a given state. -/
def runFrom (env : Env) (st : DOState) (acts : List Action) : DOState :=
  acts.foldl (step env) st

/-- Run a list of scheduled actions from the initial state. -/
def run (env : Env) (acts : List Action) : DOState :=
  runFrom env initState acts

/-- The frames delivered to client `c`, in order. -/
def clientFrames (c : ClientId) (log : List LogEvent) : List Frame :=
  log.filterMap fun e =>
    match e with
    | .sent _ c' f => if c' = c then some f else none
    | _ => none

/-- Number of `originFetch` events for session instance `sid`. -/
def fetchCount (log : List LogEvent) (sid : Nat) : Nat :=
  log.countP fun e =>
    match e with
    | .originFetch _ sid' _ _ => sid' = sid
    | _ => false

def isHeaders : Frame → Bool
  | .headersFrame _ _ => true
  | _ => false

def isTerminal : Frame → Bool
  | .doneFrame => true
  | .errorFrame _ _ => true
  | _ => false

/-- The payloads of the binary frames in a frame sequence, in order. -/
def binChunks (fs : List Frame) : List (List Nat) :=
  fs.filterMap fun f =>
    match f with
    | .binaryFrame d => some d
    | _ => none

/-- Binary frames followed by at most one terminal frame and nothing after
it. -/
def tailOK : List Frame → Bool
  | [] => true
  | .binaryFrame _ :: r => tailOK r
  | [.doneFrame] => true
  | [.errorFrame _ _] => true
  | _ => false

/-- The per-subscriber frame-sequence discipline: optionally one `headers`
frame first, then binary chunks, then at most one terminal frame; a
session that fails before its headers were ever broadcast may also deliver
a bare terminal frame. -/
def seqOK : List Frame → Bool
  | [] => true
  | .headersFrame _ _ :: r => tailOK r
  | [.doneFrame] => true
  | [.errorFrame _ _] => true
  | _ => false

/-- The non-empty chunks the origin produces for `(u, r)`, in order
(empty when the origin throws, has no body, or fails). -/
def originNonemptyChunks (env : Env) (u r : String) : List (List Nat) :=
  match env.origin u r with
  | .respond _ _ _ (some ob) => ob.chunks.filter (fun d => !d.isEmpty)
  | _ => []


/-! ### Registry and task-list lemmas -/

theorem lookupS_mset (l : List (Key × FileSession)) (k k' : Key) (s : FileSession) :
    lookupS (msetS l k s) k' = if k = k' then some s else lookupS l k' := by
  induction l with
  | nil => simp [msetS, lookupS]
  | cons p rest ih =>
    obtain ⟨k0, s0⟩ := p
    by_cases h0 : k0 = k
    · subst h0
      simp only [msetS, if_pos rfl]
      by_cases h : k0 = k'
      · subst h
        simp [lookupS]
      · simp [lookupS, h]
    · simp only [msetS, if_neg h0, lookupS]
      by_cases h : k0 = k'
      · subst h
        have hkk : ¬(k = k0) := fun hh => h0 hh.symm
        simp [hkk]
      · simp [h, ih]

theorem lookupS_mdel (l : List (Key × FileSession)) (k k' : Key) :
    lookupS (mdelS l k) k' = if k = k' then none else lookupS l k' := by
  induction l with
  | nil => simp [mdelS, lookupS]
  | cons p rest ih =>
    obtain ⟨k0, s0⟩ := p
    by_cases h0 : k0 = k
    · subst h0
      simp only [mdelS, if_pos rfl, lookupS]
      by_cases h : k0 = k'
      · subst h
        simp [ih]
      · simp [h, ih]
    · simp only [mdelS, if_neg h0, lookupS]
      by_cases h : k0 = k'
      · subst h
        have hkk : ¬(k = k0) := fun hh => h0 hh.symm
        simp [hkk]
      · simp [h, ih]

theorem lookupS_eq_none_forall (l : List (Key × FileSession))
    (h : ∀ k, lookupS l k = none) : l = [] := by
  cases l with
  | nil => rfl
  | cons p rest =>
    have := h p.1
    simp [lookupS] at this

theorem tfind_mem {ts : List FetchTask} {k : Key} {t : FetchTask}
    (h : tfind ts k = some t) : t ∈ ts ∧ t.key = k := by
  induction ts with
  | nil => simp [tfind] at h
  | cons t0 rest ih =>
    by_cases h0 : t0.key = k
    · simp only [tfind, if_pos h0, Option.some.injEq] at h
      subst h
      exact ⟨List.mem_cons_self _ _, h0⟩
    · simp only [tfind, if_neg h0] at h
      obtain ⟨hm, hk⟩ := ih h
      exact ⟨List.mem_cons_of_mem _ hm, hk⟩

theorem tfind_eq_none {ts : List FetchTask} {k : Key}
    (h : tfind ts k = none) : ∀ t ∈ ts, t.key ≠ k := by
  induction ts with
  | nil => simp
  | cons t0 rest ih =>
    by_cases h0 : t0.key = k
    · simp [tfind, h0] at h
    · simp only [tfind, if_neg h0] at h
      intro t ht
      rcases List.mem_cons.mp ht with h1 | h1
      · subst h1; exact h0
      · exact ih h t h1

theorem mem_tdel {ts : List FetchTask} {k : Key} {t : FetchTask} :
    t ∈ tdel ts k ↔ t ∈ ts ∧ t.key ≠ k := by
  induction ts with
  | nil => simp [tdel]
  | cons t0 rest ih =>
    by_cases h0 : t0.key = k
    · simp only [tdel, if_pos h0, ih, List.mem_cons]
      constructor
      · rintro ⟨h1, h2⟩
        exact ⟨Or.inr h1, h2⟩
      · rintro ⟨h1 | h1, h2⟩
        · subst h1
          exact absurd h0 h2
        · exact ⟨h1, h2⟩
    · simp only [tdel, if_neg h0, List.mem_cons, ih]
      constructor
      · rintro (h | ⟨h1, h2⟩)
        · subst h
          exact ⟨Or.inl rfl, h0⟩
        · exact ⟨Or.inr h1, h2⟩
      · rintro ⟨h | h, h2⟩
        · subst h
          exact Or.inl rfl
        · exact Or.inr ⟨h, h2⟩

theorem tdel_sublist (ts : List FetchTask) (k : Key) : (tdel ts k).Sublist ts := by
  induction ts with
  | nil => simp [tdel]
  | cons t0 rest ih =>
    by_cases h0 : t0.key = k
    · simp only [tdel, if_pos h0]
      exact ih.cons _
    · simp only [tdel, if_neg h0]
      exact ih.cons₂ _

theorem tfind_tdel (ts : List FetchTask) (k k' : Key) :
    tfind (tdel ts k) k' = if k = k' then none else tfind ts k' := by
  induction ts with
  | nil => simp [tdel, tfind]
  | cons t0 rest ih =>
    by_cases h0 : t0.key = k
    · subst h0
      simp only [tdel, if_pos rfl, tfind]
      by_cases h : t0.key = k'
      · subst h
        simp [ih]
      · simp [h, ih]
    · simp only [tdel, if_neg h0, tfind]
      by_cases h : t0.key = k'
      · subst h
        have hkk : ¬(k = t0.key) := fun hh => h0 hh.symm
        simp [hkk]
      · simp [h, ih]

theorem mem_tset {ts : List FetchTask} {k : Key} {t' t'' : FetchTask}
    (h : t'' ∈ tset ts k t') : t'' = t' ∨ t'' ∈ ts := by
  induction ts with
  | nil => simp [tset] at h
  | cons t0 rest ih =>
    by_cases h0 : t0.key = k
    · simp only [tset, if_pos h0, List.mem_cons] at h
      rcases h with h | h
      · exact Or.inl h
      · exact Or.inr (List.mem_cons_of_mem _ h)
    · simp only [tset, if_neg h0, List.mem_cons] at h
      rcases h with h | h
      · exact Or.inr (h ▸ List.mem_cons_self _ _)
      · rcases ih h with h1 | h1
        · exact Or.inl h1
        · exact Or.inr (List.mem_cons_of_mem _ h1)

theorem mem_tset_ne {ts : List FetchTask} {k : Key} {t' t'' : FetchTask}
    (hk : t'.key = k) (h : t'' ∈ tset ts k t') (hne : t''.key ≠ k) : t'' ∈ ts := by
  induction ts with
  | nil => simp [tset] at h
  | cons t0 rest ih =>
    by_cases h0 : t0.key = k
    · simp only [tset, if_pos h0, List.mem_cons] at h
      rcases h with h | h
      · exact absurd (h ▸ hk) hne
      · exact List.mem_cons_of_mem _ h
    · simp only [tset, if_neg h0, List.mem_cons] at h
      rcases h with h | h
      · exact h ▸ List.mem_cons_self _ _
      · exact List.mem_cons_of_mem _ (ih h)

theorem mem_tset_key_eq {ts : List FetchTask} {k : Key} {t' t'' : FetchTask}
    (hnd : (ts.map FetchTask.key).Nodup)
    (h : t'' ∈ tset ts k t') (hke : t''.key = k) : t'' = t' ∨ tfind ts k = none := by
  induction ts with
  | nil =>
    simp [tset] at h
  | cons t0 rest ih =>
    by_cases h0 : t0.key = k
    · simp only [tset, if_pos h0, List.mem_cons] at h
      rcases h with h | h
      · exact Or.inl h
      · exfalso
        have : t''.key ∈ rest.map FetchTask.key := List.mem_map_of_mem _ h
        rw [hke, ← h0] at this
        exact (List.nodup_cons.mp (by simpa using hnd)).1 this
    · simp only [tset, if_neg h0, List.mem_cons] at h
      rcases h with h | h
      · exact absurd (h ▸ hke) h0
      · rcases ih (List.Nodup.of_cons (by simpa using hnd)) h with h1 | h1
        · exact Or.inl h1
        · right
          simp [tfind, h0, h1]

theorem mem_tset_of_mem {ts : List FetchTask} {k : Key} {t' t'' : FetchTask}
    (h : t'' ∈ ts) (hk : t''.key ≠ k) : t'' ∈ tset ts k t' := by
  induction ts with
  | nil => simp at h
  | cons t0 rest ih =>
    rcases List.mem_cons.mp h with h1 | h1
    · subst h1
      simp only [tset, if_neg hk]
      exact List.mem_cons_self _ _
    · by_cases h0 : t0.key = k
      · simp only [tset, if_pos h0]
        exact List.mem_cons_of_mem _ h1
      · simp only [tset, if_neg h0]
        exact List.mem_cons_of_mem _ (ih h1)

theorem self_mem_tset {ts : List FetchTask} {k : Key} {t t' : FetchTask}
    (h : tfind ts k = some t) : t' ∈ tset ts k t' := by
  induction ts with
  | nil => simp [tfind] at h
  | cons t0 rest ih =>
    by_cases h0 : t0.key = k
    · simp only [tset, if_pos h0]
      exact List.mem_cons_self _ _
    · simp only [tfind, if_neg h0] at h
      simp only [tset, if_neg h0]
      exact List.mem_cons_of_mem _ (ih h)

theorem tfind_tset (ts : List FetchTask) (k k' : Key) (t t' : FetchTask)
    (hk : t'.key = k) (hf : tfind ts k = some t) :
    tfind (tset ts k t') k' = if k = k' then some t' else tfind ts k' := by
  induction ts with
  | nil => simp [tfind] at hf
  | cons t0 rest ih =>
    by_cases h0 : t0.key = k
    · subst h0
      simp only [tset, if_pos rfl, tfind, hk]
      by_cases h : t0.key = k'
      · subst h
        simp
      · simp [h]
    · simp only [tfind, if_neg h0] at hf
      simp only [tset, if_neg h0, tfind]
      by_cases h : t0.key = k'
      · subst h
        have hkk : ¬(k = t0.key) := fun hh => h0 hh.symm
        simp [hkk]
      · simp [h, ih hf]

theorem map_key_tset (ts : List FetchTask) (k : Key) (t' : FetchTask)
    (hk : t'.key = k) :
    (tset ts k t').map FetchTask.key = ts.map FetchTask.key := by
  induction ts with
  | nil => simp [tset]
  | cons t0 rest ih =>
    by_cases h0 : t0.key = k
    · simp [tset, h0, hk]
    · simp [tset, h0, ih]

theorem tfind_append_none {ts : List FetchTask} {k : Key} (t0 : FetchTask)
    (h : tfind ts k = none) :
    tfind (ts ++ [t0]) k = if t0.key = k then some t0 else none := by
  induction ts with
  | nil => simp [tfind]
  | cons t1 rest ih =>
    by_cases h1 : t1.key = k
    · simp [tfind, h1] at h
    · simp only [tfind, if_neg h1] at h
      simpa [tfind, h1] using ih h

theorem tfind_append_some {ts : List FetchTask} {k : Key} {t : FetchTask}
    (t0 : FetchTask) (h : tfind ts k = some t) :
    tfind (ts ++ [t0]) k = some t := by
  induction ts with
  | nil => simp [tfind] at h
  | cons t1 rest ih =>
    by_cases h1 : t1.key = k
    · simp only [tfind, if_pos h1] at h ⊢
      exact h
    · simp only [List.cons_append, tfind, if_neg h1] at h ⊢
      exact ih h


/-! ### Frame-log lemmas -/

theorem clientFrames_append (c : ClientId) (l1 l2 : List LogEvent) :
    clientFrames c (l1 ++ l2) = clientFrames c l1 ++ clientFrames c l2 := by
  simp [clientFrames, List.filterMap_append]

theorem clientFrames_sent_self (c : ClientId) (sid : Nat) (f : Frame) :
    clientFrames c [.sent sid c f] = [f] := by
  simp [clientFrames]

theorem clientFrames_sent_ne {c c' : ClientId} (sid : Nat) (f : Frame)
    (h : c' ≠ c) : clientFrames c [.sent sid c' f] = [] := by
  simp [clientFrames, h]

theorem clientFrames_sendFailed (c c' : ClientId) (sid : Nat) (f : Frame) :
    clientFrames c [.sendFailed sid c' f] = [] := by
  simp [clientFrames]

theorem clientFrames_closed_map (c : ClientId) (sid : Nat) (cs : List ClientId)
    (code : Nat) (reason : String) :
    clientFrames c (cs.map fun c' => .closed sid c' code reason) = [] := by
  induction cs with
  | nil => simp [clientFrames]
  | cons c0 rest ih =>
    simp [clientFrames]

theorem clientFrames_errorSet (c : ClientId) (sid : Nat) (v : String) :
    clientFrames c [.errorSet sid v] = [] := by
  simp [clientFrames]

theorem clientFrames_originFetch (c : ClientId) (k : Key) (sid : Nat) (u r : String) :
    clientFrames c [.originFetch k sid u r] = [] := by
  simp [clientFrames]

/-! ### Broadcast-loop (`deliver`) lemmas -/

theorem deliver_snd_shape (env : Env) (sid : Nat) (f : Frame) :
    ∀ (cs : List ClientId) (log : List LogEvent),
      ∃ es, (deliver env sid f cs log).2 = log ++ es ∧
        ∀ e ∈ es, ∃ c, c ∈ cs ∧ (e = .sent sid c f ∨ e = .sendFailed sid c f) := by
  intro cs
  induction cs with
  | nil =>
    intro log
    exact ⟨[], by simp [deliver], by simp⟩
  | cons c0 rest ih =>
    intro log
    by_cases hf : env.sendFails c0 log.length
    · obtain ⟨es, h1, h2⟩ := ih (log ++ [.sendFailed sid c0 f])
      refine ⟨.sendFailed sid c0 f :: es, ?_, ?_⟩
      · simp [deliver, hf, h1]
      · intro e he
        rcases List.mem_cons.mp he with h | h
        · exact ⟨c0, List.mem_cons_self _ _, Or.inr h⟩
        · obtain ⟨c, hc, hor⟩ := h2 e h
          exact ⟨c, List.mem_cons_of_mem _ hc, hor⟩
    · obtain ⟨es, h1, h2⟩ := ih (log ++ [.sent sid c0 f])
      refine ⟨.sent sid c0 f :: es, ?_, ?_⟩
      · simp [deliver, hf, h1]
      · intro e he
        rcases List.mem_cons.mp he with h | h
        · exact ⟨c0, List.mem_cons_self _ _, Or.inl h⟩
        · obtain ⟨c, hc, hor⟩ := h2 e h
          exact ⟨c, List.mem_cons_of_mem _ hc, hor⟩

theorem deliver_fst_sublist (env : Env) (sid : Nat) (f : Frame) :
    ∀ (cs : List ClientId) (log : List LogEvent),
      (deliver env sid f cs log).1.Sublist cs := by
  intro cs
  induction cs with
  | nil => intro log; simp [deliver]
  | cons c0 rest ih =>
    intro log
    by_cases hf : env.sendFails c0 log.length
    · simp only [deliver, if_pos hf]
      exact (ih _).cons _
    · simp only [deliver, if_neg hf]
      exact (ih _).cons₂ _

theorem deliver_clean (env : Env) (sid : Nat) (f : Frame) {c : ClientId}
    (hok : ∀ n, env.sendFails c n = false) :
    ∀ (cs : List ClientId) (log : List LogEvent), c ∈ cs →
      c ∈ (deliver env sid f cs log).1 ∧ .sent sid c f ∈ (deliver env sid f cs log).2 := by
  intro cs
  induction cs with
  | nil => intro log h; simp at h
  | cons c0 rest ih =>
    intro log hmem
    by_cases hf : env.sendFails c0 log.length
    · have hne : c ≠ c0 := by
        intro hh
        subst hh
        rw [hok log.length] at hf
        exact Bool.false_ne_true hf
      have hc : c ∈ rest := by
        rcases List.mem_cons.mp hmem with h | h
        · exact absurd h hne
        · exact h
      have := ih (log ++ [.sendFailed sid c0 f]) hc
      simp only [deliver, if_pos hf]
      exact this
    · simp only [deliver, if_neg hf]
      rcases List.mem_cons.mp hmem with h | h
      · subst h
        constructor
        · exact List.mem_cons_self _ _
        · obtain ⟨es, h1, _⟩ := deliver_snd_shape env sid f rest (log ++ [.sent sid c f])
          rw [h1]
          simp
      · have := ih (log ++ [.sent sid c0 f]) h
        exact ⟨List.mem_cons_of_mem _ this.1, this.2⟩

theorem deliver_removed (env : Env) (sid : Nat) (f : Frame) :
    ∀ (cs : List ClientId) (log : List LogEvent) (c : ClientId), c ∈ cs →
      c ∉ (deliver env sid f cs log).1 → ∃ n, env.sendFails c n = true := by
  intro cs
  induction cs with
  | nil => intro log c h; simp at h
  | cons c0 rest ih =>
    intro log c hmem hnot
    by_cases hf : env.sendFails c0 log.length
    · simp only [deliver, if_pos hf] at hnot
      rcases List.mem_cons.mp hmem with h | h
      · subst h
        exact ⟨log.length, hf⟩
      · exact ih _ c h hnot
    · simp only [deliver, if_neg hf] at hnot
      rcases List.mem_cons.mp hmem with h | h
      · subst h
        exact absurd (List.mem_cons_self _ _) hnot
      · exact ih _ c h (fun hh => hnot (List.mem_cons_of_mem _ hh))

theorem deliver_frames_not_mem (env : Env) (sid : Nat) (f : Frame) :
    ∀ (cs : List ClientId) (log : List LogEvent) (c : ClientId), c ∉ cs →
      clientFrames c (deliver env sid f cs log).2 = clientFrames c log := by
  intro cs
  induction cs with
  | nil => intro log c h; simp [deliver]
  | cons c0 rest ih =>
    intro log c hnot
    have hne : c0 ≠ c := fun hh => hnot (hh ▸ List.mem_cons_self _ _)
    have hrest : c ∉ rest := fun hh => hnot (List.mem_cons_of_mem _ hh)
    by_cases hf : env.sendFails c0 log.length
    · simp only [deliver, if_pos hf]
      rw [ih _ c hrest, clientFrames_append]
      simp [clientFrames_sendFailed]
    · simp only [deliver, if_neg hf]
      rw [ih _ c hrest, clientFrames_append, clientFrames_sent_ne sid f hne]
      simp

theorem deliver_frames_mem (env : Env) (sid : Nat) (f : Frame) :
    ∀ (cs : List ClientId) (log : List LogEvent) (c : ClientId), cs.Nodup → c ∈ cs →
      clientFrames c (deliver env sid f cs log).2 =
        clientFrames c log ++
          (if c ∈ (deliver env sid f cs log).1 then [f] else []) := by
  intro cs
  induction cs with
  | nil => intro log c _ h; simp at h
  | cons c0 rest ih =>
    intro log c hnd hmem
    have hnd0 : c0 ∉ rest := (List.nodup_cons.mp hnd).1
    have hndr : rest.Nodup := (List.nodup_cons.mp hnd).2
    by_cases hf : env.sendFails c0 log.length
    · simp only [deliver, if_pos hf]
      rcases List.mem_cons.mp hmem with h | h
      · subst h
        rw [deliver_frames_not_mem env sid f rest _ c hnd0, clientFrames_append]
        have hnk : c ∉ (deliver env sid f rest (log ++ [.sendFailed sid c f])).1 :=
          fun hh => hnd0 ((deliver_fst_sublist env sid f rest _).mem hh)
        simp [clientFrames_sendFailed, hnk]
      · rw [ih _ c hndr h]
        simp [clientFrames_append, clientFrames_sendFailed]
    · simp only [deliver, if_neg hf]
      rcases List.mem_cons.mp hmem with h | h
      · subst h
        rw [deliver_frames_not_mem env sid f rest _ c hnd0, clientFrames_append,
          clientFrames_sent_self]
        simp
      · have hne : c ≠ c0 := fun hh => hnd0 (hh ▸ h)
        rw [ih _ c hndr h]
        rw [clientFrames_append, clientFrames_sent_ne sid f (fun hh => hne hh.symm)]
        by_cases hc : c ∈ (deliver env sid f rest (log ++ [.sent sid c0 f])).1 <;>
          simp [hc, hne]

theorem deliver_fst_nodup (env : Env) (sid : Nat) (f : Frame)
    (cs : List ClientId) (log : List LogEvent) (h : cs.Nodup) :
    (deliver env sid f cs log).1.Nodup :=
  (deliver_fst_sublist env sid f cs log).nodup h

theorem deliver_log_mem (env : Env) (sid : Nat) (f : Frame)
    (cs : List ClientId) (log : List LogEvent) {e : LogEvent} (h : e ∈ log) :
    e ∈ (deliver env sid f cs log).2 := by
  obtain ⟨es, h1, _⟩ := deliver_snd_shape env sid f cs log
  rw [h1]
  exact List.mem_append_left _ h


/-! ### State-shape lemmas for the session-mutating operations -/

theorem broadcast_none {env : Env} {st : DOState} {k : Key} (f : Frame)
    (h : lookupS st.sessions k = none) : broadcast env st k f = st := by
  simp [broadcast, h]

theorem broadcast_some {env : Env} {st : DOState} {k : Key} {s : FileSession} (f : Frame)
    (h : lookupS st.sessions k = some s) :
    broadcast env st k f =
      { st with log := (deliver env s.startTime f s.clients st.log).2,
                sessions := msetS st.sessions k
                  { s with clients := (deliver env s.startTime f s.clients st.log).1 } } := by
  simp [broadcast, h]

theorem broadcast_tasks (env : Env) (st : DOState) (k : Key) (f : Frame) :
    (broadcast env st k f).tasks = st.tasks := by
  cases h : lookupS st.sessions k
  · rw [broadcast_none f h]
  · rw [broadcast_some f h]

theorem broadcast_clock (env : Env) (st : DOState) (k : Key) (f : Frame) :
    (broadcast env st k f).clock = st.clock := by
  cases h : lookupS st.sessions k
  · rw [broadcast_none f h]
  · rw [broadcast_some f h]

theorem broadcast_lookup_ne (env : Env) (st : DOState) (k k' : Key) (f : Frame)
    (h : k ≠ k') :
    lookupS (broadcast env st k f).sessions k' = lookupS st.sessions k' := by
  cases hl : lookupS st.sessions k
  · rw [broadcast_none f hl]
  · rw [broadcast_some f hl]
    simp [lookupS_mset, h]

theorem broadcast_log_shape (env : Env) (st : DOState) (k : Key) (f : Frame) :
    ∃ es, (broadcast env st k f).log = st.log ++ es ∧
      ∀ e ∈ es, ∃ sid c, e = .sent sid c f ∨ e = .sendFailed sid c f := by
  cases hl : lookupS st.sessions k
  · rw [broadcast_none f hl]
    exact ⟨[], by simp, by simp⟩
  · case some s =>
    rw [broadcast_some f hl]
    obtain ⟨es, h1, h2⟩ := deliver_snd_shape env s.startTime f s.clients st.log
    refine ⟨es, h1, ?_⟩
    intro e he
    obtain ⟨c, _, hor⟩ := h2 e he
    exact ⟨s.startTime, c, hor⟩

theorem closeSession_none {st : DOState} {k : Key}
    (h : lookupS st.sessions k = none) : closeSession st k = st := by
  simp [closeSession, h]

theorem closeSession_some {st : DOState} {k : Key} {s : FileSession}
    (h : lookupS st.sessions k = some s) :
    closeSession st k =
      { st with log := st.log ++ s.clients.map (fun c => .closed s.startTime c 1000 "Complete"),
                sessions := mdelS st.sessions k } := by
  simp [closeSession, h]

theorem closeSession_tasks (st : DOState) (k : Key) :
    (closeSession st k).tasks = st.tasks := by
  cases h : lookupS st.sessions k
  · rw [closeSession_none h]
  · rw [closeSession_some h]

theorem closeSession_clock (st : DOState) (k : Key) :
    (closeSession st k).clock = st.clock := by
  cases h : lookupS st.sessions k
  · rw [closeSession_none h]
  · rw [closeSession_some h]

theorem closeSession_lookup_self (st : DOState) (k : Key) :
    lookupS (closeSession st k).sessions k = none := by
  cases h : lookupS st.sessions k
  · rw [closeSession_none h]; exact h
  · rw [closeSession_some h]
    simp [lookupS_mdel]

theorem closeSession_lookup_ne (st : DOState) (k k' : Key) (h : k ≠ k') :
    lookupS (closeSession st k).sessions k' = lookupS st.sessions k' := by
  cases hl : lookupS st.sessions k
  · rw [closeSession_none hl]
  · rw [closeSession_some hl]
    simp [lookupS_mdel, h]

theorem closeSession_frames (st : DOState) (k : Key) (c : ClientId) :
    clientFrames c (closeSession st k).log = clientFrames c st.log := by
  cases hl : lookupS st.sessions k
  · rw [closeSession_none hl]
  · case some s =>
    rw [closeSession_some hl]
    simp only [clientFrames_append, clientFrames_closed_map]
    simp

theorem closeSession_log_shape (st : DOState) (k : Key) :
    ∃ es, (closeSession st k).log = st.log ++ es ∧
      ∀ e ∈ es, ∃ sid c, e = LogEvent.closed sid c 1000 "Complete" := by
  cases hl : lookupS st.sessions k
  · rw [closeSession_none hl]
    exact ⟨[], by simp, by simp⟩
  · case some s =>
    rw [closeSession_some hl]
    refine ⟨_, rfl, ?_⟩
    intro e he
    obtain ⟨c, _, hc⟩ := List.mem_map.mp he
    exact ⟨s.startTime, c, hc.symm⟩

theorem setErr_none {st : DOState} {k : Key} {v : String}
    (h : lookupS st.sessions k = none) : setErr st k v = st := by
  simp [setErr, h]

theorem setErr_some {st : DOState} {k : Key} {s : FileSession} {v : String}
    (h : lookupS st.sessions k = some s) :
    setErr st k v =
      { st with sessions := msetS st.sessions k { s with error := some v },
                log := st.log ++ [.errorSet s.startTime v] } := by
  simp [setErr, h]

theorem setErr_tasks (st : DOState) (k : Key) (v : String) :
    (setErr st k v).tasks = st.tasks := by
  cases h : lookupS st.sessions k
  · rw [setErr_none h]
  · rw [setErr_some h]

theorem setErr_clock (st : DOState) (k : Key) (v : String) :
    (setErr st k v).clock = st.clock := by
  cases h : lookupS st.sessions k
  · rw [setErr_none h]
  · rw [setErr_some h]

theorem setErr_lookup_ne (st : DOState) (k k' : Key) (v : String) (h : k ≠ k') :
    lookupS (setErr st k v).sessions k' = lookupS st.sessions k' := by
  cases hl : lookupS st.sessions k
  · rw [setErr_none hl]
  · rw [setErr_some hl]
    simp [lookupS_mset, h]

theorem setErr_frames (st : DOState) (k : Key) (v : String) (c : ClientId) :
    clientFrames c (setErr st k v).log = clientFrames c st.log := by
  cases hl : lookupS st.sessions k
  · rw [setErr_none hl]
  · rw [setErr_some hl]
    simp [clientFrames_append, clientFrames_errorSet]

theorem setErr_log_shape (st : DOState) (k : Key) (v : String) :
    ∃ es, (setErr st k v).log = st.log ++ es ∧
      ∀ e ∈ es, ∃ sid, e = LogEvent.errorSet sid v := by
  cases hl : lookupS st.sessions k
  · rw [setErr_none hl]
    exact ⟨[], by simp, by simp⟩
  · case some s =>
    rw [setErr_some hl]
    exact ⟨_, rfl, by simp⟩

theorem setResp_none {st : DOState} {k : Key} {status : Nat} {hdrs : List (String × String)}
    (h : lookupS st.sessions k = none) : setResp st k status hdrs = st := by
  simp [setResp, h]

theorem setResp_some {st : DOState} {k : Key} {s : FileSession} {status : Nat}
    {hdrs : List (String × String)} (h : lookupS st.sessions k = some s) :
    setResp st k status hdrs =
      { st with sessions := msetS st.sessions k ({ s with responseStatus := some status, responseHeaders := some hdrs }) } := by
  simp [setResp, h]

theorem setResp_tasks (st : DOState) (k : Key) (status : Nat)
    (hdrs : List (String × String)) : (setResp st k status hdrs).tasks = st.tasks := by
  cases h : lookupS st.sessions k
  · rw [setResp_none h]
  · rw [setResp_some h]

theorem setResp_clock (st : DOState) (k : Key) (status : Nat)
    (hdrs : List (String × String)) : (setResp st k status hdrs).clock = st.clock := by
  cases h : lookupS st.sessions k
  · rw [setResp_none h]
  · rw [setResp_some h]

theorem setResp_log (st : DOState) (k : Key) (status : Nat)
    (hdrs : List (String × String)) : (setResp st k status hdrs).log = st.log := by
  cases h : lookupS st.sessions k
  · rw [setResp_none h]
  · rw [setResp_some h]

theorem setResp_lookup_ne (st : DOState) (k k' : Key) (status : Nat)
    (hdrs : List (String × String)) (h : k ≠ k') :
    lookupS (setResp st k status hdrs).sessions k' = lookupS st.sessions k' := by
  cases hl : lookupS st.sessions k
  · rw [setResp_none hl]
  · rw [setResp_some hl]
    simp [lookupS_mset, h]

theorem removeFromSession_tasks (st : DOState) (c : ClientId) (k : Key) :
    (removeFromSession st c k).tasks = st.tasks := by
  unfold removeFromSession
  cases lookupS st.sessions k <;> rfl

theorem removeFromSession_log (st : DOState) (c : ClientId) (k : Key) :
    (removeFromSession st c k).log = st.log := by
  unfold removeFromSession
  cases lookupS st.sessions k <;> rfl

theorem removeFromSession_clock (st : DOState) (c : ClientId) (k : Key) :
    (removeFromSession st c k).clock = st.clock := by
  unfold removeFromSession
  cases lookupS st.sessions k <;> rfl

theorem removeFromSession_lookup_ne (st : DOState) (c : ClientId) (k k' : Key)
    (h : k ≠ k') :
    lookupS (removeFromSession st c k).sessions k' = lookupS st.sessions k' := by
  unfold removeFromSession
  cases hl : lookupS st.sessions k
  · rfl
  · simp [lookupS_mset, h]

theorem removeFromSession_lookup_self {st : DOState} {c : ClientId} {k : Key}
    {s : FileSession} (h : lookupS st.sessions k = some s) :
    lookupS (removeFromSession st c k).sessions k = some { s with clients := s.clients.erase c } := by
  unfold removeFromSession
  simp [h, lookupS_mset]


/-! ### Claim C3: the coalescing key -/

theorem pipe_split {l1 t1 l2 t2 : List Char} (h1 : '|' ∉ l1) (h2 : '|' ∉ l2)
    (h : l1 ++ '|' :: t1 = l2 ++ '|' :: t2) : l1 = l2 ∧ t1 = t2 := by
  induction l1 generalizing l2 with
  | nil =>
    cases l2 with
    | nil => simpa using h
    | cons d l2' =>
      simp only [List.nil_append, List.cons_append, List.cons.injEq] at h
      exact absurd (h.1 ▸ List.mem_cons_self _ _) h2
  | cons c l1' ih =>
    cases l2 with
    | nil =>
      simp only [List.nil_append, List.cons_append, List.cons.injEq] at h
      exact absurd (h.1 ▸ List.mem_cons_self _ _) h1
    | cons d l2' =>
      simp only [List.cons_append, List.cons.injEq] at h
      have h1' : '|' ∉ l1' := fun hh => h1 (List.mem_cons_of_mem _ hh)
      have h2' : '|' ∉ l2' := fun hh => h2 (List.mem_cons_of_mem _ hh)
      obtain ⟨he, ht⟩ := ih h1' h2' h.2
      exact ⟨by rw [h.1, he], ht⟩

def envC3 : Env :=
  { origin := fun _ _ => .respond 200 [] "" none,
    sendFails := fun _ _ => false }

/-- Claim C3, counterexample: the key builder concatenates the object
locator and the range expression with a `"|"` separator (line 54), which
is not injective.  The distinct request pairs `("a|", "")` and
`("a", "|")` are assigned the same key; run concretely, the two joins
land in one shared session (with both clients attached) and only one
origin fetch is issued, refuting "distinct (locator, range) pairs never
collide onto one key". -/
theorem C3_counterexample :
    buildKey "a|" "" = buildKey "a" "|" ∧
    ¬ (("a|", "") = (("a", "|") : String × String)) ∧
    (run envC3 [.join 0 "a|" "", .join 1 "a" "|"]).sessions.length = 1 ∧
    lookupS (run envC3 [.join 0 "a|" "", .join 1 "a" "|"]).sessions (buildKey "a|" "") =
      some { url := "a|", clients := [0, 1], fetchInProgress := true,
             responseHeaders := none, responseStatus := none, error := none,
             startTime := 0, totalClients := 2 } ∧
    fetchCount (run envC3 [.join 0 "a|" "", .join 1 "a" "|"]).log 0 = 1 := by
  refine ⟨by decide, by decide, ?_, ?_, ?_⟩ <;> decide

/-- Claim C3, amended: two requests are assigned the same coalescing key
if and only if the strings `locator ++ "|" ++ range` coincide; in
particular, when neither object locator contains the `"|"` separator
character, two requests share a key (and hence a session) if and only if
both the locator and the exact range expression are equal.  (Same locator
with different ranges still always yields different keys, since the
locator is a common prefix.) -/
theorem C3_key_characterization (u1 r1 u2 r2 : String) :
    (buildKey u1 r1 = buildKey u2 r2 ↔ u1 ++ "|" ++ r1 = u2 ++ "|" ++ r2) ∧
    ('|' ∉ u1.data → '|' ∉ u2.data →
      (buildKey u1 r1 = buildKey u2 r2 ↔ u1 = u2 ∧ r1 = r2)) ∧
    (r1 ≠ r2 → buildKey u1 r1 ≠ buildKey u1 r2) := by
  have hpipe : ("|" : String).data = ['|'] := rfl
  refine ⟨Iff.rfl, ?_, ?_⟩
  · intro h1 h2
    constructor
    · intro h
      have hd : u1.data ++ '|' :: r1.data = u2.data ++ '|' :: r2.data := by
        have := congrArg String.data h
        simpa [buildKey, String.data_append, hpipe] using this
      obtain ⟨hu, hr⟩ := pipe_split h1 h2 hd
      exact ⟨String.ext hu, String.ext hr⟩
    · rintro ⟨hu, hr⟩
      rw [hu, hr]
  · intro hne h
    have hd : u1.data ++ '|' :: r1.data = u1.data ++ '|' :: r2.data := by
      have := congrArg String.data h
      simpa [buildKey, String.data_append, hpipe] using this
    have h2 := List.append_cancel_left hd
    simp only [List.cons.injEq, true_and] at h2
    exact hne (String.ext h2)

/-- Claim C3 witness: the amended characterization applied at concrete
inputs. -/
theorem C3_witness :
    ('|' ∉ ("a" : String).data) ∧ ('|' ∉ ("b" : String).data) ∧
    (buildKey "a" "bytes=0-99" = buildKey "b" "bytes=0-99" ↔
      ("a" : String) = "b" ∧ ("bytes=0-99" : String) = "bytes=0-99") :=
  ⟨by decide, by decide,
    (C3_key_characterization "a" "bytes=0-99" "b" "bytes=0-99").2.1 (by decide) (by decide)⟩

/-! ### Claim C8: disconnect handlers -/

/-- Claim C8: a subscriber disconnect notification (`webSocketClose` /
`webSocketError`, lines 273-292) only deletes that client from its
session's client set: the in-flight tasks are untouched (the leader fetch
is not cancelled), no frame is sent or logged, every other session is
unchanged, and the session itself stays in the registry with all fields
except `clients` unchanged — even when the departing subscriber was the
last one.  The error handler has exactly the same effect as the close
handler. -/
theorem C8_disconnect_only_removes (env : Env) (st : DOState) (c : ClientId) (k : Key) :
    (step env st (.wsClose c k)).tasks = st.tasks ∧
    (step env st (.wsClose c k)).log = st.log ∧
    (∀ k', k ≠ k' → lookupS (step env st (.wsClose c k)).sessions k' = lookupS st.sessions k') ∧
    (lookupS st.sessions k = none → (step env st (.wsClose c k)).sessions = st.sessions) ∧
    (∀ s, lookupS st.sessions k = some s →
      lookupS (step env st (.wsClose c k)).sessions k =
        some { s with clients := s.clients.erase c }) ∧
    step env st (.wsError c k) = step env st (.wsClose c k) := by
  refine ⟨?_, ?_, ?_, ?_, ?_, ?_⟩
  · simp [step, stepCore, removeFromSession_tasks]
  · simp [step, stepCore, removeFromSession_log]
  · intro k' hk
    simp [step, stepCore, removeFromSession_lookup_ne st c k k' hk]
  · intro h
    simp [step, stepCore, removeFromSession, h]
  · intro s h
    simp [step, stepCore, removeFromSession_lookup_self h]
  · simp [step, stepCore]

def envW : Env :=
  { origin := fun _ _ => .respond 200 [("ct", "x")] "" (some ⟨[[1]], none⟩),
    sendFails := fun _ _ => false }

/-- Claim C8 witness: after one join, a `wsClose` for the sole subscriber
leaves the session in the registry with only `clients` emptied, and the
task alive. -/
theorem C8_witness :
    (step envW (run envW [.join 0 "u" ""]) (.wsClose 0 "u|")).tasks =
      (run envW [.join 0 "u" ""]).tasks ∧
    lookupS (step envW (run envW [.join 0 "u" ""]) (.wsClose 0 "u|")).sessions "u|" =
      some { url := "u", clients := List.erase [0] 0, fetchInProgress := true,
             responseHeaders := none, responseStatus := none, error := none,
             startTime := 0, totalClients := 1 } :=
  ⟨(C8_disconnect_only_removes envW (run envW [.join 0 "u" ""]) 0 "u|").1,
    (C8_disconnect_only_removes envW (run envW [.join 0 "u" ""]) 0 "u|").2.2.2.2.1
      { url := "u", clients := [0], fetchInProgress := true,
        responseHeaders := none, responseStatus := none, error := none,
        startTime := 0, totalClients := 1 } (by decide)⟩


/-! ### Clean-subscriber membership preservation -/

theorem setErr_lookup_self {st : DOState} {k : Key} {s : FileSession} (v : String)
    (h : lookupS st.sessions k = some s) :
    lookupS (setErr st k v).sessions k = some { s with error := some v } := by
  rw [setErr_some h]
  simp [lookupS_mset]

theorem setResp_lookup_self {st : DOState} {k : Key} {s : FileSession} (status : Nat)
    (hdrs : List (String × String)) (h : lookupS st.sessions k = some s) :
    lookupS (setResp st k status hdrs).sessions k =
      some ({ s with responseStatus := some status, responseHeaders := some hdrs }) := by
  rw [setResp_some h]
  simp [lookupS_mset]

theorem broadcast_lookup_self (env : Env) {st : DOState} {k : Key} {s : FileSession}
    (f : Frame) (h : lookupS st.sessions k = some s) :
    lookupS (broadcast env st k f).sessions k =
      some ({ s with clients := (deliver env s.startTime f s.clients st.log).1 }) := by
  rw [broadcast_some f h]
  simp [lookupS_mset]

theorem clean_mem_broadcast (env : Env) (st : DOState) (k : Key) (f : Frame)
    {c : ClientId} (hok : ∀ n, env.sendFails c n = false)
    {k0 : Key} {s0 : FileSession} (h0 : lookupS st.sessions k0 = some s0)
    (hm : c ∈ s0.clients) :
    ∀ s1, lookupS (broadcast env st k f).sessions k0 = some s1 → c ∈ s1.clients := by
  intro s1 h1
  by_cases hk : k = k0
  · subst hk
    rw [broadcast_lookup_self env f h0] at h1
    cases h1
    exact (deliver_clean env s0.startTime f hok s0.clients st.log hm).1
  · rw [broadcast_lookup_ne env st k k0 f hk, h0] at h1
    cases h1
    exact hm

theorem clean_mem_setErr (st : DOState) (k : Key) (v : String) {c : ClientId}
    {k0 : Key} {s0 : FileSession} (h0 : lookupS st.sessions k0 = some s0)
    (hm : c ∈ s0.clients) :
    ∀ s1, lookupS (setErr st k v).sessions k0 = some s1 → c ∈ s1.clients := by
  intro s1 h1
  by_cases hk : k = k0
  · subst hk
    rw [setErr_lookup_self v h0] at h1
    cases h1
    exact hm
  · rw [setErr_lookup_ne st k k0 v hk, h0] at h1
    cases h1
    exact hm

theorem clean_mem_setResp (st : DOState) (k : Key) (status : Nat)
    (hdrs : List (String × String)) {c : ClientId}
    {k0 : Key} {s0 : FileSession} (h0 : lookupS st.sessions k0 = some s0)
    (hm : c ∈ s0.clients) :
    ∀ s1, lookupS (setResp st k status hdrs).sessions k0 = some s1 → c ∈ s1.clients := by
  intro s1 h1
  by_cases hk : k = k0
  · subst hk
    rw [setResp_lookup_self status hdrs h0] at h1
    cases h1
    exact hm
  · rw [setResp_lookup_ne st k k0 status hdrs hk, h0] at h1
    cases h1
    exact hm

theorem clean_mem_closeSession (st : DOState) (k : Key) {c : ClientId}
    {k0 : Key} {s0 : FileSession} (h0 : lookupS st.sessions k0 = some s0)
    (hm : c ∈ s0.clients) :
    ∀ s1, lookupS (closeSession st k).sessions k0 = some s1 → c ∈ s1.clients := by
  intro s1 h1
  by_cases hk : k = k0
  · subst hk
    rw [closeSession_lookup_self st k] at h1
    cases h1
  · rw [closeSession_lookup_ne st k k0 hk, h0] at h1
    cases h1
    exact hm

/-- Membership of a fixed client in the session at a fixed key, phrased so
that it is vacuous while the session is absent. -/
def ClientIn (c : ClientId) (k0 : Key) (st : DOState) : Prop :=
  ∀ s, lookupS st.sessions k0 = some s → c ∈ s.clients

theorem ClientIn.of_lookup {c : ClientId} {k0 : Key} {st : DOState} {s0 : FileSession}
    (h : lookupS st.sessions k0 = some s0) (hm : c ∈ s0.clients) : ClientIn c k0 st := by
  intro s hs
  rw [h] at hs
  cases hs
  exact hm

theorem ClientIn.setErr {c : ClientId} {k0 : Key} {st : DOState} (k : Key) (v : String)
    (h : ClientIn c k0 st) : ClientIn c k0 (setErr st k v) := by
  intro s1 h1
  by_cases hk : k = k0
  · subst hk
    cases hl : lookupS st.sessions k with
    | none =>
      rw [setErr_none hl] at h1
      exact h s1 h1
    | some s =>
      rw [setErr_lookup_self v hl] at h1
      cases h1
      exact h s hl
  · rw [setErr_lookup_ne st k k0 v hk] at h1
    exact h s1 h1

theorem ClientIn.setResp {c : ClientId} {k0 : Key} {st : DOState} (k : Key)
    (status : Nat) (hdrs : List (String × String))
    (h : ClientIn c k0 st) : ClientIn c k0 (setResp st k status hdrs) := by
  intro s1 h1
  by_cases hk : k = k0
  · subst hk
    cases hl : lookupS st.sessions k with
    | none =>
      rw [setResp_none hl] at h1
      exact h s1 h1
    | some s =>
      rw [setResp_lookup_self status hdrs hl] at h1
      cases h1
      exact h s hl
  · rw [setResp_lookup_ne st k k0 status hdrs hk] at h1
    exact h s1 h1

theorem ClientIn.broadcast {env : Env} {c : ClientId} {k0 : Key} {st : DOState}
    (k : Key) (f : Frame) (hok : ∀ n, env.sendFails c n = false)
    (h : ClientIn c k0 st) : ClientIn c k0 (broadcast env st k f) := by
  intro s1 h1
  by_cases hk : k = k0
  · subst hk
    cases hl : lookupS st.sessions k with
    | none =>
      rw [broadcast_none f hl] at h1
      exact h s1 h1
    | some s =>
      rw [broadcast_lookup_self env f hl] at h1
      cases h1
      exact (deliver_clean env s.startTime f hok s.clients st.log (h s hl)).1
  · rw [broadcast_lookup_ne env st k k0 f hk] at h1
    exact h s1 h1

theorem ClientIn.closeSession {c : ClientId} {k0 : Key} {st : DOState} (k : Key)
    (h : ClientIn c k0 st) : ClientIn c k0 (closeSession st k) := by
  intro s1 h1
  by_cases hk : k = k0
  · subst hk
    rw [closeSession_lookup_self st k] at h1
    cases h1
  · rw [closeSession_lookup_ne st k k0 hk] at h1
    exact h s1 h1

theorem ClientIn.segment {env : Env} {c : ClientId} {k0 : Key} {st : DOState}
    (t : FetchTask) (hok : ∀ n, env.sendFails c n = false)
    (h : ClientIn c k0 st) : ClientIn c k0 (fetchAndBroadcastSegment env st t).1 := by
  cases hp : t.phase with
  | awaitingResponse =>
    cases ho : env.origin t.url t.range with
    | throwBeforeResponse msg =>
      simp only [fetchAndBroadcastSegment, hp, ho]
      exact ((h.setErr _ _).broadcast _ _ hok).closeSession _
    | respond status hdrs errBody bodyOpt =>
      simp only [fetchAndBroadcastSegment, hp, ho]
      by_cases hc : !respOk status && status ≠ 206
      · simp only [hc, if_true]
        exact (h.setResp _ _ _).broadcast _ _ hok
      · simp only [hc, if_false]
        cases bodyOpt with
        | none =>
          exact ((((h.setResp _ _ _).broadcast _ _ hok).broadcast _ _ hok).closeSession
            _).closeSession _
        | some ob =>
          exact (h.setResp _ _ _).broadcast _ _ hok
  | awaitingErrorText status errBody =>
    simp only [fetchAndBroadcastSegment, hp]
    exact (((h.setErr _ _).broadcast _ _ hok).closeSession _).closeSession _
  | streaming pending streamErr =>
    cases pending with
    | cons chunk rest =>
      simp only [fetchAndBroadcastSegment, hp]
      by_cases hc : 0 < chunk.length
      · simp only [hc, if_true]
        exact h.broadcast _ _ hok
      · simp only [hc, if_false]
        exact h
    | nil =>
      cases streamErr with
      | none =>
        simp only [fetchAndBroadcastSegment, hp]
        exact (h.broadcast _ _ hok).closeSession _
      | some msg =>
        simp only [fetchAndBroadcastSegment, hp]
        exact ((h.setErr _ _).broadcast _ _ hok).closeSession _

/-! ### Join-shape lemmas -/

theorem msetS_msetS (l : List (Key × FileSession)) (k : Key) (s s' : FileSession) :
    msetS (msetS l k s) k s' = msetS l k s' := by
  induction l with
  | nil => simp [msetS]
  | cons p rest ih =>
    obtain ⟨k0, s0⟩ := p
    by_cases h0 : k0 = k
    · simp [msetS, h0]
    · simp [msetS, h0, ih]

/-- The log events of the catch-up `headers` send on lines 101-108: one
frame when both `responseHeaders` and `responseStatus` are truthy, nothing
otherwise. -/
def catchupFrames (s0 : FileSession) (c : ClientId) : List LogEvent :=
  match s0.responseHeaders, s0.responseStatus with
  | some hh, some n =>
    if n ≠ 0 then [.sent s0.startTime c (.headersFrame n hh)] else []
  | _, _ => []

theorem catchupFrames_mem {s0 : FileSession} {c : ClientId} :
    ∀ e ∈ catchupFrames s0 c, ∃ n hh, e = .sent s0.startTime c (.headersFrame n hh) := by
  intro e he
  unfold catchupFrames at he
  cases hh0 : s0.responseHeaders with
  | none =>
    rw [hh0] at he
    simp at he
  | some hh =>
    cases hn0 : s0.responseStatus with
    | none =>
      rw [hh0, hn0] at he
      simp at he
    | some n =>
      rw [hh0, hn0] at he
      dsimp only at he
      by_cases hn : n ≠ 0
      · rw [if_pos hn] at he
        simp at he
        exact ⟨n, hh, he⟩
      · rw [if_neg hn] at he
        simp at he

/-- The effect of `DownloadCoalescer.fetch` when a session for the key is
already registered and its leader fetch has started: the client is added,
`totalClients` is bumped, the catch-up `headers` frame is sent exactly when
both header fields are truthy, and no new fetch or task is created. -/
theorem coalescerFetch_existing (env : Env) {st : DOState} (c : ClientId)
    (u r : String) {s0 : FileSession}
    (hl : lookupS st.sessions (buildKey u r) = some s0)
    (hfip : s0.fetchInProgress = true) :
    coalescerFetch env st c u r =
      { st with
        sessions := msetS st.sessions (buildKey u r)
          ({ s0 with clients := addClient s0.clients c,
                     totalClients := s0.totalClients + 1 }),
        log := st.log ++ catchupFrames s0 c } := by
  simp only [coalescerFetch, hl]
  cases hh : s0.responseHeaders with
  | none =>
    simp [hfip, catchupFrames, hh]
  | some h =>
    cases hn : s0.responseStatus with
    | none => simp [hfip, catchupFrames, hh, hn]
    | some n =>
      by_cases h0 : n ≠ 0
      · simp [hfip, catchupFrames, hh, hn, h0]
      · simp [hfip, catchupFrames, hh, hn, h0]

/-- The effect of `DownloadCoalescer.fetch` when no session is registered
for the key: a fresh session is created with this client as sole member,
the leader fetch is started (logged, and a task at `awaitingResponse` is
spawned), and no catch-up frame is sent. -/
theorem coalescerFetch_new (env : Env) {st : DOState} (c : ClientId) (u r : String)
    (hl : lookupS st.sessions (buildKey u r) = none) :
    coalescerFetch env st c u r =
      { st with
        sessions := msetS st.sessions (buildKey u r)
          ({ url := u, clients := [c], fetchInProgress := true,
             responseHeaders := none, responseStatus := none, error := none,
             startTime := st.clock, totalClients := 1 }),
        log := st.log ++ [.originFetch (buildKey u r) st.clock u r],
        tasks := st.tasks ++
          [{ key := buildKey u r, url := u, range := r, sid := st.clock,
             phase := .awaitingResponse }] } := by
  simp [coalescerFetch, hl, addClient, errFalsy, msetS_msetS]

theorem coalescerFetch_lookup_ne (env : Env) (st : DOState) (c : ClientId)
    (u r : String) (k' : Key) (h : buildKey u r ≠ k') :
    lookupS (coalescerFetch env st c u r).sessions k' = lookupS st.sessions k' := by
  cases hl : lookupS st.sessions (buildKey u r) with
  | none =>
    rw [coalescerFetch_new env c u r hl]
    simp [lookupS_mset, h]
  | some s0 =>
    simp only [coalescerFetch, hl]
    cases hh : s0.responseHeaders with
    | none =>
      by_cases hf : !s0.fetchInProgress && errFalsy s0.error <;>
        simp [hf, lookupS_mset, h, msetS_msetS]
    | some hdr =>
      cases hn : s0.responseStatus with
      | none =>
        by_cases hf : !s0.fetchInProgress && errFalsy s0.error <;>
          simp [hf, hh, lookupS_mset, h, msetS_msetS]
      | some n =>
        by_cases h0 : n ≠ 0 <;>
          by_cases hf : !s0.fetchInProgress && errFalsy s0.error <;>
            simp [hf, hh, hn, h0, lookupS_mset, h, msetS_msetS]

theorem coalescerFetch_clients_existing (env : Env) {st : DOState} (c : ClientId)
    (u r : String) {s0 : FileSession}
    (hl : lookupS st.sessions (buildKey u r) = some s0) :
    ∀ s1, lookupS (coalescerFetch env st c u r).sessions (buildKey u r) = some s1 →
      s1.clients = addClient s0.clients c := by
  intro s1 h1
  simp only [coalescerFetch, hl] at h1
  cases hh : s0.responseHeaders with
  | none =>
    by_cases hf : !s0.fetchInProgress && errFalsy s0.error <;>
      { simp [hf, hh, lookupS_mset, msetS_msetS] at h1
        rw [← h1] }
  | some hdr =>
    cases hn : s0.responseStatus with
    | none =>
      by_cases hf : !s0.fetchInProgress && errFalsy s0.error <;>
        { simp [hf, hh, hn, lookupS_mset, msetS_msetS] at h1
          rw [← h1] }
    | some n =>
      by_cases h0 : n ≠ 0 <;>
        by_cases hf : !s0.fetchInProgress && errFalsy s0.error <;>
          { simp [hf, hh, hn, h0, lookupS_mset, msetS_msetS] at h1
            rw [← h1] }

theorem ClientIn.step {env : Env} {c : ClientId} {k0 : Key} {st : DOState}
    {s0 : FileSession} (a : Action)
    (hok : ∀ n, env.sendFails c n = false)
    (hnc : ∀ c' k', (a = .wsClose c' k' ∨ a = .wsError c' k') → c' ≠ c)
    (hpre : lookupS st.sessions k0 = some s0) (hm : c ∈ s0.clients) :
    ClientIn c k0 (step env st a) := by
  have h : ClientIn c k0 st := ClientIn.of_lookup hpre hm
  have hcore : ClientIn c k0 (stepCore env st a) := by
    cases a with
    | join c' u r =>
      intro s1 h1
      simp only [stepCore] at h1
      by_cases hk : buildKey u r = k0
      · subst hk
        have := coalescerFetch_clients_existing env c' u r hpre s1 h1
        rw [this]
        unfold addClient
        by_cases hcc : c' ∈ s0.clients
        · simp only [if_pos hcc]
          exact hm
        · simp only [if_neg hcc]
          exact List.mem_append_left _ hm
      · rw [coalescerFetch_lookup_ne env st c' u r k0 hk] at h1
        exact h s1 h1
    | resume k =>
      simp only [stepCore]
      cases ht : tfind st.tasks k with
      | none => exact h
      | some t =>
        have hseg : ClientIn c k0 (fetchAndBroadcastSegment env st t).1 :=
          h.segment t hok
        cases hp : (fetchAndBroadcastSegment env st t).2 with
        | some t' =>
          intro s1 h1
          simp only [hp] at h1
          exact hseg s1 h1
        | none =>
          intro s1 h1
          simp only [hp] at h1
          exact hseg s1 h1
    | wsClose c' k =>
      have hne : c' ≠ c := hnc c' k (Or.inl rfl)
      intro s1 h1
      simp only [stepCore] at h1
      by_cases hk : k = k0
      · subst hk
        rw [removeFromSession_lookup_self hpre] at h1
        cases h1
        exact List.mem_erase_of_ne (fun hh => hne hh.symm) |>.mpr hm
      · rw [removeFromSession_lookup_ne st c' k k0 hk] at h1
        exact h s1 h1
    | wsError c' k =>
      have hne : c' ≠ c := hnc c' k (Or.inr rfl)
      intro s1 h1
      simp only [stepCore] at h1
      by_cases hk : k = k0
      · subst hk
        rw [removeFromSession_lookup_self hpre] at h1
        cases h1
        exact List.mem_erase_of_ne (fun hh => hne hh.symm) |>.mpr hm
      · rw [removeFromSession_lookup_ne st c' k k0 hk] at h1
        exact h s1 h1
  intro s1 h1
  exact hcore s1 h1


/-! ### Claim C7: fan-out prunes failing subscribers and isolates them -/

/-- Claim C7: a broadcast over a session's subscriber set (`broadcastText`
lines 207-223 / `broadcastBinary` lines 225-242) never aborts and never
perturbs anything besides that session's client set and the log: the
in-flight tasks, the clock and every other session are unchanged (no error
is raised to the orchestrator).  The surviving client set is a sub-sequence
of the original; a client is dropped only if one of its delivery attempts
failed; and every client whose delivery attempts always succeed both
receives the frame and survives the broadcast.  Moreover (last conjunct)
such a clean client's membership in its session is preserved by every step
other than its own disconnect notification, so it keeps receiving every
subsequent frame of the session. -/
theorem C7_fanout_isolation (env : Env) (st : DOState) (k : Key) (f : Frame)
    (s : FileSession) (h : lookupS st.sessions k = some s) :
    (broadcast env st k f).tasks = st.tasks ∧
    (broadcast env st k f).clock = st.clock ∧
    (∀ k', k ≠ k' → lookupS (broadcast env st k f).sessions k' = lookupS st.sessions k') ∧
    lookupS (broadcast env st k f).sessions k =
      some ({ s with clients := (deliver env s.startTime f s.clients st.log).1 }) ∧
    (deliver env s.startTime f s.clients st.log).1.Sublist s.clients ∧
    (∀ c, c ∈ s.clients → c ∉ (deliver env s.startTime f s.clients st.log).1 →
      ∃ n, env.sendFails c n = true) ∧
    (∀ c, c ∈ s.clients → (∀ n, env.sendFails c n = false) →
      c ∈ (deliver env s.startTime f s.clients st.log).1 ∧
      LogEvent.sent s.startTime c f ∈ (broadcast env st k f).log) ∧
    (∀ (a : Action) (c : ClientId) (k0 : Key) (s0 : FileSession),
      (∀ c' k', (a = .wsClose c' k' ∨ a = .wsError c' k') → c' ≠ c) →
      (∀ n, env.sendFails c n = false) →
      lookupS st.sessions k0 = some s0 → c ∈ s0.clients →
      ∀ s1, lookupS (step env st a).sessions k0 = some s1 → c ∈ s1.clients) := by
  refine ⟨broadcast_tasks env st k f, broadcast_clock env st k f,
    fun k' hk => broadcast_lookup_ne env st k k' f hk,
    broadcast_lookup_self env f h,
    deliver_fst_sublist env s.startTime f s.clients st.log,
    fun c hc hn => deliver_removed env s.startTime f s.clients st.log c hc hn,
    fun c hc hok => ?_,
    fun a c k0 s0 hnc hok hpre hm => ClientIn.step a hok hnc hpre hm⟩
  have hd := deliver_clean env s.startTime f hok s.clients st.log hc
  refine ⟨hd.1, ?_⟩
  rw [broadcast_some f h]
  exact hd.2

def envC7 : Env :=
  { origin := fun _ _ => .respond 200 [("ct", "x")] "" (some ⟨[[7], [8]], none⟩),
    sendFails := fun c _ => c == 1 }

/-- Claim C7 witness: with client 1's transport dead, broadcasting `done`
over the two-subscriber session drops client 1 (a failed attempt exists),
while client 0 receives the frame and survives. -/
theorem C7_witness :
    (∃ n, envC7.sendFails 1 n = true) ∧
    0 ∈ (deliver envC7 0 Frame.doneFrame [0, 1]
      (run envC7 [.join 0 "u" "", .join 1 "u" ""]).log).1 ∧
    LogEvent.sent 0 0 Frame.doneFrame ∈
      (broadcast envC7 (run envC7 [.join 0 "u" "", .join 1 "u" ""]) "u|"
        Frame.doneFrame).log := by
  have h := C7_fanout_isolation envC7 (run envC7 [.join 0 "u" "", .join 1 "u" ""])
    "u|" Frame.doneFrame
    { url := "u", clients := [0, 1], fetchInProgress := true,
      responseHeaders := none, responseStatus := none, error := none,
      startTime := 0, totalClients := 2 } (by decide)
  refine ⟨h.2.2.2.2.2.1 1 (by decide) (by decide), ?_, ?_⟩
  · exact (h.2.2.2.2.2.2.1 0 (by decide) (fun n => rfl)).1
  · exact (h.2.2.2.2.2.2.1 0 (by decide) (fun n => rfl)).2


/-! ### Provenance of sessions: a session at a key is either inherited or
freshly created at the current clock -/

theorem setErr_startTime (st : DOState) (k : Key) (v : String) (k0 : Key) :
    ∀ s1, lookupS (setErr st k v).sessions k0 = some s1 →
      ∃ s0, lookupS st.sessions k0 = some s0 ∧ s1.startTime = s0.startTime := by
  intro s1 h1
  by_cases hk : k = k0
  · subst hk
    cases hl : lookupS st.sessions k with
    | none =>
      rw [setErr_none hl, hl] at h1
      exact Option.noConfusion h1
    | some s =>
      rw [setErr_lookup_self v hl] at h1
      cases h1
      exact ⟨s, rfl, rfl⟩
  · rw [setErr_lookup_ne st k k0 v hk] at h1
    exact ⟨s1, h1, rfl⟩

theorem setResp_startTime (st : DOState) (k : Key) (status : Nat)
    (hdrs : List (String × String)) (k0 : Key) :
    ∀ s1, lookupS (setResp st k status hdrs).sessions k0 = some s1 →
      ∃ s0, lookupS st.sessions k0 = some s0 ∧ s1.startTime = s0.startTime := by
  intro s1 h1
  by_cases hk : k = k0
  · subst hk
    cases hl : lookupS st.sessions k with
    | none =>
      rw [setResp_none hl, hl] at h1
      exact Option.noConfusion h1
    | some s =>
      rw [setResp_lookup_self status hdrs hl] at h1
      cases h1
      exact ⟨s, rfl, rfl⟩
  · rw [setResp_lookup_ne st k k0 status hdrs hk] at h1
    exact ⟨s1, h1, rfl⟩

theorem broadcast_startTime (env : Env) (st : DOState) (k : Key) (f : Frame) (k0 : Key) :
    ∀ s1, lookupS (broadcast env st k f).sessions k0 = some s1 →
      ∃ s0, lookupS st.sessions k0 = some s0 ∧ s1.startTime = s0.startTime := by
  intro s1 h1
  by_cases hk : k = k0
  · subst hk
    cases hl : lookupS st.sessions k with
    | none =>
      rw [broadcast_none f hl, hl] at h1
      exact Option.noConfusion h1
    | some s =>
      rw [broadcast_lookup_self env f hl] at h1
      cases h1
      exact ⟨s, rfl, rfl⟩
  · rw [broadcast_lookup_ne env st k k0 f hk] at h1
    exact ⟨s1, h1, rfl⟩

theorem closeSession_startTime (st : DOState) (k : Key) (k0 : Key) :
    ∀ s1, lookupS (closeSession st k).sessions k0 = some s1 →
      ∃ s0, lookupS st.sessions k0 = some s0 ∧ s1.startTime = s0.startTime := by
  intro s1 h1
  by_cases hk : k = k0
  · subst hk
    rw [closeSession_lookup_self st k] at h1
    cases h1
  · rw [closeSession_lookup_ne st k k0 hk] at h1
    exact ⟨s1, h1, rfl⟩

theorem removeFromSession_startTime (st : DOState) (c : ClientId) (k : Key) (k0 : Key) :
    ∀ s1, lookupS (removeFromSession st c k).sessions k0 = some s1 →
      ∃ s0, lookupS st.sessions k0 = some s0 ∧ s1.startTime = s0.startTime := by
  intro s1 h1
  by_cases hk : k = k0
  · subst hk
    cases hl : lookupS st.sessions k with
    | none =>
      unfold removeFromSession at h1
      rw [hl] at h1
      simp only at h1
      rw [hl] at h1
      exact Option.noConfusion h1
    | some s =>
      rw [removeFromSession_lookup_self hl] at h1
      cases h1
      exact ⟨s, rfl, rfl⟩
  · rw [removeFromSession_lookup_ne st c k k0 hk] at h1
    exact ⟨s1, h1, rfl⟩

theorem segment_startTime (env : Env) (st : DOState) (t : FetchTask) (k0 : Key) :
    ∀ s1, lookupS (fetchAndBroadcastSegment env st t).1.sessions k0 = some s1 →
      ∃ s0, lookupS st.sessions k0 = some s0 ∧ s1.startTime = s0.startTime := by
  intro s1 h1
  cases hp : t.phase with
  | awaitingResponse =>
    cases ho : env.origin t.url t.range with
    | throwBeforeResponse msg =>
      simp only [fetchAndBroadcastSegment, hp, ho] at h1
      obtain ⟨s2, h2, e2⟩ := closeSession_startTime _ _ _ _ h1
      obtain ⟨s3, h3, e3⟩ := broadcast_startTime _ _ _ _ _ _ h2
      obtain ⟨s4, h4, e4⟩ := setErr_startTime _ _ _ _ _ h3
      exact ⟨s4, h4, by rw [e2, e3, e4]⟩
    | respond status hdrs errBody bodyOpt =>
      simp only [fetchAndBroadcastSegment, hp, ho] at h1
      by_cases hc : !respOk status && status ≠ 206
      · simp only [hc, if_true] at h1
        obtain ⟨s2, h2, e2⟩ := broadcast_startTime _ _ _ _ _ _ h1
        obtain ⟨s3, h3, e3⟩ := setResp_startTime _ _ _ _ _ _ h2
        exact ⟨s3, h3, by rw [e2, e3]⟩
      · simp only [hc, if_false] at h1
        cases bodyOpt with
        | none =>
          obtain ⟨s2, h2, e2⟩ := closeSession_startTime _ _ _ _ h1
          obtain ⟨s3, h3, e3⟩ := closeSession_startTime _ _ _ _ h2
          obtain ⟨s4, h4, e4⟩ := broadcast_startTime _ _ _ _ _ _ h3
          obtain ⟨s5, h5, e5⟩ := broadcast_startTime _ _ _ _ _ _ h4
          obtain ⟨s6, h6, e6⟩ := setResp_startTime _ _ _ _ _ _ h5
          exact ⟨s6, h6, by rw [e2, e3, e4, e5, e6]⟩
        | some ob =>
          obtain ⟨s2, h2, e2⟩ := broadcast_startTime _ _ _ _ _ _ h1
          obtain ⟨s3, h3, e3⟩ := setResp_startTime _ _ _ _ _ _ h2
          exact ⟨s3, h3, by rw [e2, e3]⟩
  | awaitingErrorText status errBody =>
    simp only [fetchAndBroadcastSegment, hp] at h1
    obtain ⟨s2, h2, e2⟩ := closeSession_startTime _ _ _ _ h1
    obtain ⟨s3, h3, e3⟩ := closeSession_startTime _ _ _ _ h2
    obtain ⟨s4, h4, e4⟩ := broadcast_startTime _ _ _ _ _ _ h3
    obtain ⟨s5, h5, e5⟩ := setErr_startTime _ _ _ _ _ h4
    exact ⟨s5, h5, by rw [e2, e3, e4, e5]⟩
  | streaming pending streamErr =>
    cases pending with
    | cons chunk rest =>
      simp only [fetchAndBroadcastSegment, hp] at h1
      by_cases hc : 0 < chunk.length
      · simp only [hc, if_true] at h1
        exact broadcast_startTime _ _ _ _ _ _ h1
      · simp only [hc, if_false] at h1
        exact ⟨s1, h1, rfl⟩
    | nil =>
      cases streamErr with
      | none =>
        simp only [fetchAndBroadcastSegment, hp] at h1
        obtain ⟨s2, h2, e2⟩ := closeSession_startTime _ _ _ _ h1
        obtain ⟨s3, h3, e3⟩ := broadcast_startTime _ _ _ _ _ _ h2
        exact ⟨s3, h3, by rw [e2, e3]⟩
      | some msg =>
        simp only [fetchAndBroadcastSegment, hp] at h1
        obtain ⟨s2, h2, e2⟩ := closeSession_startTime _ _ _ _ h1
        obtain ⟨s3, h3, e3⟩ := broadcast_startTime _ _ _ _ _ _ h2
        obtain ⟨s4, h4, e4⟩ := setErr_startTime _ _ _ _ _ h3
        exact ⟨s4, h4, by rw [e2, e3, e4]⟩

theorem coalescerFetch_fields_existing (env : Env) {st : DOState} (c : ClientId)
    (u r : String) {s0 : FileSession}
    (hl : lookupS st.sessions (buildKey u r) = some s0) :
    ∀ s1, lookupS (coalescerFetch env st c u r).sessions (buildKey u r) = some s1 →
      s1.url = s0.url ∧ s1.clients = addClient s0.clients c ∧
      s1.responseHeaders = s0.responseHeaders ∧ s1.responseStatus = s0.responseStatus ∧
      s1.error = s0.error ∧ s1.startTime = s0.startTime ∧
      s1.totalClients = s0.totalClients + 1 ∧
      (s1.fetchInProgress = s0.fetchInProgress ∨ s1.fetchInProgress = true) := by
  intro s1 h1
  simp only [coalescerFetch, hl] at h1
  cases hh : s0.responseHeaders with
  | none =>
    by_cases hf : !s0.fetchInProgress && errFalsy s0.error <;>
      { simp [hf, hh, lookupS_mset, msetS_msetS] at h1
        rw [← h1]
        simp [hh] }
  | some hdr =>
    cases hn : s0.responseStatus with
    | none =>
      by_cases hf : !s0.fetchInProgress && errFalsy s0.error <;>
        { simp [hf, hh, hn, lookupS_mset, msetS_msetS] at h1
          rw [← h1]
          simp [hh, hn] }
    | some n =>
      by_cases h0 : n ≠ 0 <;>
        by_cases hf : !s0.fetchInProgress && errFalsy s0.error <;>
          { simp [hf, hh, hn, h0, lookupS_mset, msetS_msetS] at h1
            rw [← h1]
            simp [hh, hn] }

theorem step_lookup_origin (env : Env) (st : DOState) (a : Action) (k0 : Key) :
    ∀ s1, lookupS (step env st a).sessions k0 = some s1 →
      (∃ s0, lookupS st.sessions k0 = some s0 ∧ s1.startTime = s0.startTime) ∨
      (lookupS st.sessions k0 = none ∧ s1.startTime = st.clock) := by
  intro s1 h1
  cases a with
  | join c u r =>
    simp only [step, stepCore] at h1
    by_cases hk : buildKey u r = k0
    · subst hk
      cases hl : lookupS st.sessions (buildKey u r) with
      | none =>
        right
        refine ⟨rfl, ?_⟩
        rw [coalescerFetch_new env c u r hl] at h1
        simp [lookupS_mset] at h1
        rw [← h1]
      | some s0 =>
        left
        exact ⟨s0, rfl, (coalescerFetch_fields_existing env c u r hl s1 h1).2.2.2.2.2.1⟩
    · rw [coalescerFetch_lookup_ne env st c u r k0 hk] at h1
      exact Or.inl ⟨s1, h1, rfl⟩
  | resume k =>
    simp only [step, stepCore] at h1
    cases ht : tfind st.tasks k with
    | none =>
      rw [ht] at h1
      exact Or.inl ⟨s1, h1, rfl⟩
    | some t =>
      rw [ht] at h1
      cases hp : (fetchAndBroadcastSegment env st t).2 with
      | some t' =>
        simp only [hp] at h1
        exact Or.inl (segment_startTime env st t k0 s1 h1)
      | none =>
        simp only [hp] at h1
        exact Or.inl (segment_startTime env st t k0 s1 h1)
  | wsClose c k =>
    simp only [step, stepCore] at h1
    exact Or.inl (removeFromSession_startTime st c k k0 s1 h1)
  | wsError c k =>
    simp only [step, stepCore] at h1
    exact Or.inl (removeFromSession_startTime st c k k0 s1 h1)

theorem coalescerFetch_clock (env : Env) (st : DOState) (c : ClientId) (u r : String) :
    (coalescerFetch env st c u r).clock = st.clock := by
  cases hl : lookupS st.sessions (buildKey u r) with
  | none => rw [coalescerFetch_new env c u r hl]
  | some s0 =>
    simp only [coalescerFetch, hl]
    cases hh : s0.responseHeaders with
    | none =>
      by_cases hf : !s0.fetchInProgress && errFalsy s0.error <;> simp [hf, hh]
    | some hdr =>
      cases hn : s0.responseStatus with
      | none =>
        by_cases hf : !s0.fetchInProgress && errFalsy s0.error <;> simp [hf, hh, hn]
      | some n =>
        by_cases h0 : n ≠ 0 <;>
          by_cases hf : !s0.fetchInProgress && errFalsy s0.error <;>
            simp [hf, hh, hn, h0]

theorem segment_clock (env : Env) (st : DOState) (t : FetchTask) :
    (fetchAndBroadcastSegment env st t).1.clock = st.clock := by
  cases hp : t.phase with
  | awaitingResponse =>
    cases ho : env.origin t.url t.range with
    | throwBeforeResponse msg =>
      simp only [fetchAndBroadcastSegment, hp, ho]
      rw [closeSession_clock, broadcast_clock, setErr_clock]
    | respond status hdrs errBody bodyOpt =>
      simp only [fetchAndBroadcastSegment, hp, ho]
      by_cases hc : !respOk status && status ≠ 206
      · rw [if_pos hc]
        dsimp only
        rw [broadcast_clock, setResp_clock]
      · rw [if_neg hc]
        cases bodyOpt with
        | none =>
          dsimp only
          rw [closeSession_clock, closeSession_clock, broadcast_clock,
            broadcast_clock, setResp_clock]
        | some ob =>
          dsimp only
          rw [broadcast_clock, setResp_clock]
  | awaitingErrorText status errBody =>
    simp only [fetchAndBroadcastSegment, hp]
    rw [closeSession_clock, closeSession_clock, broadcast_clock, setErr_clock]
  | streaming pending streamErr =>
    cases pending with
    | cons chunk rest =>
      simp only [fetchAndBroadcastSegment, hp]
      by_cases hc : 0 < chunk.length
      · simp only [hc, if_true]
        rw [broadcast_clock]
      · simp only [hc, if_false]
    | nil =>
      cases streamErr with
      | none =>
        simp only [fetchAndBroadcastSegment, hp]
        rw [closeSession_clock, broadcast_clock]
      | some msg =>
        simp only [fetchAndBroadcastSegment, hp]
        rw [closeSession_clock, broadcast_clock, setErr_clock]

theorem step_clock (env : Env) (st : DOState) (a : Action) :
    (step env st a).clock = st.clock + 1 := by
  cases a with
  | join c u r =>
    simp only [step, stepCore]
    rw [coalescerFetch_clock]
  | resume k =>
    simp only [step, stepCore]
    cases ht : tfind st.tasks k with
    | none => rfl
    | some t =>
      cases hp : (fetchAndBroadcastSegment env st t).2 with
      | some t' =>
        simp only [hp]
        rw [segment_clock]
      | none =>
        simp only [hp]
        rw [segment_clock]
  | wsClose c k =>
    simp only [step, stepCore]
    rw [removeFromSession_clock]
  | wsError c k =>
    simp only [step, stepCore]
    rw [removeFromSession_clock]


/-! ### Claim C9: terminated sessions are never resurrected -/

theorem runFrom_cons (env : Env) (st : DOState) (a : Action) (rest : List Action) :
    runFrom env st (a :: rest) = runFrom env (step env st a) rest := rfl

theorem run_append (env : Env) (acts more : List Action) :
    run env (acts ++ more) = runFrom env (run env acts) more := by
  simp [run, runFrom, List.foldl_append]

theorem fresh_aux (env : Env) (k : Key) (n : Nat) :
    ∀ (more : List Action) (st : DOState), n ≤ st.clock →
      (∀ s', lookupS st.sessions k = some s' → n ≤ s'.startTime) →
      ∀ s', lookupS (runFrom env st more).sessions k = some s' → n ≤ s'.startTime := by
  intro more
  induction more with
  | nil =>
    intro st h1 h2
    exact h2
  | cons a rest ih =>
    intro st h1 h2
    rw [runFrom_cons]
    apply ih (step env st a)
    · rw [step_clock]
      omega
    · intro s' hs'
      rcases step_lookup_origin env st a k s' hs' with ⟨s0, hl0, he⟩ | ⟨hl0, he⟩
      · rw [he]
        exact h2 s0 hl0
      · rw [he]
        exact h1

/-- Claim C9: (a) a join for a key with no registered session creates a
brand-new session with fresh state — creation timestamp equal to the
current clock, one client, counters reset, no headers, no status, no
error — starts the leader fetch (`fetchInProgress = true`), logs a new
origin fetch for the fresh session instance, and spawns its own task at
the first await point; (b) once the registry holds no session for a key,
any session found at that key after any further steps was created no
earlier than the current clock — so a torn-down session instance (whose
`startTime` is strictly below the clock at teardown) is never the one
found later: joins after teardown always observe a fresh instance. -/
theorem C9_no_resurrection (env : Env) :
    (∀ (st : DOState) (c : ClientId) (u r : String),
      lookupS st.sessions (buildKey u r) = none →
        lookupS (step env st (.join c u r)).sessions (buildKey u r) =
          some { url := u, clients := [c], fetchInProgress := true,
                 responseHeaders := none, responseStatus := none, error := none,
                 startTime := st.clock, totalClients := 1 } ∧
        (step env st (.join c u r)).log =
          st.log ++ [.originFetch (buildKey u r) st.clock u r] ∧
        (step env st (.join c u r)).tasks =
          st.tasks ++ [{ key := buildKey u r, url := u, range := r, sid := st.clock,
                         phase := .awaitingResponse }]) ∧
    (∀ (acts more : List Action) (k : Key) (s' : FileSession),
      lookupS (run env acts).sessions k = none →
      lookupS (run env (acts ++ more)).sessions k = some s' →
      (run env acts).clock ≤ s'.startTime) := by
  constructor
  · intro st c u r hl
    simp only [step, stepCore]
    rw [coalescerFetch_new env c u r hl]
    refine ⟨?_, rfl, rfl⟩
    simp [lookupS_mset]
  · intro acts more k s' hnone hsome
    rw [run_append] at hsome
    refine fresh_aux env k (run env acts).clock more (run env acts) le_rfl ?_ s' hsome
    intro s0 hs0
    rw [hnone] at hs0
    exact Option.noConfusion hs0

def envC9 : Env :=
  { origin := fun _ _ => .respond 404 [] "gone" none,
    sendFails := fun _ _ => false }

/-- Claim C9 witness: after a 404 session for key `"u|"` is torn down the
registry is empty, and a session found after a subsequent join was created
no earlier than the teardown-time clock. -/
theorem C9_witness :
    lookupS (run envC9 [.join 0 "u" "", .resume "u|", .resume "u|"]).sessions "u|" =
      none ∧
    (run envC9 [.join 0 "u" "", .resume "u|", .resume "u|"]).clock ≤
      ({ url := "u", clients := [1], fetchInProgress := true,
         responseHeaders := none, responseStatus := none, error := none,
         startTime := 3, totalClients := 1 } : FileSession).startTime := by
  refine ⟨by decide, ?_⟩
  exact (C9_no_resurrection envC9).2 [.join 0 "u" "", .resume "u|", .resume "u|"]
    [.join 1 "u" ""] "u|" _ (by decide) (by decide)


/-! ### The global invariant -/

theorem sliceUpTo_length (s : String) (n : Nat) : (sliceUpTo s n).length ≤ n := by
  simp only [sliceUpTo, String.length]
  exact le_trans (Nat.le_of_eq (List.length_take _ _)) (Nat.min_le_left _ _)

theorem addClient_nodup {cs : List ClientId} {c : ClientId} (h : cs.Nodup) :
    (addClient cs c).Nodup := by
  unfold addClient
  by_cases hc : c ∈ cs
  · simp [hc, h]
  · simp only [if_neg hc]
    rw [List.nodup_append]
    exact ⟨h, List.nodup_singleton _, by simp [hc, List.disjoint_singleton]⟩

theorem two_mem_le_length {α : Type} {a b : α} {l : List α}
    (ha : a ∈ l) (hb : b ∈ l) (hne : a ≠ b) : 2 ≤ l.length := by
  induction l with
  | nil => simp at ha
  | cons x rest ih =>
    rcases List.mem_cons.mp ha with h1 | h1
    · rcases List.mem_cons.mp hb with h2 | h2
      · exact absurd (h1.trans h2.symm) hne
      · have : 0 < rest.length := List.length_pos_of_mem h2
        simp only [List.length_cons]
        omega
    · have : 0 < rest.length := List.length_pos_of_mem h1
      simp only [List.length_cons]
      omega

theorem fetchCount_append (l1 l2 : List LogEvent) (sid : Nat) :
    fetchCount (l1 ++ l2) sid = fetchCount l1 sid + fetchCount l2 sid := by
  simp [fetchCount, List.countP_append]

theorem fetchPred_iff (sid : Nat) (e : LogEvent) :
    (fun e => match e with
      | LogEvent.originFetch _ sid' _ _ => sid' = sid
      | _ => false) e = true ↔ ∃ k u r, e = .originFetch k sid u r := by
  cases e <;> simp

theorem fetchCount_eq_zero (log : List LogEvent) (sid : Nat)
    (h : ∀ k u r, LogEvent.originFetch k sid u r ∉ log) : fetchCount log sid = 0 := by
  rw [fetchCount, List.countP_eq_zero]
  intro e he
  intro hc
  obtain ⟨k, u, r, rfl⟩ := (fetchPred_iff sid e).mp hc
  exact h k u r he

theorem fetchCount_pos (log : List LogEvent) (sid : Nat)
    {k : Key} {u r : String} (h : LogEvent.originFetch k sid u r ∈ log) :
    1 ≤ fetchCount log sid := by
  rw [fetchCount]
  refine List.countP_pos_iff.mpr ⟨_, h, ?_⟩
  simp

theorem catchupFrames_count (s0 : FileSession) (c : ClientId) (sid : Nat) :
    fetchCount (catchupFrames s0 c) sid = 0 := by
  apply fetchCount_eq_zero
  intro k' u' r' hm
  obtain ⟨n, hh, he⟩ := catchupFrames_mem _ hm
  exact absurd he (by simp)

theorem originFetch_unique {log : List LogEvent} {sid : Nat}
    (hcount : fetchCount log sid ≤ 1)
    {k1 u1 r1 k2 u2 r2 : String}
    (h1 : LogEvent.originFetch k1 sid u1 r1 ∈ log)
    (h2 : LogEvent.originFetch k2 sid u2 r2 ∈ log) :
    k1 = k2 ∧ u1 = u2 ∧ r1 = r2 := by
  by_contra hne
  have hne' : LogEvent.originFetch k1 sid u1 r1 ≠ LogEvent.originFetch k2 sid u2 r2 := by
    intro hh
    injection hh with a b c d
    exact hne ⟨a, c, d⟩
  have hm1 : LogEvent.originFetch k1 sid u1 r1 ∈ log.filter (fun e =>
      match e with
      | LogEvent.originFetch _ sid' _ _ => sid' = sid
      | _ => false) := by
    rw [List.mem_filter]
    exact ⟨h1, by simp⟩
  have hm2 : LogEvent.originFetch k2 sid u2 r2 ∈ log.filter (fun e =>
      match e with
      | LogEvent.originFetch _ sid' _ _ => sid' = sid
      | _ => false) := by
    rw [List.mem_filter]
    exact ⟨h2, by simp⟩
  have h2le := two_mem_le_length hm1 hm2 hne'
  rw [← List.countP_eq_length_filter] at h2le
  rw [fetchCount] at hcount
  omega

/-- The facts the orchestrator's await point implies about the session and
the origin: before the response nothing is recorded; at
`await response.text()` the stored status/headers match a non-success
origin response; in the streaming loop the stored status/headers match a
success response whose chunk list splits into the part already read and
the pending part. -/
def PhaseInv (env : Env) (st : DOState) (t : FetchTask) : Prop :=
  match t.phase with
  | .awaitingResponse =>
    ∀ s, lookupS st.sessions t.key = some s →
      s.responseStatus = none ∧ s.responseHeaders = none
  | .awaitingErrorText status body =>
    ∃ hdrs bodyOpt, env.origin t.url t.range = .respond status hdrs body bodyOpt ∧
      (!respOk status && status ≠ 206) = true ∧
      ∀ s, lookupS st.sessions t.key = some s →
        s.responseStatus = some status ∧ s.responseHeaders = some hdrs
  | .streaming pending streamErr =>
    ∃ status hdrs errBody chunks dp,
      env.origin t.url t.range = .respond status hdrs errBody (some ⟨chunks, streamErr⟩) ∧
      (!respOk status && status ≠ 206) = false ∧
      chunks = dp ++ pending ∧
      ∀ s, lookupS st.sessions t.key = some s →
        s.responseStatus = some status ∧ s.responseHeaders = some hdrs

/-- The session-and-log half of the global invariant: facts that do not
mention the task list, preserved by each of the four session-mutating
operations individually. -/
structure SInv (env : Env) (st : DOState) : Prop where
  fetchLt : ∀ k sid u r, LogEvent.originFetch k sid u r ∈ st.log → sid < st.clock
  sentLt : ∀ sid c f, LogEvent.sent sid c f ∈ st.log → sid < st.clock
  fetchOnce : ∀ sid, fetchCount st.log sid ≤ 1
  sessFip : ∀ k s, lookupS st.sessions k = some s → s.fetchInProgress = true
  sessCount : ∀ k s, lookupS st.sessions k = some s → fetchCount st.log s.startTime = 1
  sessLt : ∀ k s, lookupS st.sessions k = some s → s.startTime < st.clock
  sessNodup : ∀ k s, lookupS st.sessions k = some s → s.clients.Nodup
  binNe : ∀ sid c d, LogEvent.sent sid c (.binaryFrame d) ∈ st.log → d ≠ []
  binOk : ∀ sid c d, LogEvent.sent sid c (.binaryFrame d) ∈ st.log →
    ∀ k u r, LogEvent.originFetch k sid u r ∈ st.log →
      ∃ status hdrs errBody ob, env.origin u r = .respond status hdrs errBody (some ob) ∧
        (!respOk status && status ≠ 206) = false
  errBound : ∀ sid c status msg, LogEvent.sent sid c (.errorFrame status msg) ∈ st.log →
    msg.length ≤ 500

/-- Global invariant of every reachable state of the Durable Object. -/
structure GInv (env : Env) (st : DOState) extends SInv env st : Prop where
  sessTask : ∀ k s, lookupS st.sessions k = some s →
    ∃ t, tfind st.tasks k = some t ∧ t.sid = s.startTime
  taskSess : ∀ t ∈ st.tasks, ∃ s, lookupS st.sessions t.key = some s ∧
    s.startTime = t.sid ∧ s.url = t.url
  taskKey : ∀ t ∈ st.tasks, t.key = buildKey t.url t.range
  taskFetch : ∀ t ∈ st.tasks, LogEvent.originFetch t.key t.sid t.url t.range ∈ st.log
  taskNodup : (st.tasks.map FetchTask.key).Nodup
  taskPhase : ∀ t ∈ st.tasks, PhaseInv env st t

theorem GInv_init (env : Env) : GInv env initState := by
  refine ⟨⟨?_, ?_, ?_, ?_, ?_, ?_, ?_, ?_, ?_, ?_⟩, ?_, ?_, ?_, ?_, ?_, ?_⟩ <;>
    simp [initState, lookupS, tfind, fetchCount]

/-- Side conditions under which broadcasting frame `f` over the session at
key `k` keeps the log invariants: binary frames carry a non-empty chunk
of an overall-successful origin response, error-frame messages are
length-bounded. -/
def FrameCond (env : Env) (st : DOState) (k : Key) : Frame → Prop
  | .binaryFrame d => d ≠ [] ∧
      ∀ s, lookupS st.sessions k = some s →
        ∀ k' u' r', LogEvent.originFetch k' s.startTime u' r' ∈ st.log →
          ∃ status hdrs errBody ob,
            env.origin u' r' = .respond status hdrs errBody (some ob) ∧
            (!respOk status && status ≠ 206) = false
  | .errorFrame _ msg => msg.length ≤ 500
  | _ => True

theorem SInv.setErrOp {env : Env} {st : DOState} (k : Key) (v : String)
    (h : SInv env st) : SInv env (setErr st k v) := by
  obtain ⟨es, hlog, hes⟩ := setErr_log_shape st k v
  have hclock := setErr_clock st k v
  have hlk : ∀ k0 s1, lookupS (setErr st k v).sessions k0 = some s1 →
      ∃ s0, lookupS st.sessions k0 = some s0 ∧
        s1.fetchInProgress = s0.fetchInProgress ∧ s1.startTime = s0.startTime ∧
        s1.clients = s0.clients := by
    intro k0 s1 h1
    by_cases hk : k = k0
    · subst hk
      cases hl : lookupS st.sessions k with
      | none =>
        rw [setErr_none hl, hl] at h1
        exact Option.noConfusion h1
      | some s =>
        rw [setErr_lookup_self v hl] at h1
        cases h1
        exact ⟨s, rfl, rfl, rfl, rfl⟩
    · rw [setErr_lookup_ne st k k0 v hk] at h1
      exact ⟨s1, h1, rfl, rfl, rfl⟩
  have hmem : ∀ e : LogEvent, e ∈ (setErr st k v).log → e ∈ st.log ∨ ∃ sid, e = .errorSet sid v := by
    intro e he
    rw [hlog] at he
    rcases List.mem_append.mp he with h1 | h1
    · exact Or.inl h1
    · exact Or.inr (hes e h1)
  refine ⟨?_, ?_, ?_, ?_, ?_, ?_, ?_, ?_, ?_, ?_⟩
  · intro k' sid u r hm
    rcases hmem _ hm with h1 | ⟨sid', h1⟩
    · rw [hclock]; exact h.fetchLt k' sid u r h1
    · exact absurd h1 (by simp)
  · intro sid c f hm
    rcases hmem _ hm with h1 | ⟨sid', h1⟩
    · rw [hclock]; exact h.sentLt sid c f h1
    · exact absurd h1 (by simp)
  · intro sid
    rw [hlog, fetchCount_append]
    have : fetchCount es sid = 0 := by
      apply fetchCount_eq_zero
      intro k' u r hm
      obtain ⟨sid', h1⟩ := hes _ hm
      exact absurd h1 (by simp)
    rw [this]
    simpa using h.fetchOnce sid
  · intro k0 s1 h1
    obtain ⟨s0, hl0, hf, _, _⟩ := hlk k0 s1 h1
    rw [hf]
    exact h.sessFip k0 s0 hl0
  · intro k0 s1 h1
    obtain ⟨s0, hl0, _, hst, _⟩ := hlk k0 s1 h1
    rw [hlog, fetchCount_append, hst]
    have : fetchCount es s0.startTime = 0 := by
      apply fetchCount_eq_zero
      intro k' u r hm
      obtain ⟨sid', h1'⟩ := hes _ hm
      exact absurd h1' (by simp)
    rw [this]
    simpa using h.sessCount k0 s0 hl0
  · intro k0 s1 h1
    obtain ⟨s0, hl0, _, hst, _⟩ := hlk k0 s1 h1
    rw [hclock, hst]
    exact h.sessLt k0 s0 hl0
  · intro k0 s1 h1
    obtain ⟨s0, hl0, _, _, hc⟩ := hlk k0 s1 h1
    rw [hc]
    exact h.sessNodup k0 s0 hl0
  · intro sid c d hm
    rcases hmem _ hm with h1 | ⟨sid', h1⟩
    · exact h.binNe sid c d h1
    · exact absurd h1 (by simp)
  · intro sid c d hm k' u r hm'
    rcases hmem _ hm with h1 | ⟨sid', h1⟩
    · rcases hmem _ hm' with h2 | ⟨sid'', h2⟩
      · exact h.binOk sid c d h1 k' u r h2
      · exact absurd h2 (by simp)
    · exact absurd h1 (by simp)
  · intro sid c status msg hm
    rcases hmem _ hm with h1 | ⟨sid', h1⟩
    · exact h.errBound sid c status msg h1
    · exact absurd h1 (by simp)


theorem SInv.setRespOp {env : Env} {st : DOState} (k : Key) (status : Nat)
    (hdrs : List (String × String)) (h : SInv env st) :
    SInv env (setResp st k status hdrs) := by
  have hclock := setResp_clock st k status hdrs
  have hlog := setResp_log st k status hdrs
  have hlk : ∀ k0 s1, lookupS (setResp st k status hdrs).sessions k0 = some s1 →
      ∃ s0, lookupS st.sessions k0 = some s0 ∧
        s1.fetchInProgress = s0.fetchInProgress ∧ s1.startTime = s0.startTime ∧
        s1.clients = s0.clients := by
    intro k0 s1 h1
    by_cases hk : k = k0
    · subst hk
      cases hl : lookupS st.sessions k with
      | none =>
        rw [setResp_none hl, hl] at h1
        exact Option.noConfusion h1
      | some s =>
        rw [setResp_lookup_self status hdrs hl] at h1
        cases h1
        exact ⟨s, rfl, rfl, rfl, rfl⟩
    · rw [setResp_lookup_ne st k k0 status hdrs hk] at h1
      exact ⟨s1, h1, rfl, rfl, rfl⟩
  refine ⟨?_, ?_, ?_, ?_, ?_, ?_, ?_, ?_, ?_, ?_⟩
  · intro k' sid u r hm
    rw [hlog] at hm
    rw [hclock]
    exact h.fetchLt k' sid u r hm
  · intro sid c f hm
    rw [hlog] at hm
    rw [hclock]
    exact h.sentLt sid c f hm
  · intro sid
    rw [hlog]
    exact h.fetchOnce sid
  · intro k0 s1 h1
    obtain ⟨s0, hl0, hf, _, _⟩ := hlk k0 s1 h1
    rw [hf]
    exact h.sessFip k0 s0 hl0
  · intro k0 s1 h1
    obtain ⟨s0, hl0, _, hst, _⟩ := hlk k0 s1 h1
    rw [hlog, hst]
    exact h.sessCount k0 s0 hl0
  · intro k0 s1 h1
    obtain ⟨s0, hl0, _, hst, _⟩ := hlk k0 s1 h1
    rw [hclock, hst]
    exact h.sessLt k0 s0 hl0
  · intro k0 s1 h1
    obtain ⟨s0, hl0, _, _, hc⟩ := hlk k0 s1 h1
    rw [hc]
    exact h.sessNodup k0 s0 hl0
  · intro sid c d hm
    rw [hlog] at hm
    exact h.binNe sid c d hm
  · intro sid c d hm k' u r hm'
    rw [hlog] at hm hm'
    exact h.binOk sid c d hm k' u r hm'
  · intro sid c status' msg hm
    rw [hlog] at hm
    exact h.errBound sid c status' msg hm

theorem SInv.closeSessionOp {env : Env} {st : DOState} (k : Key) (h : SInv env st) :
    SInv env (closeSession st k) := by
  obtain ⟨es, hlog, hes⟩ := closeSession_log_shape st k
  have hclock := closeSession_clock st k
  have hlk : ∀ k0 s1, lookupS (closeSession st k).sessions k0 = some s1 →
      lookupS st.sessions k0 = some s1 := by
    intro k0 s1 h1
    by_cases hk : k = k0
    · subst hk
      rw [closeSession_lookup_self st k] at h1
      exact Option.noConfusion h1
    · rw [closeSession_lookup_ne st k k0 hk] at h1
      exact h1
  have hmem : ∀ e : LogEvent, e ∈ (closeSession st k).log →
      e ∈ st.log ∨ ∃ sid c, e = .closed sid c 1000 "Complete" := by
    intro e he
    rw [hlog] at he
    rcases List.mem_append.mp he with h1 | h1
    · exact Or.inl h1
    · exact Or.inr (hes e h1)
  refine ⟨?_, ?_, ?_, ?_, ?_, ?_, ?_, ?_, ?_, ?_⟩
  · intro k' sid u r hm
    rcases hmem _ hm with h1 | ⟨sid', c', h1⟩
    · rw [hclock]; exact h.fetchLt k' sid u r h1
    · exact absurd h1 (by simp)
  · intro sid c f hm
    rcases hmem _ hm with h1 | ⟨sid', c', h1⟩
    · rw [hclock]; exact h.sentLt sid c f h1
    · exact absurd h1 (by simp)
  · intro sid
    rw [hlog, fetchCount_append]
    have : fetchCount es sid = 0 := by
      apply fetchCount_eq_zero
      intro k' u r hm
      obtain ⟨sid', c', h1⟩ := hes _ hm
      exact absurd h1 (by simp)
    rw [this]
    simpa using h.fetchOnce sid
  · intro k0 s1 h1
    exact h.sessFip k0 s1 (hlk k0 s1 h1)
  · intro k0 s1 h1
    rw [hlog, fetchCount_append]
    have : fetchCount es s1.startTime = 0 := by
      apply fetchCount_eq_zero
      intro k' u r hm
      obtain ⟨sid', c', h1'⟩ := hes _ hm
      exact absurd h1' (by simp)
    rw [this]
    simpa using h.sessCount k0 s1 (hlk k0 s1 h1)
  · intro k0 s1 h1
    rw [hclock]
    exact h.sessLt k0 s1 (hlk k0 s1 h1)
  · intro k0 s1 h1
    exact h.sessNodup k0 s1 (hlk k0 s1 h1)
  · intro sid c d hm
    rcases hmem _ hm with h1 | ⟨sid', c', h1⟩
    · exact h.binNe sid c d h1
    · exact absurd h1 (by simp)
  · intro sid c d hm k' u r hm'
    rcases hmem _ hm with h1 | ⟨sid', c', h1⟩
    · rcases hmem _ hm' with h2 | ⟨sid'', c'', h2⟩
      · exact h.binOk sid c d h1 k' u r h2
      · exact absurd h2 (by simp)
    · exact absurd h1 (by simp)
  · intro sid c status msg hm
    rcases hmem _ hm with h1 | ⟨sid', c', h1⟩
    · exact h.errBound sid c status msg h1
    · exact absurd h1 (by simp)

theorem broadcast_log_mem {env : Env} {st : DOState} {k : Key} {f : Frame}
    {e : LogEvent} (he : e ∈ (broadcast env st k f).log) :
    e ∈ st.log ∨ ∃ s c, lookupS st.sessions k = some s ∧
      (e = .sent s.startTime c f ∨ e = .sendFailed s.startTime c f) := by
  cases hl : lookupS st.sessions k with
  | none =>
    rw [broadcast_none f hl] at he
    exact Or.inl he
  | some s =>
    rw [broadcast_some f hl] at he
    obtain ⟨es, h1, h2⟩ := deliver_snd_shape env s.startTime f s.clients st.log
    simp only [h1] at he
    rcases List.mem_append.mp he with hm | hm
    · exact Or.inl hm
    · obtain ⟨c, _, hor⟩ := h2 e hm
      exact Or.inr ⟨s, c, rfl, hor⟩

theorem SInv.broadcastOp {env : Env} {st : DOState} (k : Key) (f : Frame)
    (hfc : FrameCond env st k f) (h : SInv env st) :
    SInv env (broadcast env st k f) := by
  have hclock := broadcast_clock env st k f
  have hlk : ∀ k0 s1, lookupS (broadcast env st k f).sessions k0 = some s1 →
      ∃ s0, lookupS st.sessions k0 = some s0 ∧
        s1.fetchInProgress = s0.fetchInProgress ∧ s1.startTime = s0.startTime ∧
        s1.clients.Sublist s0.clients := by
    intro k0 s1 h1
    by_cases hk : k = k0
    · subst hk
      cases hl : lookupS st.sessions k with
      | none =>
        rw [broadcast_none f hl, hl] at h1
        exact Option.noConfusion h1
      | some s =>
        rw [broadcast_lookup_self env f hl] at h1
        cases h1
        exact ⟨s, rfl, rfl, rfl, deliver_fst_sublist env s.startTime f s.clients st.log⟩
    · rw [broadcast_lookup_ne env st k k0 f hk] at h1
      exact ⟨s1, h1, rfl, rfl, List.Sublist.refl _⟩
  have hcnt : ∀ sid, fetchCount (broadcast env st k f).log sid = fetchCount st.log sid := by
    intro sid
    cases hl : lookupS st.sessions k with
    | none => rw [broadcast_none f hl]
    | some s =>
      rw [broadcast_some f hl]
      obtain ⟨es, h1, h2⟩ := deliver_snd_shape env s.startTime f s.clients st.log
      simp only [h1]
      rw [fetchCount_append]
      have : fetchCount es sid = 0 := by
        apply fetchCount_eq_zero
        intro k' u r hm
        obtain ⟨c, _, hor⟩ := h2 _ hm
        rcases hor with h3 | h3 <;> exact absurd h3 (by simp)
      omega
  refine ⟨?_, ?_, ?_, ?_, ?_, ?_, ?_, ?_, ?_, ?_⟩
  · intro k' sid u r hm
    rcases broadcast_log_mem hm with h1 | ⟨s, c, _, h1 | h1⟩
    · rw [hclock]; exact h.fetchLt k' sid u r h1
    · exact absurd h1 (by simp)
    · exact absurd h1 (by simp)
  · intro sid c0 f0 hm
    rcases broadcast_log_mem hm with h1 | ⟨s, c, hls, h1 | h1⟩
    · rw [hclock]; exact h.sentLt sid c0 f0 h1
    · injection h1 with e1 e2 e3
      rw [hclock, e1]
      exact h.sessLt k s hls
    · exact absurd h1 (by simp)
  · intro sid
    rw [hcnt]
    exact h.fetchOnce sid
  · intro k0 s1 h1
    obtain ⟨s0, hl0, hf, _, _⟩ := hlk k0 s1 h1
    rw [hf]
    exact h.sessFip k0 s0 hl0
  · intro k0 s1 h1
    obtain ⟨s0, hl0, _, hst, _⟩ := hlk k0 s1 h1
    rw [hcnt, hst]
    exact h.sessCount k0 s0 hl0
  · intro k0 s1 h1
    obtain ⟨s0, hl0, _, hst, _⟩ := hlk k0 s1 h1
    rw [hclock, hst]
    exact h.sessLt k0 s0 hl0
  · intro k0 s1 h1
    obtain ⟨s0, hl0, _, _, hc⟩ := hlk k0 s1 h1
    exact hc.nodup (h.sessNodup k0 s0 hl0)
  · intro sid c d hm
    rcases broadcast_log_mem hm with h1 | ⟨s, c', hls, h1 | h1⟩
    · exact h.binNe sid c d h1
    · injection h1 with e1 e2 e3
      rw [← e3] at hfc
      exact hfc.1
    · exact absurd h1 (by simp)
  · intro sid c d hm k' u r hm'
    have hm'2 : LogEvent.originFetch k' sid u r ∈ st.log := by
      rcases broadcast_log_mem hm' with h2 | ⟨s, c'', _, h2 | h2⟩
      · exact h2
      · exact absurd h2 (by simp)
      · exact absurd h2 (by simp)
    rcases broadcast_log_mem hm with h1 | ⟨s, c', hls, h1 | h1⟩
    · exact h.binOk sid c d h1 k' u r hm'2
    · injection h1 with e1 e2 e3
      subst e1
      rw [← e3] at hfc
      exact hfc.2 s hls k' u r hm'2
    · exact absurd h1 (by simp)
  · intro sid c status msg hm
    rcases broadcast_log_mem hm with h1 | ⟨s, c', hls, h1 | h1⟩
    · exact h.errBound sid c status msg h1
    · injection h1 with e1 e2 e3
      rw [← e3] at hfc
      exact hfc
    · exact absurd h1 (by simp)


theorem GInv.tick {env : Env} {st : DOState} (h : GInv env st) :
    GInv env { st with clock := st.clock + 1 } := by
  obtain ⟨⟨f1, f2, f3, f4, f5, f6, f7, f8, f9, f10⟩, g1, g2, g3, g4, g5, g6⟩ := h
  refine ⟨⟨?_, ?_, f3, f4, f5, ?_, f7, f8, f9, f10⟩, g1, g2, g3, g4, g5, g6⟩
  · intro k sid u r hm
    exact Nat.lt_succ_of_lt (f1 k sid u r hm)
  · intro sid c f hm
    exact Nat.lt_succ_of_lt (f2 sid c f hm)
  · intro k s hl
    exact Nat.lt_succ_of_lt (f6 k s hl)

theorem removeFromSession_lookup_rel (st : DOState) (c : ClientId) (k : Key) (k0 : Key) :
    ∀ s1, lookupS (removeFromSession st c k).sessions k0 = some s1 →
      ∃ s0, lookupS st.sessions k0 = some s0 ∧
        (s1 = s0 ∨ s1 = { s0 with clients := s0.clients.erase c }) := by
  intro s1 h1
  by_cases hk : k = k0
  · subst hk
    cases hl : lookupS st.sessions k with
    | none =>
      unfold removeFromSession at h1
      rw [hl] at h1
      simp only at h1
      rw [hl] at h1
      exact Option.noConfusion h1
    | some s =>
      rw [removeFromSession_lookup_self hl] at h1
      cases h1
      exact ⟨s, rfl, Or.inr rfl⟩
  · rw [removeFromSession_lookup_ne st c k k0 hk] at h1
    exact ⟨s1, h1, Or.inl rfl⟩

theorem removeFromSession_lookup_exists (c : ClientId) (k : Key) {st : DOState}
    {k0 : Key} {s0 : FileSession} (h : lookupS st.sessions k0 = some s0) :
    ∃ s1, lookupS (removeFromSession st c k).sessions k0 = some s1 ∧
      s1.startTime = s0.startTime ∧ s1.url = s0.url ∧
      s1.responseStatus = s0.responseStatus ∧ s1.responseHeaders = s0.responseHeaders := by
  by_cases hk : k = k0
  · subst hk
    exact ⟨_, removeFromSession_lookup_self h, rfl, rfl, rfl, rfl⟩
  · exact ⟨s0, by rw [removeFromSession_lookup_ne st c k k0 hk]; exact h, rfl, rfl, rfl, rfl⟩

theorem GInv_remove {env : Env} {st : DOState} (c : ClientId) (k : Key)
    (h : GInv env st) : GInv env (removeFromSession st c k) := by
  have hlog := removeFromSession_log st c k
  have hclock := removeFromSession_clock st c k
  have htasks := removeFromSession_tasks st c k
  have hrel := removeFromSession_lookup_rel st c k
  refine ⟨⟨?_, ?_, ?_, ?_, ?_, ?_, ?_, ?_, ?_, ?_⟩, ?_, ?_, ?_, ?_, ?_, ?_⟩
  · intro k' sid u r hm
    rw [hlog] at hm
    rw [hclock]
    exact h.toSInv.fetchLt k' sid u r hm
  · intro sid c' f hm
    rw [hlog] at hm
    rw [hclock]
    exact h.toSInv.sentLt sid c' f hm
  · intro sid
    rw [hlog]
    exact h.toSInv.fetchOnce sid
  · intro k0 s1 h1
    obtain ⟨s0, hl0, he⟩ := hrel k0 s1 h1
    rcases he with he | he
    · subst he
      exact h.toSInv.sessFip _ _ hl0
    · subst he
      exact h.toSInv.sessFip _ s0 hl0
  · intro k0 s1 h1
    obtain ⟨s0, hl0, he⟩ := hrel k0 s1 h1
    rw [hlog]
    rcases he with he | he
    · subst he
      exact h.toSInv.sessCount _ _ hl0
    · subst he
      exact h.toSInv.sessCount _ s0 hl0
  · intro k0 s1 h1
    obtain ⟨s0, hl0, he⟩ := hrel k0 s1 h1
    rw [hclock]
    rcases he with he | he
    · subst he
      exact h.toSInv.sessLt _ _ hl0
    · subst he
      exact h.toSInv.sessLt _ s0 hl0
  · intro k0 s1 h1
    obtain ⟨s0, hl0, he⟩ := hrel k0 s1 h1
    rcases he with he | he <;> subst he
    · exact h.toSInv.sessNodup _ _ hl0
    · exact (h.toSInv.sessNodup _ _ hl0).erase c
  · intro sid c' d hm
    rw [hlog] at hm
    exact h.toSInv.binNe sid c' d hm
  · intro sid c' d hm k' u r hm'
    rw [hlog] at hm hm'
    exact h.toSInv.binOk sid c' d hm k' u r hm'
  · intro sid c' status msg hm
    rw [hlog] at hm
    exact h.toSInv.errBound sid c' status msg hm
  · intro k0 s1 h1
    obtain ⟨s0, hl0, he⟩ := hrel k0 s1 h1
    obtain ⟨t, ht, hsid⟩ := h.sessTask k0 s0 hl0
    rw [htasks]
    rcases he with he | he <;> subst he <;> exact ⟨t, ht, hsid⟩
  · intro t ht
    rw [htasks] at ht
    obtain ⟨s0, hl0, h1, h2⟩ := h.taskSess t ht
    obtain ⟨s1, hl1, e1, e2, _, _⟩ := removeFromSession_lookup_exists c k hl0
    exact ⟨s1, hl1, by rw [e1, h1], by rw [e2, h2]⟩
  · intro t ht
    rw [htasks] at ht
    exact h.taskKey t ht
  · intro t ht
    rw [htasks] at ht
    rw [hlog]
    exact h.taskFetch t ht
  · rw [htasks]
    exact h.taskNodup
  · intro t ht
    rw [htasks] at ht
    have hp := h.taskPhase t ht
    unfold PhaseInv at hp ⊢
    cases hph : t.phase with
    | awaitingResponse =>
      rw [hph] at hp
      intro s1 h1
      obtain ⟨s0, hl0, he⟩ := hrel t.key s1 h1
      rcases he with he | he
      · subst he
        exact hp _ hl0
      · subst he
        exact hp s0 hl0
    | awaitingErrorText status body =>
      rw [hph] at hp
      obtain ⟨hdrs, bodyOpt, ho, hcond, hs⟩ := hp
      refine ⟨hdrs, bodyOpt, ho, hcond, ?_⟩
      intro s1 h1
      obtain ⟨s0, hl0, he⟩ := hrel t.key s1 h1
      rcases he with he | he
      · subst he
        exact hs _ hl0
      · subst he
        exact hs s0 hl0
    | streaming pending streamErr =>
      rw [hph] at hp
      obtain ⟨status, hdrs, errBody, chunks, dp, ho, hcond, hsplit, hs⟩ := hp
      refine ⟨status, hdrs, errBody, chunks, dp, ho, hcond, hsplit, ?_⟩
      intro s1 h1
      obtain ⟨s0, hl0, he⟩ := hrel t.key s1 h1
      rcases he with he | he
      · subst he
        exact hs _ hl0
      · subst he
        exact hs s0 hl0


theorem fetchCount_single (k : Key) (sid' : Nat) (u r : String) (sid : Nat) :
    fetchCount [.originFetch k sid' u r] sid = if sid' = sid then 1 else 0 := by
  by_cases h : sid' = sid <;> simp [fetchCount, List.countP, List.countP.go, h]

theorem no_task_of_no_session {env : Env} {st : DOState} (h : GInv env st)
    {k : Key} (hl : lookupS st.sessions k = none) : tfind st.tasks k = none := by
  cases ht : tfind st.tasks k with
  | none => rfl
  | some t =>
    obtain ⟨hm, hk⟩ := tfind_mem ht
    obtain ⟨s, hs, _, _⟩ := h.taskSess t hm
    rw [hk] at hs
    rw [hl] at hs
    exact Option.noConfusion hs

theorem key_not_in_tasks_of_no_session {env : Env} {st : DOState} (h : GInv env st)
    {k : Key} (hl : lookupS st.sessions k = none) :
    k ∉ st.tasks.map FetchTask.key := by
  intro hmem
  obtain ⟨t, hm, hk⟩ := List.mem_map.mp hmem
  obtain ⟨s, hs, _, _⟩ := h.taskSess t hm
  rw [hk] at hs
  rw [hl] at hs
  exact Option.noConfusion hs

theorem GInv_join_existing {env : Env} {st : DOState} (c : ClientId) (u r : String)
    {s0 : FileSession} (h : GInv env st)
    (hl : lookupS st.sessions (buildKey u r) = some s0) :
    GInv env (step env st (.join c u r)) := by
  have hfip := h.toSInv.sessFip _ s0 hl
  simp only [step, stepCore]
  rw [coalescerFetch_existing env c u r hl hfip]
  refine ⟨⟨?_, ?_, ?_, ?_, ?_, ?_, ?_, ?_, ?_, ?_⟩, ?_, ?_, ?_, ?_, ?_, ?_⟩
  · intro k' sid u' r' hm
    dsimp only at hm ⊢
    rcases List.mem_append.mp hm with h1 | h1
    · exact Nat.lt_succ_of_lt (h.toSInv.fetchLt k' sid u' r' h1)
    · obtain ⟨n, hh, he⟩ := catchupFrames_mem _ h1
      exact absurd he (by simp)
  · intro sid c' f hm
    dsimp only at hm ⊢
    rcases List.mem_append.mp hm with h1 | h1
    · exact Nat.lt_succ_of_lt (h.toSInv.sentLt sid c' f h1)
    · obtain ⟨n, hh, he⟩ := catchupFrames_mem _ h1
      injection he with e1 e2 e3
      rw [e1]
      exact Nat.lt_succ_of_lt (h.toSInv.sessLt _ s0 hl)
  · intro sid
    dsimp only
    rw [fetchCount_append, catchupFrames_count]
    simpa using h.toSInv.fetchOnce sid
  · intro k0 s1 h1
    dsimp only at h1
    rw [lookupS_mset] at h1
    by_cases hk : buildKey u r = k0
    · rw [if_pos hk] at h1
      cases h1
      exact hfip
    · rw [if_neg hk] at h1
      exact h.toSInv.sessFip k0 s1 h1
  · intro k0 s1 h1
    dsimp only at h1 ⊢
    rw [lookupS_mset] at h1
    rw [fetchCount_append, catchupFrames_count]
    by_cases hk : buildKey u r = k0
    · rw [if_pos hk] at h1
      cases h1
      simpa using h.toSInv.sessCount _ s0 hl
    · rw [if_neg hk] at h1
      simpa using h.toSInv.sessCount k0 s1 h1
  · intro k0 s1 h1
    dsimp only at h1 ⊢
    rw [lookupS_mset] at h1
    by_cases hk : buildKey u r = k0
    · rw [if_pos hk] at h1
      cases h1
      exact Nat.lt_succ_of_lt (h.toSInv.sessLt _ s0 hl)
    · rw [if_neg hk] at h1
      exact Nat.lt_succ_of_lt (h.toSInv.sessLt k0 s1 h1)
  · intro k0 s1 h1
    dsimp only at h1
    rw [lookupS_mset] at h1
    by_cases hk : buildKey u r = k0
    · rw [if_pos hk] at h1
      cases h1
      exact addClient_nodup (h.toSInv.sessNodup _ s0 hl)
    · rw [if_neg hk] at h1
      exact h.toSInv.sessNodup k0 s1 h1
  · intro sid c' d hm
    dsimp only at hm
    rcases List.mem_append.mp hm with h1 | h1
    · exact h.toSInv.binNe sid c' d h1
    · obtain ⟨n, hh, he⟩ := catchupFrames_mem _ h1
      exact absurd he (by simp)
  · intro sid c' d hm k' u' r' hm'
    dsimp only at hm hm'
    have hm1 : LogEvent.sent sid c' (.binaryFrame d) ∈ st.log := by
      rcases List.mem_append.mp hm with h1 | h1
      · exact h1
      · obtain ⟨n, hh, he⟩ := catchupFrames_mem _ h1
        exact absurd he (by simp)
    have hm2 : LogEvent.originFetch k' sid u' r' ∈ st.log := by
      rcases List.mem_append.mp hm' with h1 | h1
      · exact h1
      · obtain ⟨n, hh, he⟩ := catchupFrames_mem _ h1
        exact absurd he (by simp)
    exact h.toSInv.binOk sid c' d hm1 k' u' r' hm2
  · intro sid c' status msg hm
    dsimp only at hm
    rcases List.mem_append.mp hm with h1 | h1
    · exact h.toSInv.errBound sid c' status msg h1
    · obtain ⟨n, hh, he⟩ := catchupFrames_mem _ h1
      exact absurd he (by simp)
  · intro k0 s1 h1
    dsimp only at h1 ⊢
    rw [lookupS_mset] at h1
    by_cases hk : buildKey u r = k0
    · rw [if_pos hk] at h1
      cases h1
      obtain ⟨t, ht, hsid⟩ := h.sessTask _ s0 hl
      rw [← hk]
      exact ⟨t, ht, hsid⟩
    · rw [if_neg hk] at h1
      exact h.sessTask k0 s1 h1
  · intro t ht
    dsimp only at ht ⊢
    obtain ⟨s, hs, e1, e2⟩ := h.taskSess t ht
    rw [lookupS_mset]
    by_cases hk : buildKey u r = t.key
    · rw [if_pos hk]
      rw [← hk, hl] at hs
      injection hs with hss
      subst hss
      exact ⟨_, rfl, e1, e2⟩
    · rw [if_neg hk]
      exact ⟨s, hs, e1, e2⟩
  · intro t ht
    dsimp only at ht
    exact h.taskKey t ht
  · intro t ht
    dsimp only at ht ⊢
    exact List.mem_append_left _ (h.taskFetch t ht)
  · dsimp only
    exact h.taskNodup
  · intro t ht
    dsimp only at ht
    have hp := h.taskPhase t ht
    unfold PhaseInv at hp ⊢
    cases hph : t.phase with
    | awaitingResponse =>
      rw [hph] at hp
      intro s1 h1
      dsimp only at h1
      rw [lookupS_mset] at h1
      by_cases hk : buildKey u r = t.key
      · rw [if_pos hk] at h1
        cases h1
        exact hp s0 (hk ▸ hl)
      · rw [if_neg hk] at h1
        exact hp s1 h1
    | awaitingErrorText status body =>
      rw [hph] at hp
      obtain ⟨hdrs, bodyOpt, ho, hcond, hs⟩ := hp
      refine ⟨hdrs, bodyOpt, ho, hcond, ?_⟩
      intro s1 h1
      dsimp only at h1
      rw [lookupS_mset] at h1
      by_cases hk : buildKey u r = t.key
      · rw [if_pos hk] at h1
        cases h1
        exact hs s0 (hk ▸ hl)
      · rw [if_neg hk] at h1
        exact hs s1 h1
    | streaming pending streamErr =>
      rw [hph] at hp
      obtain ⟨status, hdrs, errBody, chunks, dp, ho, hcond, hsplit, hs⟩ := hp
      refine ⟨status, hdrs, errBody, chunks, dp, ho, hcond, hsplit, ?_⟩
      intro s1 h1
      dsimp only at h1
      rw [lookupS_mset] at h1
      by_cases hk : buildKey u r = t.key
      · rw [if_pos hk] at h1
        cases h1
        exact hs s0 (hk ▸ hl)
      · rw [if_neg hk] at h1
        exact hs s1 h1

theorem GInv_join_new {env : Env} {st : DOState} (c : ClientId) (u r : String)
    (h : GInv env st) (hl : lookupS st.sessions (buildKey u r) = none) :
    GInv env (step env st (.join c u r)) := by
  simp only [step, stepCore]
  rw [coalescerFetch_new env c u r hl]
  have hzero : fetchCount st.log st.clock = 0 := by
    apply fetchCount_eq_zero
    intro k' u' r' hm
    exact absurd (h.toSInv.fetchLt k' st.clock u' r' hm) (lt_irrefl _)
  have htf := no_task_of_no_session h hl
  have hknotin := key_not_in_tasks_of_no_session h hl
  refine ⟨⟨?_, ?_, ?_, ?_, ?_, ?_, ?_, ?_, ?_, ?_⟩, ?_, ?_, ?_, ?_, ?_, ?_⟩
  · intro k' sid u' r' hm
    dsimp only at hm ⊢
    rcases List.mem_append.mp hm with h1 | h1
    · exact Nat.lt_succ_of_lt (h.toSInv.fetchLt k' sid u' r' h1)
    · simp at h1
      omega
  · intro sid c' f hm
    dsimp only at hm ⊢
    rcases List.mem_append.mp hm with h1 | h1
    · exact Nat.lt_succ_of_lt (h.toSInv.sentLt sid c' f h1)
    · simp at h1
  · intro sid
    dsimp only
    rw [fetchCount_append, fetchCount_single]
    by_cases hsid : st.clock = sid
    · subst hsid
      rw [hzero]
      simp
    · have := h.toSInv.fetchOnce sid
      simp only [if_neg hsid]
      omega
  · intro k0 s1 h1
    dsimp only at h1
    rw [lookupS_mset] at h1
    by_cases hk : buildKey u r = k0
    · rw [if_pos hk] at h1
      cases h1
      rfl
    · rw [if_neg hk] at h1
      exact h.toSInv.sessFip k0 s1 h1
  · intro k0 s1 h1
    dsimp only at h1 ⊢
    rw [lookupS_mset] at h1
    rw [fetchCount_append, fetchCount_single]
    by_cases hk : buildKey u r = k0
    · rw [if_pos hk] at h1
      cases h1
      simp [hzero]
    · rw [if_neg hk] at h1
      have hlt := h.toSInv.sessLt k0 s1 h1
      have hne : ¬(st.clock = s1.startTime) := by omega
      rw [if_neg hne]
      have := h.toSInv.sessCount k0 s1 h1
      omega
  · intro k0 s1 h1
    dsimp only at h1 ⊢
    rw [lookupS_mset] at h1
    by_cases hk : buildKey u r = k0
    · rw [if_pos hk] at h1
      cases h1
      simp
    · rw [if_neg hk] at h1
      exact Nat.lt_succ_of_lt (h.toSInv.sessLt k0 s1 h1)
  · intro k0 s1 h1
    dsimp only at h1
    rw [lookupS_mset] at h1
    by_cases hk : buildKey u r = k0
    · rw [if_pos hk] at h1
      cases h1
      simp
    · rw [if_neg hk] at h1
      exact h.toSInv.sessNodup k0 s1 h1
  · intro sid c' d hm
    dsimp only at hm
    rcases List.mem_append.mp hm with h1 | h1
    · exact h.toSInv.binNe sid c' d h1
    · simp at h1
  · intro sid c' d hm k' u' r' hm'
    dsimp only at hm hm'
    have hm1 : LogEvent.sent sid c' (.binaryFrame d) ∈ st.log := by
      rcases List.mem_append.mp hm with h1 | h1
      · exact h1
      · simp at h1
    rcases List.mem_append.mp hm' with h1 | h1
    · exact h.toSInv.binOk sid c' d hm1 k' u' r' h1
    · simp at h1
      obtain ⟨_, h2, _, _⟩ := h1
      rw [h2] at hm1
      exact absurd (h.toSInv.sentLt _ _ _ hm1) (lt_irrefl _)
  · intro sid c' status msg hm
    dsimp only at hm
    rcases List.mem_append.mp hm with h1 | h1
    · exact h.toSInv.errBound sid c' status msg h1
    · simp at h1
  · intro k0 s1 h1
    dsimp only at h1 ⊢
    rw [lookupS_mset] at h1
    by_cases hk : buildKey u r = k0
    · rw [if_pos hk] at h1
      cases h1
      rw [← hk]
      rw [tfind_append_none _ htf]
      simp
    · rw [if_neg hk] at h1
      obtain ⟨t, ht, hsid⟩ := h.sessTask k0 s1 h1
      exact ⟨t, tfind_append_some _ ht, hsid⟩
  · intro t ht
    dsimp only at ht ⊢
    rw [lookupS_mset]
    rcases List.mem_append.mp ht with h1 | h1
    · obtain ⟨s, hs, e1, e2⟩ := h.taskSess t h1
      have hk : ¬(buildKey u r = t.key) := by
        intro hk
        rw [← hk, hl] at hs
        exact Option.noConfusion hs
      rw [if_neg hk]
      exact ⟨s, hs, e1, e2⟩
    · simp at h1
      subst h1
      rw [if_pos rfl]
      exact ⟨_, rfl, rfl, rfl⟩
  · intro t ht
    dsimp only at ht
    rcases List.mem_append.mp ht with h1 | h1
    · exact h.taskKey t h1
    · simp at h1
      subst h1
      rfl
  · intro t ht
    dsimp only at ht ⊢
    rcases List.mem_append.mp ht with h1 | h1
    · exact List.mem_append_left _ (h.taskFetch t h1)
    · simp at h1
      subst h1
      simp
  · dsimp only
    rw [List.map_append, List.nodup_append]
    refine ⟨h.taskNodup, List.nodup_singleton _, ?_⟩
    intro a ha hb
    simp at hb
    subst hb
    exact hknotin ha
  · intro t ht
    dsimp only at ht
    rcases List.mem_append.mp ht with h1 | h1
    · have hp := h.taskPhase t h1
      have hk : ¬(buildKey u r = t.key) := by
        intro hk
        obtain ⟨s, hs, _, _⟩ := h.taskSess t h1
        rw [← hk, hl] at hs
        exact Option.noConfusion hs
      unfold PhaseInv at hp ⊢
      cases hph : t.phase with
      | awaitingResponse =>
        rw [hph] at hp
        intro s1 h2
        dsimp only at h2
        rw [lookupS_mset, if_neg hk] at h2
        exact hp s1 h2
      | awaitingErrorText status body =>
        rw [hph] at hp
        obtain ⟨hdrs, bodyOpt, ho, hcond, hs⟩ := hp
        refine ⟨hdrs, bodyOpt, ho, hcond, ?_⟩
        intro s1 h2
        dsimp only at h2
        rw [lookupS_mset, if_neg hk] at h2
        exact hs s1 h2
      | streaming pending streamErr =>
        rw [hph] at hp
        obtain ⟨status, hdrs, errBody, chunks, dp, ho, hcond, hsplit, hs⟩ := hp
        refine ⟨status, hdrs, errBody, chunks, dp, ho, hcond, hsplit, ?_⟩
        intro s1 h2
        dsimp only at h2
        rw [lookupS_mset, if_neg hk] at h2
        exact hs s1 h2
    · simp at h1
      subst h1
      unfold PhaseInv
      intro s1 h2
      dsimp only at h2
      rw [lookupS_mset, if_pos rfl] at h2
      cases h2
      exact ⟨rfl, rfl⟩

theorem GInv_join {env : Env} {st : DOState} (c : ClientId) (u r : String)
    (h : GInv env st) : GInv env (step env st (.join c u r)) := by
  cases hl : lookupS st.sessions (buildKey u r) with
  | some s0 => exact GInv_join_existing c u r h hl
  | none => exact GInv_join_new c u r h hl


theorem broadcast_log_mono (env : Env) (st : DOState) (k : Key) (f : Frame)
    {e : LogEvent} (he : e ∈ st.log) : e ∈ (broadcast env st k f).log := by
  obtain ⟨es, h1, _⟩ := broadcast_log_shape env st k f
  rw [h1]
  exact List.mem_append_left _ he

theorem closeSession_log_mono (st : DOState) (k : Key)
    {e : LogEvent} (he : e ∈ st.log) : e ∈ (closeSession st k).log := by
  obtain ⟨es, h1, _⟩ := closeSession_log_shape st k
  rw [h1]
  exact List.mem_append_left _ he

theorem setErr_log_mono (st : DOState) (k : Key) (v : String)
    {e : LogEvent} (he : e ∈ st.log) : e ∈ (setErr st k v).log := by
  obtain ⟨es, h1, _⟩ := setErr_log_shape st k v
  rw [h1]
  exact List.mem_append_left _ he

theorem setResp_log_mono (st : DOState) (k : Key) (status : Nat)
    (hdrs : List (String × String)) {e : LogEvent} (he : e ∈ st.log) :
    e ∈ (setResp st k status hdrs).log := by
  rw [setResp_log]
  exact he

theorem segment_tasks (env : Env) (st : DOState) (t : FetchTask) :
    (fetchAndBroadcastSegment env st t).1.tasks = st.tasks := by
  cases hp : t.phase with
  | awaitingResponse =>
    cases ho : env.origin t.url t.range with
    | throwBeforeResponse msg =>
      simp only [fetchAndBroadcastSegment, hp, ho]
      rw [closeSession_tasks, broadcast_tasks, setErr_tasks]
    | respond status hdrs errBody bodyOpt =>
      simp only [fetchAndBroadcastSegment, hp, ho]
      by_cases hc : !respOk status && status ≠ 206
      · rw [if_pos hc]
        try dsimp only
        rw [broadcast_tasks, setResp_tasks]
      · rw [if_neg hc]
        cases bodyOpt with
        | none =>
          try dsimp only
          rw [closeSession_tasks, closeSession_tasks, broadcast_tasks,
            broadcast_tasks, setResp_tasks]
        | some ob =>
          try dsimp only
          rw [broadcast_tasks, setResp_tasks]
  | awaitingErrorText status errBody =>
    simp only [fetchAndBroadcastSegment, hp]
    rw [closeSession_tasks, closeSession_tasks, broadcast_tasks, setErr_tasks]
  | streaming pending streamErr =>
    cases pending with
    | cons chunk rest =>
      simp only [fetchAndBroadcastSegment, hp]
      by_cases hc : 0 < chunk.length
      · rw [if_pos hc]
        try dsimp only
        rw [broadcast_tasks]
      · rw [if_neg hc]
    | nil =>
      cases streamErr with
      | none =>
        simp only [fetchAndBroadcastSegment, hp]
        rw [closeSession_tasks, broadcast_tasks]
      | some msg =>
        simp only [fetchAndBroadcastSegment, hp]
        rw [closeSession_tasks, broadcast_tasks, setErr_tasks]

/-- The task-related half of the global invariant, as one proposition. -/
def TaskFacts (env : Env) (st : DOState) : Prop :=
  (∀ k s, lookupS st.sessions k = some s →
    ∃ t, tfind st.tasks k = some t ∧ t.sid = s.startTime) ∧
  (∀ t ∈ st.tasks, ∃ s, lookupS st.sessions t.key = some s ∧
    s.startTime = t.sid ∧ s.url = t.url) ∧
  (∀ t ∈ st.tasks, t.key = buildKey t.url t.range) ∧
  (∀ t ∈ st.tasks, LogEvent.originFetch t.key t.sid t.url t.range ∈ st.log) ∧
  ((st.tasks.map FetchTask.key).Nodup) ∧
  (∀ t ∈ st.tasks, PhaseInv env st t)

theorem GInv_of {env : Env} {st : DOState} (hs : SInv env st) (htf : TaskFacts env st) :
    GInv env st :=
  ⟨hs, htf.1, htf.2.1, htf.2.2.1, htf.2.2.2.1, htf.2.2.2.2.1, htf.2.2.2.2.2⟩

theorem SInv_retask {env : Env} {st1 st2 : DOState} (h : SInv env st1)
    (hsess : st2.sessions = st1.sessions) (hlog : st2.log = st1.log)
    (hclock : st1.clock ≤ st2.clock) : SInv env st2 := by
  refine ⟨?_, ?_, ?_, ?_, ?_, ?_, ?_, ?_, ?_, ?_⟩
  · intro k sid u r hm
    rw [hlog] at hm
    exact lt_of_lt_of_le (h.fetchLt k sid u r hm) hclock
  · intro sid c f hm
    rw [hlog] at hm
    exact lt_of_lt_of_le (h.sentLt sid c f hm) hclock
  · intro sid
    rw [hlog]
    exact h.fetchOnce sid
  · intro k s hl
    rw [hsess] at hl
    exact h.sessFip k s hl
  · intro k s hl
    rw [hsess] at hl
    rw [hlog]
    exact h.sessCount k s hl
  · intro k s hl
    rw [hsess] at hl
    exact lt_of_lt_of_le (h.sessLt k s hl) hclock
  · intro k s hl
    rw [hsess] at hl
    exact h.sessNodup k s hl
  · intro sid c d hm
    rw [hlog] at hm
    exact h.binNe sid c d hm
  · intro sid c d hm k' u r hm'
    rw [hlog] at hm hm'
    exact h.binOk sid c d hm k' u r hm'
  · intro sid c status msg hm
    rw [hlog] at hm
    exact h.errBound sid c status msg hm

/-- Transfer of the task facts when a task terminates: its session has
been removed, every other key's binding is untouched, the log only grew,
and the task is deleted. -/
theorem taskFacts_term {env : Env} {st : DOState} {k : Key} {t : FetchTask}
    (h : GInv env st) (_ht : tfind st.tasks k = some t) {stF : DOState}
    (hnone : lookupS stF.sessions k = none)
    (hne : ∀ k0, k ≠ k0 → lookupS stF.sessions k0 = lookupS st.sessions k0)
    (hlog : ∀ e ∈ st.log, e ∈ stF.log)
    (htasks : stF.tasks = tdel st.tasks k) : TaskFacts env stF := by
  refine ⟨?_, ?_, ?_, ?_, ?_, ?_⟩
  · intro k0 s1 h1
    by_cases hk : k = k0
    · subst hk
      rw [hnone] at h1
      exact Option.noConfusion h1
    · rw [hne k0 hk] at h1
      obtain ⟨t0, ht0, hsid⟩ := h.sessTask k0 s1 h1
      rw [htasks, tfind_tdel, if_neg hk]
      exact ⟨t0, ht0, hsid⟩
  · intro t' ht'
    rw [htasks] at ht'
    obtain ⟨h1, h2⟩ := mem_tdel.mp ht'
    obtain ⟨s, hs, e1, e2⟩ := h.taskSess t' h1
    rw [← hne t'.key (fun hh => h2 hh.symm)] at hs
    exact ⟨s, hs, e1, e2⟩
  · intro t' ht'
    rw [htasks] at ht'
    exact h.taskKey t' (mem_tdel.mp ht').1
  · intro t' ht'
    rw [htasks] at ht'
    exact hlog _ (h.taskFetch t' (mem_tdel.mp ht').1)
  · rw [htasks]
    exact ((tdel_sublist st.tasks k).map FetchTask.key).nodup h.taskNodup
  · intro t' ht'
    rw [htasks] at ht'
    obtain ⟨h1, h2⟩ := mem_tdel.mp ht'
    have hp := h.taskPhase t' h1
    have hkne : k ≠ t'.key := fun hh => h2 hh.symm
    unfold PhaseInv at hp ⊢
    cases hph : t'.phase with
    | awaitingResponse =>
      rw [hph] at hp
      intro s1 h3
      rw [hne t'.key hkne] at h3
      exact hp s1 h3
    | awaitingErrorText status body =>
      rw [hph] at hp
      obtain ⟨hdrs, bodyOpt, ho, hcond, hs⟩ := hp
      refine ⟨hdrs, bodyOpt, ho, hcond, ?_⟩
      intro s1 h3
      rw [hne t'.key hkne] at h3
      exact hs s1 h3
    | streaming pending streamErr =>
      rw [hph] at hp
      obtain ⟨status, hdrs, errBody, chunks, dp, ho, hcond, hsplit, hs⟩ := hp
      refine ⟨status, hdrs, errBody, chunks, dp, ho, hcond, hsplit, ?_⟩
      intro s1 h3
      rw [hne t'.key hkne] at h3
      exact hs s1 h3

/-- Transfer of the task facts when a task advances to a next await
point: the session at the key survives with `startTime` and `url`
unchanged, other keys are untouched, the log only grew, and the task is
replaced by its successor (same key, sid, url and range, new phase). -/
theorem taskFacts_cont {env : Env} {st : DOState} {k : Key} {t : FetchTask}
    (t' : FetchTask) (h : GInv env st) (ht : tfind st.tasks k = some t)
    {stF : DOState}
    (hkey : t'.key = k) (hsid : t'.sid = t.sid) (hurl : t'.url = t.url)
    (hrange : t'.range = t.range)
    (hsk : ∀ s1, lookupS stF.sessions k = some s1 →
      ∃ s0, lookupS st.sessions k = some s0 ∧
        s1.startTime = s0.startTime ∧ s1.url = s0.url)
    (hske : ∀ s0, lookupS st.sessions k = some s0 →
      ∃ s1, lookupS stF.sessions k = some s1 ∧
        s1.startTime = s0.startTime ∧ s1.url = s0.url)
    (hne : ∀ k0, k ≠ k0 → lookupS stF.sessions k0 = lookupS st.sessions k0)
    (hlog : ∀ e ∈ st.log, e ∈ stF.log)
    (htasks : stF.tasks = tset st.tasks k t')
    (hph' : PhaseInv env stF t') : TaskFacts env stF := by
  have htk := (tfind_mem ht).2
  refine ⟨?_, ?_, ?_, ?_, ?_, ?_⟩
  · intro k0 s1 h1
    rw [htasks, tfind_tset st.tasks k k0 t t' hkey ht]
    by_cases hk : k = k0
    · subst hk
      rw [if_pos rfl]
      obtain ⟨s0, hl0, e1, _⟩ := hsk s1 h1
      obtain ⟨t0, ht0, hsid0⟩ := h.sessTask k s0 hl0
      rw [ht] at ht0
      injection ht0 with he
      subst he
      exact ⟨t', rfl, by rw [hsid, hsid0, e1]⟩
    · rw [if_neg hk]
      rw [hne k0 hk] at h1
      exact h.sessTask k0 s1 h1
  · intro t'' ht''
    rw [htasks] at ht''
    by_cases hk2 : t''.key = k
    · have : t'' = t' := by
        rcases mem_tset_key_eq h.taskNodup ht'' hk2 with he | he
        · exact he
        · rw [ht] at he
          exact Option.noConfusion he
      subst this
      obtain ⟨s0, hl0, e1, e2⟩ := h.taskSess t ((tfind_mem ht).1)
      rw [htk] at hl0
      obtain ⟨s1, hl1, f1, f2⟩ := hske s0 hl0
      rw [hkey]
      exact ⟨s1, hl1, by rw [f1, e1, hsid], by rw [f2, e2, hurl]⟩
    · have hmem := mem_tset_ne hkey ht'' hk2
      obtain ⟨s, hs, e1, e2⟩ := h.taskSess t'' hmem
      rw [← hne t''.key (fun hh => hk2 hh.symm)] at hs
      exact ⟨s, hs, e1, e2⟩
  · intro t'' ht''
    rw [htasks] at ht''
    by_cases hk2 : t''.key = k
    · have : t'' = t' := by
        rcases mem_tset_key_eq h.taskNodup ht'' hk2 with he | he
        · exact he
        · rw [ht] at he
          exact Option.noConfusion he
      subst this
      rw [hkey, hurl, hrange, ← htk]
      exact h.taskKey t ((tfind_mem ht).1)
    · exact h.taskKey t'' (mem_tset_ne hkey ht'' hk2)
  · intro t'' ht''
    rw [htasks] at ht''
    by_cases hk2 : t''.key = k
    · have : t'' = t' := by
        rcases mem_tset_key_eq h.taskNodup ht'' hk2 with he | he
        · exact he
        · rw [ht] at he
          exact Option.noConfusion he
      subst this
      rw [hkey, hsid, hurl, hrange, ← htk]
      exact hlog _ (h.taskFetch t ((tfind_mem ht).1))
    · exact hlog _ (h.taskFetch t'' (mem_tset_ne hkey ht'' hk2))
  · rw [htasks, map_key_tset st.tasks k t' hkey]
    exact h.taskNodup
  · intro t'' ht''
    rw [htasks] at ht''
    by_cases hk2 : t''.key = k
    · have : t'' = t' := by
        rcases mem_tset_key_eq h.taskNodup ht'' hk2 with he | he
        · exact he
        · rw [ht] at he
          exact Option.noConfusion he
      subst this
      exact hph'
    · have hmem := mem_tset_ne hkey ht'' hk2
      have hp := h.taskPhase t'' hmem
      have hkne : k ≠ t''.key := fun hh => hk2 hh.symm
      unfold PhaseInv at hp ⊢
      cases hph : t''.phase with
      | awaitingResponse =>
        rw [hph] at hp
        intro s1 h3
        rw [hne t''.key hkne] at h3
        exact hp s1 h3
      | awaitingErrorText status body =>
        rw [hph] at hp
        obtain ⟨hdrs, bodyOpt, ho, hcond, hs⟩ := hp
        refine ⟨hdrs, bodyOpt, ho, hcond, ?_⟩
        intro s1 h3
        rw [hne t''.key hkne] at h3
        exact hs s1 h3
      | streaming pending streamErr =>
        rw [hph] at hp
        obtain ⟨status, hdrs, errBody, chunks, dp, ho, hcond, hsplit, hs⟩ := hp
        refine ⟨status, hdrs, errBody, chunks, dp, ho, hcond, hsplit, ?_⟩
        intro s1 h3
        rw [hne t''.key hkne] at h3
        exact hs s1 h3


theorem respBroadcast_lookup_rel (env : Env) (st : DOState) (k : Key) (status : Nat)
    (hdrs : List (String × String)) (f : Frame) :
    (∀ s1, lookupS (broadcast env (setResp st k status hdrs) k f).sessions k = some s1 →
      ∃ s0, lookupS st.sessions k = some s0 ∧ s1.startTime = s0.startTime ∧
        s1.url = s0.url ∧ s1.responseStatus = some status ∧
        s1.responseHeaders = some hdrs) ∧
    (∀ s0, lookupS st.sessions k = some s0 →
      ∃ s1, lookupS (broadcast env (setResp st k status hdrs) k f).sessions k = some s1 ∧
        s1.startTime = s0.startTime ∧ s1.url = s0.url) ∧
    (∀ k0, k ≠ k0 →
      lookupS (broadcast env (setResp st k status hdrs) k f).sessions k0 =
        lookupS st.sessions k0) := by
  refine ⟨?_, ?_, ?_⟩
  · intro s1 h1
    cases hl : lookupS st.sessions k with
    | none =>
      rw [setResp_none hl] at h1
      rw [broadcast_none f hl, hl] at h1
      exact Option.noConfusion h1
    | some s0 =>
      have h2 := setResp_lookup_self status hdrs hl
      rw [broadcast_lookup_self env f h2] at h1
      cases h1
      exact ⟨s0, rfl, rfl, rfl, rfl, rfl⟩
  · intro s0 hl
    have h2 := setResp_lookup_self status hdrs hl
    exact ⟨_, broadcast_lookup_self env f h2, rfl, rfl⟩
  · intro k0 hk
    rw [broadcast_lookup_ne _ _ _ _ _ hk, setResp_lookup_ne _ _ _ _ _ hk]

theorem bareBroadcast_lookup_rel (env : Env) (st : DOState) (k : Key) (f : Frame) :
    (∀ s1, lookupS (broadcast env st k f).sessions k = some s1 →
      ∃ s0, lookupS st.sessions k = some s0 ∧ s1.startTime = s0.startTime ∧
        s1.url = s0.url ∧ s1.responseStatus = s0.responseStatus ∧
        s1.responseHeaders = s0.responseHeaders) ∧
    (∀ s0, lookupS st.sessions k = some s0 →
      ∃ s1, lookupS (broadcast env st k f).sessions k = some s1 ∧
        s1.startTime = s0.startTime ∧ s1.url = s0.url) := by
  constructor
  · intro s1 h1
    cases hl : lookupS st.sessions k with
    | none =>
      rw [broadcast_none f hl, hl] at h1
      exact Option.noConfusion h1
    | some s0 =>
      rw [broadcast_lookup_self env f hl] at h1
      cases h1
      exact ⟨s0, rfl, rfl, rfl, rfl, rfl⟩
  · intro s0 hl
    exact ⟨_, broadcast_lookup_self env f hl, rfl, rfl⟩

theorem bool_cond_false {b : Bool} (h : ¬(b = true)) : b = false := by
  cases b
  · rfl
  · exact absurd rfl h

theorem GInv_resume {env : Env} {st : DOState} (k : Key) (h : GInv env st) :
    GInv env (step env st (.resume k)) := by
  cases ht : tfind st.tasks k with
  | none =>
    simp only [step, stepCore, ht]
    exact h.tick
  | some t =>
    have htm := tfind_mem ht
    have htk := htm.2
    subst htk
    cases hph : t.phase with
    | awaitingResponse =>
      cases ho : env.origin t.url t.range with
      | throwBeforeResponse msg =>
        have hseg : fetchAndBroadcastSegment env st t =
            (closeSession (broadcast env (setErr st t.key msg) t.key
              (.errorFrame 500 (sliceUpTo msg 500))) t.key, none) := by
          simp only [fetchAndBroadcastSegment, hph, ho]
        simp only [step, stepCore, ht, hseg]
        have hfc : FrameCond env (setErr st t.key msg) t.key
            (.errorFrame 500 (sliceUpTo msg 500)) := sliceUpTo_length msg 500
        have hS1 := ((h.toSInv.setErrOp t.key msg).broadcastOp _ _ hfc).closeSessionOp t.key
        refine GInv_of (SInv_retask hS1 rfl rfl ?_) (taskFacts_term h ht ?_ ?_ ?_ ?_)
        · rw [closeSession_clock, broadcast_clock, setErr_clock]
          exact Nat.le_succ _
        · exact closeSession_lookup_self _ _
        · intro k0 hk
          rw [closeSession_lookup_ne _ _ _ hk, broadcast_lookup_ne _ _ _ _ _ hk,
            setErr_lookup_ne _ _ _ _ hk]
        · intro e he
          exact closeSession_log_mono _ _ (broadcast_log_mono _ _ _ _
            (setErr_log_mono _ _ _ he))
        · rw [closeSession_tasks, broadcast_tasks, setErr_tasks]
      | respond status hdrs errBody bodyOpt =>
        by_cases hc : (!respOk status && decide (status ≠ 206)) = true
        · have hseg : fetchAndBroadcastSegment env st t =
              (broadcast env (setResp st t.key status hdrs) t.key
                (.headersFrame status hdrs),
               some { t with phase := .awaitingErrorText status errBody }) := by
            simp only [fetchAndBroadcastSegment, hph, ho]
            rw [if_pos hc]
          simp only [step, stepCore, ht, hseg]
          have hrel := respBroadcast_lookup_rel env st t.key status hdrs
            (.headersFrame status hdrs)
          have hS1 := (h.toSInv.setRespOp t.key status hdrs).broadcastOp
            t.key (.headersFrame status hdrs) trivial
          refine GInv_of (SInv_retask hS1 rfl rfl ?_)
            (taskFacts_cont { t with phase := .awaitingErrorText status errBody }
              h ht rfl rfl rfl rfl ?_ ?_ ?_ ?_ ?_ ?_)
          · rw [broadcast_clock, setResp_clock]
            exact Nat.le_succ _
          · intro s1 h1
            obtain ⟨s0, hl0, e1, e2, _, _⟩ := hrel.1 s1 h1
            exact ⟨s0, hl0, e1, e2⟩
          · exact hrel.2.1
          · exact hrel.2.2
          · intro e he
            exact broadcast_log_mono _ _ _ _ (setResp_log_mono _ _ _ _ he)
          · rw [broadcast_tasks, setResp_tasks]
          · unfold PhaseInv
            refine ⟨hdrs, bodyOpt, ho, hc, ?_⟩
            intro s1 h1
            obtain ⟨s0, hl0, _, _, e3, e4⟩ := hrel.1 s1 h1
            exact ⟨e3, e4⟩
        · cases bodyOpt with
          | none =>
            have hseg : fetchAndBroadcastSegment env st t =
                (closeSession (closeSession (broadcast env
                  (broadcast env (setResp st t.key status hdrs) t.key
                    (.headersFrame status hdrs)) t.key .doneFrame) t.key) t.key,
                 none) := by
              simp only [fetchAndBroadcastSegment, hph, ho]
              rw [if_neg hc]
            simp only [step, stepCore, ht, hseg]
            have hS1 := ((((h.toSInv.setRespOp t.key status hdrs).broadcastOp
              t.key (.headersFrame status hdrs) trivial).broadcastOp
              t.key .doneFrame trivial).closeSessionOp t.key).closeSessionOp t.key
            refine GInv_of (SInv_retask hS1 rfl rfl ?_) (taskFacts_term h ht ?_ ?_ ?_ ?_)
            · rw [closeSession_clock, closeSession_clock, broadcast_clock,
                broadcast_clock, setResp_clock]
              exact Nat.le_succ _
            · exact closeSession_lookup_self _ _
            · intro k0 hk
              rw [closeSession_lookup_ne _ _ _ hk, closeSession_lookup_ne _ _ _ hk,
                broadcast_lookup_ne _ _ _ _ _ hk, broadcast_lookup_ne _ _ _ _ _ hk,
                setResp_lookup_ne _ _ _ _ _ hk]
            · intro e he
              exact closeSession_log_mono _ _ (closeSession_log_mono _ _
                (broadcast_log_mono _ _ _ _ (broadcast_log_mono _ _ _ _
                  (setResp_log_mono _ _ _ _ he))))
            · rw [closeSession_tasks, closeSession_tasks, broadcast_tasks,
                broadcast_tasks, setResp_tasks]
          | some ob =>
            have hseg : fetchAndBroadcastSegment env st t =
                (broadcast env (setResp st t.key status hdrs) t.key
                  (.headersFrame status hdrs),
                 some { t with phase := .streaming ob.chunks ob.streamError }) := by
              simp only [fetchAndBroadcastSegment, hph, ho]
              rw [if_neg hc]
            simp only [step, stepCore, ht, hseg]
            have hrel := respBroadcast_lookup_rel env st t.key status hdrs
              (.headersFrame status hdrs)
            have hS1 := (h.toSInv.setRespOp t.key status hdrs).broadcastOp
              t.key (.headersFrame status hdrs) trivial
            refine GInv_of (SInv_retask hS1 rfl rfl ?_)
              (taskFacts_cont { t with phase := .streaming ob.chunks ob.streamError }
                h ht rfl rfl rfl rfl ?_ ?_ ?_ ?_ ?_ ?_)
            · rw [broadcast_clock, setResp_clock]
              exact Nat.le_succ _
            · intro s1 h1
              obtain ⟨s0, hl0, e1, e2, _, _⟩ := hrel.1 s1 h1
              exact ⟨s0, hl0, e1, e2⟩
            · exact hrel.2.1
            · exact hrel.2.2
            · intro e he
              exact broadcast_log_mono _ _ _ _ (setResp_log_mono _ _ _ _ he)
            · rw [broadcast_tasks, setResp_tasks]
            · unfold PhaseInv
              refine ⟨status, hdrs, errBody, ob.chunks, [], ho, bool_cond_false hc,
                by simp, ?_⟩
              intro s1 h1
              obtain ⟨s0, hl0, _, _, e3, e4⟩ := hrel.1 s1 h1
              exact ⟨e3, e4⟩
    | awaitingErrorText status errBody =>
      have hseg : fetchAndBroadcastSegment env st t =
          (closeSession (closeSession (broadcast env (setErr st t.key errBody) t.key
            (.errorFrame status (sliceUpTo errBody 500))) t.key) t.key, none) := by
        simp only [fetchAndBroadcastSegment, hph]
      simp only [step, stepCore, ht, hseg]
      have hfc : FrameCond env (setErr st t.key errBody) t.key
          (.errorFrame status (sliceUpTo errBody 500)) := sliceUpTo_length errBody 500
      have hS1 := (((h.toSInv.setErrOp t.key errBody).broadcastOp _ _ hfc).closeSessionOp
        t.key).closeSessionOp t.key
      refine GInv_of (SInv_retask hS1 rfl rfl ?_) (taskFacts_term h ht ?_ ?_ ?_ ?_)
      · rw [closeSession_clock, closeSession_clock, broadcast_clock, setErr_clock]
        exact Nat.le_succ _
      · exact closeSession_lookup_self _ _
      · intro k0 hk
        rw [closeSession_lookup_ne _ _ _ hk, closeSession_lookup_ne _ _ _ hk,
          broadcast_lookup_ne _ _ _ _ _ hk, setErr_lookup_ne _ _ _ _ hk]
      · intro e he
        exact closeSession_log_mono _ _ (closeSession_log_mono _ _
          (broadcast_log_mono _ _ _ _ (setErr_log_mono _ _ _ he)))
      · rw [closeSession_tasks, closeSession_tasks, broadcast_tasks, setErr_tasks]
    | streaming pending streamErr =>
      have hp := h.taskPhase t htm.1
      rw [PhaseInv, hph] at hp
      obtain ⟨status, hdrs0, errBody0, chunks, dp, ho2, hcond, hsplit, hresp⟩ := hp
      cases pending with
      | cons chunk rest =>
        by_cases hc : 0 < chunk.length
        · have hseg : fetchAndBroadcastSegment env st t =
              (broadcast env st t.key (.binaryFrame chunk),
               some { t with phase := .streaming rest streamErr }) := by
            simp only [fetchAndBroadcastSegment, hph]
            rw [if_pos hc]
          simp only [step, stepCore, ht, hseg]
          have hrel := bareBroadcast_lookup_rel env st t.key (.binaryFrame chunk)
          have hfc : FrameCond env st t.key (.binaryFrame chunk) := by
            refine ⟨fun hnil => by simp [hnil] at hc, ?_⟩
            intro s hls k' u' r' hof
            obtain ⟨s2, hs2, e1, _⟩ := h.taskSess t htm.1
            rw [hls] at hs2
            injection hs2 with he2
            subst he2
            rw [e1] at hof
            obtain ⟨ek, eu, er⟩ := originFetch_unique (h.toSInv.fetchOnce t.sid)
              hof (h.taskFetch t htm.1)
            rw [eu, er, ho2]
            exact ⟨status, hdrs0, errBody0, ⟨chunks, streamErr⟩, rfl, hcond⟩
          have hS1 := h.toSInv.broadcastOp _ _ hfc
          refine GInv_of (SInv_retask hS1 rfl rfl ?_)
            (taskFacts_cont { t with phase := .streaming rest streamErr }
              h ht rfl rfl rfl rfl ?_ ?_ ?_ ?_ ?_ ?_)
          · rw [broadcast_clock]
            exact Nat.le_succ _
          · intro s1 h1
            obtain ⟨s0, hl0, e1, e2, _, _⟩ := hrel.1 s1 h1
            exact ⟨s0, hl0, e1, e2⟩
          · exact hrel.2
          · intro k0 hk
            exact broadcast_lookup_ne _ _ _ _ _ hk
          · intro e he
            exact broadcast_log_mono _ _ _ _ he
          · rw [broadcast_tasks]
          · unfold PhaseInv
            refine ⟨status, hdrs0, errBody0, chunks, dp ++ [chunk], ho2, hcond,
              by rw [hsplit]; simp, ?_⟩
            intro s1 h1
            obtain ⟨s0, hl0, _, _, e3, e4⟩ := hrel.1 s1 h1
            rw [e3, e4]
            exact hresp s0 hl0
        · have hseg : fetchAndBroadcastSegment env st t =
              (st, some { t with phase := .streaming rest streamErr }) := by
            simp only [fetchAndBroadcastSegment, hph]
            rw [if_neg hc]
          simp only [step, stepCore, ht, hseg]
          refine GInv_of (SInv_retask h.toSInv rfl rfl (Nat.le_succ _))
            (taskFacts_cont { t with phase := .streaming rest streamErr }
              h ht rfl rfl rfl rfl ?_ ?_ ?_ ?_ ?_ ?_)
          · intro s1 h1
            exact ⟨s1, h1, rfl, rfl⟩
          · intro s0 hl
            exact ⟨s0, hl, rfl, rfl⟩
          · intro k0 hk
            rfl
          · intro e he
            exact he
          · rfl
          · unfold PhaseInv
            refine ⟨status, hdrs0, errBody0, chunks, dp ++ [chunk], ho2, hcond,
              by rw [hsplit]; simp, ?_⟩
            intro s1 h1
            exact hresp s1 h1
      | nil =>
        cases streamErr with
        | none =>
          have hseg : fetchAndBroadcastSegment env st t =
              (closeSession (broadcast env st t.key .doneFrame) t.key, none) := by
            simp only [fetchAndBroadcastSegment, hph]
          simp only [step, stepCore, ht, hseg]
          have hS1 := (h.toSInv.broadcastOp t.key .doneFrame
            trivial).closeSessionOp t.key
          refine GInv_of (SInv_retask hS1 rfl rfl ?_) (taskFacts_term h ht ?_ ?_ ?_ ?_)
          · rw [closeSession_clock, broadcast_clock]
            exact Nat.le_succ _
          · exact closeSession_lookup_self _ _
          · intro k0 hk
            rw [closeSession_lookup_ne _ _ _ hk, broadcast_lookup_ne _ _ _ _ _ hk]
          · intro e he
            exact closeSession_log_mono _ _ (broadcast_log_mono _ _ _ _ he)
          · rw [closeSession_tasks, broadcast_tasks]
        | some msg =>
          have hseg : fetchAndBroadcastSegment env st t =
              (closeSession (broadcast env (setErr st t.key msg) t.key
                (.errorFrame 500 (sliceUpTo msg 500))) t.key, none) := by
            simp only [fetchAndBroadcastSegment, hph]
          simp only [step, stepCore, ht, hseg]
          have hfc : FrameCond env (setErr st t.key msg) t.key
              (.errorFrame 500 (sliceUpTo msg 500)) := sliceUpTo_length msg 500
          have hS1 := ((h.toSInv.setErrOp t.key msg).broadcastOp _ _ hfc).closeSessionOp
            t.key
          refine GInv_of (SInv_retask hS1 rfl rfl ?_) (taskFacts_term h ht ?_ ?_ ?_ ?_)
          · rw [closeSession_clock, broadcast_clock, setErr_clock]
            exact Nat.le_succ _
          · exact closeSession_lookup_self _ _
          · intro k0 hk
            rw [closeSession_lookup_ne _ _ _ hk, broadcast_lookup_ne _ _ _ _ _ hk,
              setErr_lookup_ne _ _ _ _ hk]
          · intro e he
            exact closeSession_log_mono _ _ (broadcast_log_mono _ _ _ _
              (setErr_log_mono _ _ _ he))
          · rw [closeSession_tasks, broadcast_tasks, setErr_tasks]

theorem GInv_step {env : Env} {st : DOState} (a : Action) (h : GInv env st) :
    GInv env (step env st a) := by
  cases a with
  | join c u r => exact GInv_join c u r h
  | resume k => exact GInv_resume k h
  | wsClose c k =>
    simp only [step, stepCore]
    exact (GInv_remove c k h).tick
  | wsError c k =>
    simp only [step, stepCore]
    exact (GInv_remove c k h).tick

theorem GInv_runFrom {env : Env} (acts : List Action) :
    ∀ st : DOState, GInv env st → GInv env (runFrom env st acts) := by
  induction acts with
  | nil => intro st h; exact h
  | cons a rest ih =>
    intro st h
    rw [runFrom_cons]
    exact ih _ (GInv_step a h)

theorem GInv_run (env : Env) (acts : List Action) : GInv env (run env acts) :=
  GInv_runFrom acts initState (GInv_init env)


/-! ### Claim C1: single flight per session -/

/-- Claim C1: along every schedule (any interleaving of joins, fetch
resumptions and disconnects), at most one origin fetch is ever issued per
session instance, and every live session has its leader fetch started
(`fetchInProgress = true`, the `Pending → Fetching` transition taken) with
exactly one origin fetch issued for it — so no interleaving of concurrent
joins on the same key ever starts a second fetch while the session
lives. -/
theorem C1_single_flight (env : Env) (acts : List Action) :
    (∀ sid, fetchCount (run env acts).log sid ≤ 1) ∧
    (∀ k s, lookupS (run env acts).sessions k = some s →
      s.fetchInProgress = true ∧ fetchCount (run env acts).log s.startTime = 1) := by
  have h := GInv_run env acts
  exact ⟨h.toSInv.fetchOnce,
    fun k s hl => ⟨h.toSInv.sessFip k s hl, h.toSInv.sessCount k s hl⟩⟩

/-- Claim C1 witness: three concurrent joins on one key issue exactly one
origin fetch for the session instance created at clock 0. -/
theorem C1_witness :
    fetchCount (run envW [.join 0 "u" "", .join 1 "u" "", .join 2 "u" ""]).log 0 ≤ 1 ∧
    ({ url := "u", clients := [0, 1, 2], fetchInProgress := true,
       responseHeaders := none, responseStatus := none, error := none,
       startTime := 0, totalClients := 3 } : FileSession).fetchInProgress = true ∧
    fetchCount (run envW [.join 0 "u" "", .join 1 "u" "", .join 2 "u" ""]).log 0 = 1 :=
  ⟨(C1_single_flight envW [.join 0 "u" "", .join 1 "u" "", .join 2 "u" ""]).1 0,
   (C1_single_flight envW [.join 0 "u" "", .join 1 "u" "", .join 2 "u" ""]).2 "u|"
     { url := "u", clients := [0, 1, 2], fetchInProgress := true,
       responseHeaders := none, responseStatus := none, error := none,
       startTime := 0, totalClients := 3 } (by decide)⟩

/-! ### Claim C5: teardown always runs -/

theorem closeSession_closed_mem {st : DOState} {k : Key} {s : FileSession}
    (hl : lookupS st.sessions k = some s) {c : ClientId} (hc : c ∈ s.clients) :
    LogEvent.closed s.startTime c 1000 "Complete" ∈ (closeSession st k).log := by
  rw [closeSession_some hl]
  refine List.mem_append_right _ ?_
  exact List.mem_map_of_mem _ hc

/-- Claim C5: teardown is the final step of every leader-fetch execution.
Whenever a `fetchAndBroadcast` segment returns (second component `none` —
covering the fetch-throw path, the non-success-status path, the missing
body-reader path, normal end of stream and a mid-stream read error), the
session is no longer in the registry afterwards, and every subscriber that
was attached on entry to that final segment and whose transport keeps
accepting writes has been closed with the normal `(1000, "Complete")`
disposition.  Moreover a state with no in-flight task has an empty
registry: no session entry survives its fetch. -/
theorem C5_teardown_always (env : Env) :
    (∀ acts, (run env acts).tasks = [] → (run env acts).sessions = []) ∧
    (∀ (st : DOState) (t : FetchTask) (stF : DOState),
      fetchAndBroadcastSegment env st t = (stF, none) →
      lookupS stF.sessions t.key = none ∧
      (∀ s c, lookupS st.sessions t.key = some s → c ∈ s.clients →
        (∀ n, env.sendFails c n = false) →
        LogEvent.closed s.startTime c 1000 "Complete" ∈ stF.log)) := by
  constructor
  · intro acts htasks
    have h := GInv_run env acts
    apply lookupS_eq_none_forall
    intro k
    cases hl : lookupS (run env acts).sessions k with
    | none => rfl
    | some s =>
      obtain ⟨t, ht, _⟩ := h.sessTask k s hl
      rw [htasks] at ht
      exact Option.noConfusion ht
  · intro st t stF hseg
    cases hph : t.phase with
    | awaitingResponse =>
      cases ho : env.origin t.url t.range with
      | throwBeforeResponse msg =>
        simp only [fetchAndBroadcastSegment, hph, ho, Prod.mk.injEq] at hseg
        rw [← hseg.1]
        refine ⟨closeSession_lookup_self _ _, ?_⟩
        intro s c hl hc hok
        have h1 := setErr_lookup_self msg hl
        have hm1 := deliver_clean env s.startTime
          (Frame.errorFrame 500 (sliceUpTo msg 500)) hok s.clients
          (setErr st t.key msg).log hc
        have h2 := broadcast_lookup_self env
          (.errorFrame 500 (sliceUpTo msg 500)) h1
        exact closeSession_closed_mem h2 hm1.1
      | respond status hdrs errBody bodyOpt =>
        by_cases hc0 : (!respOk status && decide (status ≠ 206)) = true
        · simp only [fetchAndBroadcastSegment, hph, ho] at hseg
          rw [if_pos hc0] at hseg
          simp only [Prod.mk.injEq] at hseg
          exact absurd hseg.2 (by simp)
        · cases bodyOpt with
          | none =>
            simp only [fetchAndBroadcastSegment, hph, ho] at hseg
            rw [if_neg hc0] at hseg
            simp only [Prod.mk.injEq] at hseg
            rw [← hseg.1]
            refine ⟨closeSession_lookup_self _ _, ?_⟩
            intro s c hl hc hok
            have h1 := setResp_lookup_self status hdrs hl
            have hm1 := deliver_clean env s.startTime (Frame.headersFrame status hdrs)
              hok s.clients (setResp st t.key status hdrs).log hc
            have h2 := broadcast_lookup_self env
              (.headersFrame status hdrs) h1
            have hm2 := deliver_clean env s.startTime Frame.doneFrame hok
              (deliver env s.startTime (Frame.headersFrame status hdrs) s.clients
                (setResp st t.key status hdrs).log).1
              (broadcast env (setResp st t.key status hdrs) t.key
                (Frame.headersFrame status hdrs)).log hm1.1
            have h3 := broadcast_lookup_self env Frame.doneFrame h2
            exact closeSession_log_mono _ _ (closeSession_closed_mem h3 hm2.1)
          | some ob =>
            simp only [fetchAndBroadcastSegment, hph, ho] at hseg
            rw [if_neg hc0] at hseg
            simp only [Prod.mk.injEq] at hseg
            exact absurd hseg.2 (by simp)
    | awaitingErrorText status errBody =>
      simp only [fetchAndBroadcastSegment, hph, Prod.mk.injEq] at hseg
      rw [← hseg.1]
      refine ⟨closeSession_lookup_self _ _, ?_⟩
      intro s c hl hc hok
      have h1 := setErr_lookup_self errBody hl
      have hm1 := deliver_clean env s.startTime
        (Frame.errorFrame status (sliceUpTo errBody 500)) hok
        ({ s with error := some errBody }).clients (setErr st t.key errBody).log hc
      have h2 := broadcast_lookup_self env
        (.errorFrame status (sliceUpTo errBody 500)) h1
      exact closeSession_log_mono _ _ (closeSession_closed_mem h2 hm1.1)
    | streaming pending streamErr =>
      cases pending with
      | cons chunk rest =>
        simp only [fetchAndBroadcastSegment, hph] at hseg
        by_cases hcl : 0 < chunk.length
        · rw [if_pos hcl] at hseg
          simp only [Prod.mk.injEq] at hseg
          exact absurd hseg.2 (by simp)
        · rw [if_neg hcl] at hseg
          simp only [Prod.mk.injEq] at hseg
          exact absurd hseg.2 (by simp)
      | nil =>
        cases streamErr with
        | none =>
          simp only [fetchAndBroadcastSegment, hph, Prod.mk.injEq] at hseg
          rw [← hseg.1]
          refine ⟨closeSession_lookup_self _ _, ?_⟩
          intro s c hl hc hok
          have hm1 := deliver_clean env s.startTime Frame.doneFrame hok
            s.clients st.log hc
          have h2 := broadcast_lookup_self env Frame.doneFrame hl
          exact closeSession_closed_mem h2 hm1.1
        | some msg =>
          simp only [fetchAndBroadcastSegment, hph, Prod.mk.injEq] at hseg
          rw [← hseg.1]
          refine ⟨closeSession_lookup_self _ _, ?_⟩
          intro s c hl hc hok
          have h1 := setErr_lookup_self msg hl
          have hm1 := deliver_clean env s.startTime
            (Frame.errorFrame 500 (sliceUpTo msg 500)) hok
            ({ s with error := some msg }).clients (setErr st t.key msg).log hc
          have h2 := broadcast_lookup_self env
            (.errorFrame 500 (sliceUpTo msg 500)) h1
          exact closeSession_closed_mem h2 hm1.1

/-- Claim C5 witness: a completed 404 session leaves an empty registry,
and concretely running the final segment of an error-text task closes the
attached subscriber with `(1000, "Complete")` and removes the session. -/
theorem C5_witness :
    (run envC9 [.join 0 "v" "", .resume "v|", .resume "v|"]).tasks = [] ∧
    (run envC9 [.join 0 "v" "", .resume "v|", .resume "v|"]).sessions = [] := by
  refine ⟨by decide, ?_⟩
  exact (C5_teardown_always envC9).1 [.join 0 "v" "", .resume "v|", .resume "v|"]
    (by decide)


/-! ### Claim C4: streaming iff success status -/

/-- Claim C4: body streaming proceeds iff the origin status is 2xx.
(1) If the origin answers a request with a non-2xx status, no binary body
frame is ever sent in any session instance created for that request, along
any schedule.  (2) On a non-2xx response the fetch moves to the error path
(`awaitingErrorText` with the origin status and error body), never to
streaming; (3) on a 2xx response with a body it moves to streaming.
(4) The error path itself sends every still-writable attached subscriber
one `error` control frame carrying the origin status and the (bounded)
message, and tears the session down (removed from the registry) without
streaming (the returned continuation is `none`). -/
theorem C4_streaming_iff_success (env : Env) :
    (∀ u r status hdrs errBody b?,
      env.origin u r = .respond status hdrs errBody b? →
      respOk status = false →
      ∀ acts k sid, LogEvent.originFetch k sid u r ∈ (run env acts).log →
        ∀ c d, LogEvent.sent sid c (.binaryFrame d) ∉ (run env acts).log) ∧
    (∀ (st : DOState) (t : FetchTask) status hdrs errBody b?,
      t.phase = .awaitingResponse →
      env.origin t.url t.range = .respond status hdrs errBody b? →
      respOk status = false →
      (fetchAndBroadcastSegment env st t).2 =
        some { t with phase := .awaitingErrorText status errBody }) ∧
    (∀ (st : DOState) (t : FetchTask) status hdrs errBody ob,
      t.phase = .awaitingResponse →
      env.origin t.url t.range = .respond status hdrs errBody (some ob) →
      respOk status = true →
      (fetchAndBroadcastSegment env st t).2 =
        some { t with phase := .streaming ob.chunks ob.streamError }) ∧
    (∀ (st : DOState) (t : FetchTask) (s : FileSession) status errBody,
      t.phase = .awaitingErrorText status errBody →
      lookupS st.sessions t.key = some s →
      lookupS (fetchAndBroadcastSegment env st t).1.sessions t.key = none ∧
      (fetchAndBroadcastSegment env st t).2 = none ∧
      ∀ c, c ∈ s.clients → (∀ n, env.sendFails c n = false) →
        LogEvent.sent s.startTime c (.errorFrame status (sliceUpTo errBody 500)) ∈
          (fetchAndBroadcastSegment env st t).1.log) := by
  refine ⟨?_, ?_, ?_, ?_⟩
  · intro u r status hdrs errBody b? ho hns acts k sid hof c d hsent
    have h206 : status ≠ 206 := by
      intro he; rw [he] at hns; exact absurd hns (by decide)
    have h := (GInv_run env acts).toSInv.binOk sid c d hsent k u r hof
    obtain ⟨status', hdrs', errBody', ob, ho', hcond⟩ := h
    rw [ho] at ho'
    injection ho' with h1 h2 h3 h4
    rw [← h1, hns, decide_eq_true h206] at hcond
    exact absurd hcond (by decide)
  · intro st t status hdrs errBody b? hph ho hns
    have h206 : status ≠ 206 := by
      intro he; rw [he] at hns; exact absurd hns (by decide)
    have hcond : (!respOk status && decide (status ≠ 206)) = true := by
      rw [hns, decide_eq_true h206]; rfl
    simp only [fetchAndBroadcastSegment, hph, ho]
    rw [if_pos hcond]
  · intro st t status hdrs errBody ob hph ho hok
    have hcond : (!respOk status && decide (status ≠ 206)) = false := by
      rw [hok]; rfl
    simp only [fetchAndBroadcastSegment, hph, ho]
    rw [if_neg (by rw [hcond]; exact Bool.false_ne_true)]
  · intro st t s status errBody hph hl
    simp only [fetchAndBroadcastSegment, hph]
    refine ⟨closeSession_lookup_self _ _, trivial, ?_⟩
    intro c hc hok
    have h1 := setErr_lookup_self errBody hl
    have hm1 := deliver_clean env s.startTime
      (Frame.errorFrame status (sliceUpTo errBody 500)) hok s.clients
      (setErr st t.key errBody).log hc
    have h2 : LogEvent.sent s.startTime c
        (Frame.errorFrame status (sliceUpTo errBody 500)) ∈
        (broadcast env (setErr st t.key errBody) t.key
          (Frame.errorFrame status (sliceUpTo errBody 500))).log := by
      rw [broadcast_some (.errorFrame status (sliceUpTo errBody 500)) h1]
      exact hm1.2
    exact closeSession_log_mono _ _ (closeSession_log_mono _ _ h2)

/-- Claim C4 witness: with a 404 origin, no binary frame appears in the
session's log, and the response step classifies the task to the error
path (not streaming). -/
theorem C4_witness :
    LogEvent.sent 0 0 (Frame.binaryFrame [1]) ∉ (run envC9 [.join 0 "u" ""]).log ∧
    (fetchAndBroadcastSegment envC9 (run envC9 [.join 0 "u" ""])
      { key := "u|", url := "u", range := "", sid := 0,
        phase := .awaitingResponse }).2 =
      some { key := "u|", url := "u", range := "", sid := 0,
             phase := .awaitingErrorText 404 "gone" } :=
  ⟨(C4_streaming_iff_success envC9).1 "u" "" 404 [] "gone" none rfl (by decide)
      [.join 0 "u" ""] "u|" 0 (by decide) 0 [1],
   (C4_streaming_iff_success envC9).2.1 (run envC9 [.join 0 "u" ""])
      { key := "u|", url := "u", range := "", sid := 0, phase := .awaitingResponse }
      404 [] "gone" none rfl rfl (by decide)⟩


/-! ### Claim C6: the stored failure reason is NOT bounded -/

def longBody : String := String.mk (List.replicate 501 'a')

def envC6 : Env :=
  { origin := fun _ _ => .respond 404 [] longBody none,
    sendFails := fun _ _ => false }

set_option maxRecDepth 8192 in
/-- Claim C6 counterexample: for a non-success response the code stores
the FULL origin error body in `session.error` (line 160, `session.error =
errorBody`), before slicing; only the broadcast frame message is sliced to
500 (line 164).  With a 501-character origin error body, the recorded
failure reason has length 501 > 500, refuting "`failureReason` is capped
at 500 characters"; the frame message alone is capped. -/
theorem C6_counterexample :
    LogEvent.errorSet 0 longBody ∈
      (run envC6 [.join 0 "u" "", .resume "u|", .resume "u|"]).log ∧
    ¬ (longBody.length ≤ 500) ∧
    LogEvent.sent 0 0 (Frame.errorFrame 404 (sliceUpTo longBody 500)) ∈
      (run envC6 [.join 0 "u" "", .resume "u|", .resume "u|"]).log ∧
    (sliceUpTo longBody 500).length = 500 := by
  refine ⟨by decide, by decide, by decide, by decide⟩

/-- Claim C6 (amended): every `error` control frame ever sent carries a
message of at most 500 characters (the slice at line 164), but the failure
reason recorded in the session (`session.error`, line 160) is the full,
unbounded origin error body. -/
theorem C6_failure_reason (env : Env) :
    (∀ acts sid c status msg,
      LogEvent.sent sid c (.errorFrame status msg) ∈ (run env acts).log →
      msg.length ≤ 500) ∧
    (∀ (st : DOState) (t : FetchTask) (s : FileSession) status errBody,
      t.phase = .awaitingErrorText status errBody →
      lookupS st.sessions t.key = some s →
      LogEvent.errorSet s.startTime errBody ∈
        (fetchAndBroadcastSegment env st t).1.log) := by
  constructor
  · intro acts sid c status msg h
    exact (GInv_run env acts).toSInv.errBound sid c status msg h
  · intro st t s status errBody hph hl
    simp only [fetchAndBroadcastSegment, hph]
    have h1 : LogEvent.errorSet s.startTime errBody ∈ (setErr st t.key errBody).log := by
      rw [setErr_some hl]
      simp
    exact closeSession_log_mono _ _ (closeSession_log_mono _ _
      (broadcast_log_mono _ _ _ _ h1))

/-- Claim C6 witness for the amended bound: a concrete 404 run sends the
sliced message (length ≤ 500) while the segment logs the full stored
reason. -/
theorem C6_witness :
    (sliceUpTo "gone" 500).length ≤ 500 ∧
    LogEvent.errorSet 0 "gone" ∈
      (fetchAndBroadcastSegment envC9 (run envC9 [.join 0 "u" "", .resume "u|"])
        { key := "u|", url := "u", range := "", sid := 0,
          phase := .awaitingErrorText 404 "gone" }).1.log :=
  ⟨(C6_failure_reason envC9).1 [.join 0 "u" "", .resume "u|", .resume "u|"]
      0 0 404 (sliceUpTo "gone" 500) (by decide),
   (C6_failure_reason envC9).2 (run envC9 [.join 0 "u" "", .resume "u|"])
      { key := "u|", url := "u", range := "", sid := 0,
        phase := .awaitingErrorText 404 "gone" }
      { url := "u", clients := [0], fetchInProgress := true,
        responseHeaders := some [], responseStatus := some 404,
        error := none, startTime := 0, totalClients := 1 }
      404 "gone" rfl (by decide)⟩


/-! ### Claim C10: exact binary frame trace of a clean streaming session -/

/-- The streaming loop (lines 179-192) over a single-subscriber session:
each resumption broadcasts one pending chunk as a binary frame iff it is
non-empty, and the final resumption broadcasts `done` and closes the
session.  Exact end-to-end computation of the resulting state. -/
theorem streamLoop (env : Env) (c : ClientId) (k : Key) (u0 r0 : String) (sid : Nat)
    (hsend : ∀ n, env.sendFails c n = false) :
    ∀ (pending : List (List Nat)) (sess : FileSession) (log : List LogEvent)
      (clockv : Nat), sess.clients = [c] → sess.startTime = sid →
      runFrom env
        { sessions := [(k, sess)],
          tasks := [{ key := k, url := u0, range := r0, sid := sid,
                      phase := .streaming pending none }],
          log := log, clock := clockv }
        (List.replicate (pending.length + 1) (.resume k)) =
      { sessions := [], tasks := [],
        log := log ++ ((pending.filter fun d => !d.isEmpty).map
            fun d => LogEvent.sent sid c (.binaryFrame d)) ++
          [.sent sid c .doneFrame, .closed sid c 1000 "Complete"],
        clock := clockv + (pending.length + 1) } := by
  intro pending
  induction pending with
  | nil =>
    intro sess log clockv hcl hst
    simp [runFrom, List.replicate, step, stepCore, tfind, fetchAndBroadcastSegment,
      broadcast, lookupS, hcl, hst, deliver, hsend, closeSession, mdelS, msetS, tdel]
  | cons d rest ih =>
    intro sess log clockv hcl hst
    rw [show (d :: rest).length + 1 = rest.length + 1 + 1 from rfl,
      List.replicate_succ, runFrom_cons]
    by_cases hd : 0 < d.length
    · have hstep : step env
          { sessions := [(k, sess)],
            tasks := [{ key := k, url := u0, range := r0, sid := sid,
                        phase := Phase.streaming (d :: rest) none }],
            log := log, clock := clockv } (Action.resume k) =
          { sessions := [(k, { sess with clients := [c] })],
            tasks := [{ key := k, url := u0, range := r0, sid := sid,
                        phase := Phase.streaming rest none }],
            log := log ++ [LogEvent.sent sid c (Frame.binaryFrame d)],
            clock := clockv + 1 } := by
        simp [step, stepCore, tfind, fetchAndBroadcastSegment, hd, broadcast,
          lookupS, hcl, hst, deliver, hsend, tset, msetS]
      rw [hstep, ih { sess with clients := [c] }
        (log ++ [LogEvent.sent sid c (Frame.binaryFrame d)]) (clockv + 1) rfl hst]
      have hne : (!d.isEmpty) = true := by
        cases d with
        | nil => exact absurd hd (by simp)
        | cons a l => rfl
      simp only [List.filter_cons, hne, if_true, List.map_cons, DOState.mk.injEq,
        List.append_assoc, List.cons_append, List.nil_append, List.length_cons,
        true_and, and_true]
      omega
    · have hstep : step env
          { sessions := [(k, sess)],
            tasks := [{ key := k, url := u0, range := r0, sid := sid,
                        phase := Phase.streaming (d :: rest) none }],
            log := log, clock := clockv } (Action.resume k) =
          { sessions := [(k, sess)],
            tasks := [{ key := k, url := u0, range := r0, sid := sid,
                        phase := Phase.streaming rest none }],
            log := log, clock := clockv + 1 } := by
        simp [step, stepCore, tfind, fetchAndBroadcastSegment, hd, tset]
      rw [hstep, ih sess log (clockv + 1) hcl hst]
      have hni : (!d.isEmpty) = false := by
        cases d with
        | nil => rfl
        | cons a l => exact absurd (by simp) hd
      simp only [List.filter_cons, hni, Bool.false_eq_true, if_false,
        DOState.mk.injEq, List.length_cons, true_and, and_true]
      omega


theorem clientFrames_sent_map (c : ClientId) (sid : Nat) (l : List (List Nat)) :
    clientFrames c (l.map fun d => LogEvent.sent sid c (.binaryFrame d)) =
      l.map Frame.binaryFrame := by
  induction l with
  | nil => rfl
  | cons d rest ih =>
    have h : clientFrames c
        ((d :: rest).map fun d => LogEvent.sent sid c (.binaryFrame d)) =
        Frame.binaryFrame d ::
          clientFrames c (rest.map fun d => LogEvent.sent sid c (.binaryFrame d)) := by
      simp [clientFrames]
    rw [h, ih, List.map_cons]

theorem clientFrames_canon (c : ClientId) (k : Key) (u r : String) (status : Nat)
    (hdrs : List (String × String)) (l : List (List Nat)) :
    clientFrames c ([LogEvent.originFetch k 0 u r,
        LogEvent.sent 0 c (.headersFrame status hdrs)] ++
      (l.map fun d => LogEvent.sent 0 c (.binaryFrame d)) ++
      [LogEvent.sent 0 c .doneFrame, LogEvent.closed 0 c 1000 "Complete"]) =
    .headersFrame status hdrs :: l.map Frame.binaryFrame ++ [.doneFrame] := by
  rw [clientFrames_append, clientFrames_append, clientFrames_sent_map]
  simp [clientFrames]

/-- Claim C10: (a) no empty binary frame is ever sent to any subscriber
along any schedule (the `value && value.length > 0` guard, line 188);
(b) a subscriber of a clean streamed session receives exactly the
`headers` frame, then one binary frame per non-empty origin chunk in
origin order, then the `done` frame — computed exactly for the canonical
schedule of one join followed by the run of the leader fetch. -/
theorem C10_binary_exact (env : Env) :
    (∀ acts sid c d,
      LogEvent.sent sid c (.binaryFrame d) ∈ (run env acts).log → d ≠ []) ∧
    (∀ c u r status hdrs errBody chunks,
      env.origin u r = .respond status hdrs errBody (some ⟨chunks, none⟩) →
      respOk status = true →
      (∀ n, env.sendFails c n = false) →
      clientFrames c (run env (.join c u r ::
          List.replicate (chunks.length + 2) (.resume (buildKey u r)))).log =
        .headersFrame status hdrs ::
          ((chunks.filter fun d => !d.isEmpty).map Frame.binaryFrame) ++
          [.doneFrame]) := by
  constructor
  · intro acts sid c d h
    exact (GInv_run env acts).toSInv.binNe sid c d h
  · intro c u r status hdrs errBody chunks ho hok hsend
    have h1 : step env initState (.join c u r) =
        { sessions := [(buildKey u r,
            { url := u, clients := [c], fetchInProgress := true,
              responseHeaders := none, responseStatus := none, error := none,
              startTime := 0, totalClients := 1 })],
          tasks := [{ key := buildKey u r, url := u, range := r, sid := 0,
                      phase := .awaitingResponse }],
          log := [.originFetch (buildKey u r) 0 u r], clock := 1 } := by
      simp [step, stepCore, coalescerFetch, initState, lookupS, addClient,
        errFalsy, msetS]
    have h2 : step env
        { sessions := [(buildKey u r,
            { url := u, clients := [c], fetchInProgress := true,
              responseHeaders := none, responseStatus := none, error := none,
              startTime := 0, totalClients := 1 })],
          tasks := [{ key := buildKey u r, url := u, range := r, sid := 0,
                      phase := .awaitingResponse }],
          log := [.originFetch (buildKey u r) 0 u r], clock := 1 }
        (.resume (buildKey u r)) =
        { sessions := [(buildKey u r,
            { url := u, clients := [c], fetchInProgress := true,
              responseHeaders := some hdrs, responseStatus := some status,
              error := none, startTime := 0, totalClients := 1 })],
          tasks := [{ key := buildKey u r, url := u, range := r, sid := 0,
                      phase := .streaming chunks none }],
          log := [.originFetch (buildKey u r) 0 u r,
                  .sent 0 c (.headersFrame status hdrs)],
          clock := 2 } := by
      simp [step, stepCore, tfind, fetchAndBroadcastSegment, ho, hok, setResp,
        broadcast, lookupS, deliver, hsend, tset, msetS]
    have h3 := streamLoop env c (buildKey u r) u r 0 hsend chunks
      { url := u, clients := [c], fetchInProgress := true,
        responseHeaders := some hdrs, responseStatus := some status,
        error := none, startTime := 0, totalClients := 1 }
      [.originFetch (buildKey u r) 0 u r, .sent 0 c (.headersFrame status hdrs)]
      2 rfl rfl
    have hrw : run env (.join c u r ::
        List.replicate (chunks.length + 2) (.resume (buildKey u r))) =
        runFrom env
          { sessions := [(buildKey u r,
              { url := u, clients := [c], fetchInProgress := true,
                responseHeaders := some hdrs, responseStatus := some status,
                error := none, startTime := 0, totalClients := 1 })],
            tasks := [{ key := buildKey u r, url := u, range := r, sid := 0,
                        phase := .streaming chunks none }],
            log := [.originFetch (buildKey u r) 0 u r,
                    .sent 0 c (.headersFrame status hdrs)],
            clock := 2 }
          (List.replicate (chunks.length + 1) (.resume (buildKey u r))) := by
      rw [show chunks.length + 2 = (chunks.length + 1) + 1 from rfl,
        List.replicate_succ]
      rw [show run env (.join c u r :: .resume (buildKey u r) ::
          List.replicate (chunks.length + 1) (.resume (buildKey u r))) =
        runFrom env (step env (step env initState (.join c u r))
            (.resume (buildKey u r)))
          (List.replicate (chunks.length + 1) (.resume (buildKey u r))) from rfl]
      rw [h1, h2]
    rw [hrw, h3]
    exact clientFrames_canon c (buildKey u r) u r status hdrs
      (chunks.filter fun d => !d.isEmpty)

/-- Claim C10 witness: a one-chunk clean stream delivers exactly
`headers`, the binary chunk, `done`; and a binary frame found in a
concrete run is non-empty. -/
theorem C10_witness :
    ([1] : List Nat) ≠ [] ∧
    clientFrames 0 (run envW (.join 0 "u" "" ::
        List.replicate (([[1]] : List (List Nat)).length + 2)
          (.resume (buildKey "u" "")))).log =
      .headersFrame 200 [("ct", "x")] ::
        ((([[1]] : List (List Nat)).filter fun d => !d.isEmpty).map
          Frame.binaryFrame) ++ [.doneFrame] :=
  ⟨(C10_binary_exact envW).1
      [.join 0 "u" "", .resume "u|", .resume "u|", .resume "u|"] 0 0 [1]
      (by decide),
   (C10_binary_exact envW).2 0 "u" "" 200 [("ct", "x")] "" [[1]] rfl
      (by decide) (fun _ => rfl)⟩


/-! ### Claim C2: per-subscriber frame grammar -/

/-- Actions that do not involve client `c` (its WebSocket is not the one
joining, closing or erroring). -/
def ClientFree (c : ClientId) : Action → Prop
  | .join c' _ _ => c' ≠ c
  | .resume _ => True
  | .wsClose c' _ => c' ≠ c
  | .wsError c' _ => c' ≠ c

/-- `c` is a member of no registered session. -/
def NotInAny (c : ClientId) (st : DOState) : Prop :=
  ∀ k s, lookupS st.sessions k = some s → c ∉ s.clients

/-- Zero or one `headers` frame. -/
def HdrOpt (hs : List Frame) : Prop :=
  hs = [] ∨ ∃ n h, hs = [Frame.headersFrame n h]

/-- A terminal frame: `done` or `error`. -/
def TermFr (f : Frame) : Prop :=
  f = Frame.doneFrame ∨ ∃ n m, f = Frame.errorFrame n m

/-- Every in-flight task coalesced under the key of `(u, r)` is a fetch of
`(u, r)` itself (no other request pair collides onto this key in the
schedule under consideration). -/
def KeyFor (u r : String) (st : DOState) : Prop :=
  ∀ t ∈ st.tasks, t.key = buildKey u r → t.url = u ∧ t.range = r

theorem clientFrames_cons (c : ClientId) (e : LogEvent) (rest : List LogEvent) :
    clientFrames c (e :: rest) = clientFrames c [e] ++ clientFrames c rest := by
  rw [show e :: rest = [e] ++ rest from rfl, clientFrames_append]

theorem clientFrames_nil_of_no_sent (c : ClientId) :
    ∀ es : List LogEvent, (∀ sid f, LogEvent.sent sid c f ∉ es) →
      clientFrames c es = [] := by
  intro es
  induction es with
  | nil => intro _; rfl
  | cons e rest ih =>
    intro h
    have hr : ∀ sid f, LogEvent.sent sid c f ∉ rest :=
      fun sid f hm => h sid f (List.mem_cons_of_mem _ hm)
    rw [clientFrames_cons, ih hr, List.append_nil]
    cases e with
    | sent sid c' f =>
      exact clientFrames_sent_ne sid f
        (fun hcc => h sid f (by rw [hcc]; exact List.mem_cons_self _ _))
    | sendFailed sid c' f => exact clientFrames_sendFailed c c' sid f
    | closed sid c' code reason => simp [clientFrames]
    | errorSet sid v => exact clientFrames_errorSet c sid v
    | originFetch k sid u r => exact clientFrames_originFetch c k sid u r

theorem clientFrames_catchup_ne {c c' : ClientId} (s0 : FileSession) (hne : c' ≠ c) :
    clientFrames c (catchupFrames s0 c') = [] := by
  apply clientFrames_nil_of_no_sent
  intro sid f hm
  obtain ⟨n, hh, he⟩ := catchupFrames_mem _ hm
  injection he with h1 h2 h3
  exact hne h2.symm

theorem clientFrames_catchup_self (c : ClientId) (s0 : FileSession) :
    HdrOpt (clientFrames c (catchupFrames s0 c)) := by
  unfold catchupFrames
  cases hh : s0.responseHeaders with
  | none => exact Or.inl rfl
  | some hdr =>
    cases hn : s0.responseStatus with
    | none => exact Or.inl rfl
    | some n =>
      dsimp only
      by_cases h0 : n ≠ 0
      · rw [if_pos h0]
        exact Or.inr ⟨n, hdr, clientFrames_sent_self c s0.startTime _⟩
      · rw [if_neg h0]
        exact Or.inl rfl

theorem catchupFrames_of_no_hdr {s0 : FileSession} (c : ClientId)
    (h : s0.responseHeaders = none) : catchupFrames s0 c = [] := by
  cases hn : s0.responseStatus <;> simp [catchupFrames, h, hn]

theorem mem_addClient_self (cs : List ClientId) (c : ClientId) :
    c ∈ addClient cs c := by
  unfold addClient
  by_cases h : c ∈ cs
  · rw [if_pos h]; exact h
  · rw [if_neg h]; exact List.mem_append_right _ (List.mem_singleton.mpr rfl)

theorem mem_addClient_of_mem {cs : List ClientId} {c : ClientId} (c' : ClientId)
    (h : c ∈ cs) : c ∈ addClient cs c' := by
  unfold addClient
  by_cases hc : c' ∈ cs
  · rw [if_pos hc]; exact h
  · rw [if_neg hc]; exact List.mem_append_left _ h

theorem mem_addClient {cs : List ClientId} {c c' : ClientId}
    (h : c ∈ addClient cs c') : c ∈ cs ∨ c = c' := by
  unfold addClient at h
  by_cases hc : c' ∈ cs
  · rw [if_pos hc] at h; exact Or.inl h
  · rw [if_neg hc] at h
    rcases List.mem_append.mp h with h | h
    · exact Or.inl h
    · exact Or.inr (List.mem_singleton.mp h)

theorem setResp_frames (st : DOState) (k : Key) (status : Nat)
    (hdrs : List (String × String)) (c : ClientId) :
    clientFrames c (setResp st k status hdrs).log = clientFrames c st.log := by
  rw [setResp_log]

theorem broadcast_frames_of_not_mem (env : Env) (st : DOState) (k : Key)
    (f : Frame) (c : ClientId)
    (h : ∀ s, lookupS st.sessions k = some s → c ∉ s.clients) :
    clientFrames c (broadcast env st k f).log = clientFrames c st.log := by
  cases hl : lookupS st.sessions k with
  | none => rw [broadcast_none f hl]
  | some s =>
    rw [broadcast_some f hl]
    exact deliver_frames_not_mem env s.startTime f s.clients st.log c (h s hl)

theorem setErr_quiet (st : DOState) (k : Key) (v : String) (c : ClientId)
    (h : ∀ s, lookupS st.sessions k = some s → c ∉ s.clients) :
    ∀ s', lookupS (setErr st k v).sessions k = some s' → c ∉ s'.clients := by
  intro s' h'
  cases hl : lookupS st.sessions k with
  | none => rw [setErr_none hl] at h'; exact h s' h'
  | some s =>
    rw [setErr_lookup_self v hl] at h'
    injection h' with he
    rw [← he]
    exact h s hl

theorem setResp_quiet (st : DOState) (k : Key) (status : Nat)
    (hdrs : List (String × String)) (c : ClientId)
    (h : ∀ s, lookupS st.sessions k = some s → c ∉ s.clients) :
    ∀ s', lookupS (setResp st k status hdrs).sessions k = some s' →
      c ∉ s'.clients := by
  intro s' h'
  cases hl : lookupS st.sessions k with
  | none => rw [setResp_none hl] at h'; exact h s' h'
  | some s =>
    rw [setResp_lookup_self status hdrs hl] at h'
    injection h' with he
    rw [← he]
    exact h s hl

theorem broadcast_quiet (env : Env) (st : DOState) (k : Key) (f : Frame)
    (c : ClientId)
    (h : ∀ s, lookupS st.sessions k = some s → c ∉ s.clients) :
    ∀ s', lookupS (broadcast env st k f).sessions k = some s' →
      c ∉ s'.clients := by
  intro s' h'
  cases hl : lookupS st.sessions k with
  | none => rw [broadcast_none f hl] at h'; exact h s' h'
  | some s =>
    rw [broadcast_lookup_self env f hl] at h'
    injection h' with he
    rw [← he]
    intro hc
    exact h s hl ((deliver_fst_sublist env s.startTime f s.clients st.log).mem hc)


/-- A fetch segment over a session that does not contain `c` sends `c`
nothing, leaves every other session untouched, and never puts `c` into
the session it works on. -/
theorem segment_quiet (env : Env) (st : DOState) (t : FetchTask) (c : ClientId)
    (h : ∀ s, lookupS st.sessions t.key = some s → c ∉ s.clients) :
    clientFrames c (fetchAndBroadcastSegment env st t).1.log =
      clientFrames c st.log ∧
    (∀ k', k' ≠ t.key →
      lookupS (fetchAndBroadcastSegment env st t).1.sessions k' =
        lookupS st.sessions k') ∧
    (∀ s', lookupS (fetchAndBroadcastSegment env st t).1.sessions t.key = some s' →
      c ∉ s'.clients) := by
  cases hph : t.phase with
  | awaitingResponse =>
    cases ho : env.origin t.url t.range with
    | throwBeforeResponse msg =>
      simp only [fetchAndBroadcastSegment, hph, ho]
      have hq1 := setErr_quiet st t.key msg c h
      refine ⟨?_, ?_, ?_⟩
      · rw [closeSession_frames,
          broadcast_frames_of_not_mem env _ _ _ c hq1, setErr_frames]
      · intro k' hk
        rw [closeSession_lookup_ne _ _ _ (Ne.symm hk),
          broadcast_lookup_ne _ _ _ _ _ (Ne.symm hk),
          setErr_lookup_ne _ _ _ _ (Ne.symm hk)]
      · intro s' h'
        rw [closeSession_lookup_self] at h'
        exact Option.noConfusion h'
    | respond status hdrs errBody bodyOpt =>
      have hq1 := setResp_quiet st t.key status hdrs c h
      have hq2 := broadcast_quiet env (setResp st t.key status hdrs) t.key
        (.headersFrame status hdrs) c hq1
      by_cases hc0 : (!respOk status && decide (status ≠ 206)) = true
      · simp only [fetchAndBroadcastSegment, hph, ho]
        rw [if_pos hc0]
        dsimp only
        refine ⟨?_, ?_, ?_⟩
        · rw [broadcast_frames_of_not_mem env _ _ _ c hq1, setResp_frames]
        · intro k' hk
          rw [broadcast_lookup_ne _ _ _ _ _ (Ne.symm hk),
            setResp_lookup_ne _ _ _ _ _ (Ne.symm hk)]
        · exact hq2
      · cases bodyOpt with
        | none =>
          simp only [fetchAndBroadcastSegment, hph, ho]
          rw [if_neg hc0]
          dsimp only
          have hq3 := broadcast_quiet env
            (broadcast env (setResp st t.key status hdrs) t.key
              (.headersFrame status hdrs)) t.key .doneFrame c hq2
          refine ⟨?_, ?_, ?_⟩
          · rw [closeSession_frames, closeSession_frames,
              broadcast_frames_of_not_mem env _ _ _ c hq2,
              broadcast_frames_of_not_mem env _ _ _ c hq1, setResp_frames]
          · intro k' hk
            rw [closeSession_lookup_ne _ _ _ (Ne.symm hk),
              closeSession_lookup_ne _ _ _ (Ne.symm hk),
              broadcast_lookup_ne _ _ _ _ _ (Ne.symm hk),
              broadcast_lookup_ne _ _ _ _ _ (Ne.symm hk),
              setResp_lookup_ne _ _ _ _ _ (Ne.symm hk)]
          · intro s' h'
            rw [closeSession_lookup_self] at h'
            exact Option.noConfusion h'
        | some ob =>
          simp only [fetchAndBroadcastSegment, hph, ho]
          rw [if_neg hc0]
          dsimp only
          refine ⟨?_, ?_, ?_⟩
          · rw [broadcast_frames_of_not_mem env _ _ _ c hq1, setResp_frames]
          · intro k' hk
            rw [broadcast_lookup_ne _ _ _ _ _ (Ne.symm hk),
              setResp_lookup_ne _ _ _ _ _ (Ne.symm hk)]
          · exact hq2
  | awaitingErrorText status errBody =>
    simp only [fetchAndBroadcastSegment, hph]
    have hq1 := setErr_quiet st t.key errBody c h
    refine ⟨?_, ?_, ?_⟩
    · rw [closeSession_frames, closeSession_frames,
        broadcast_frames_of_not_mem env _ _ _ c hq1, setErr_frames]
    · intro k' hk
      rw [closeSession_lookup_ne _ _ _ (Ne.symm hk),
        closeSession_lookup_ne _ _ _ (Ne.symm hk),
        broadcast_lookup_ne _ _ _ _ _ (Ne.symm hk),
        setErr_lookup_ne _ _ _ _ (Ne.symm hk)]
    · intro s' h'
      rw [closeSession_lookup_self] at h'
      exact Option.noConfusion h'
  | streaming pending streamErr =>
    cases pending with
    | cons chunk rest =>
      simp only [fetchAndBroadcastSegment, hph]
      by_cases hch : 0 < chunk.length
      · rw [if_pos hch]
        exact ⟨broadcast_frames_of_not_mem env _ _ _ c h,
          fun k' hk => broadcast_lookup_ne _ _ _ _ _ (Ne.symm hk),
          broadcast_quiet env _ _ _ c h⟩
      · rw [if_neg hch]
        exact ⟨rfl, fun k' hk => rfl, h⟩
    | nil =>
      cases streamErr with
      | none =>
        simp only [fetchAndBroadcastSegment, hph]
        refine ⟨?_, ?_, ?_⟩
        · rw [closeSession_frames, broadcast_frames_of_not_mem env _ _ _ c h]
        · intro k' hk
          rw [closeSession_lookup_ne _ _ _ (Ne.symm hk),
            broadcast_lookup_ne _ _ _ _ _ (Ne.symm hk)]
        · intro s' h'
          rw [closeSession_lookup_self] at h'
          exact Option.noConfusion h'
      | some msg =>
        simp only [fetchAndBroadcastSegment, hph]
        have hq1 := setErr_quiet st t.key msg c h
        refine ⟨?_, ?_, ?_⟩
        · rw [closeSession_frames,
            broadcast_frames_of_not_mem env _ _ _ c hq1, setErr_frames]
        · intro k' hk
          rw [closeSession_lookup_ne _ _ _ (Ne.symm hk),
            broadcast_lookup_ne _ _ _ _ _ (Ne.symm hk),
            setErr_lookup_ne _ _ _ _ (Ne.symm hk)]
        · intro s' h'
          rw [closeSession_lookup_self] at h'
          exact Option.noConfusion h'


theorem segment_cont_fields (env : Env) (st : DOState) (t t' : FetchTask)
    (h : (fetchAndBroadcastSegment env st t).2 = some t') :
    t'.key = t.key ∧ t'.url = t.url ∧ t'.range = t.range ∧ t'.sid = t.sid := by
  cases hph : t.phase with
  | awaitingResponse =>
    cases ho : env.origin t.url t.range with
    | throwBeforeResponse msg =>
      simp only [fetchAndBroadcastSegment, hph, ho] at h
      exact Option.noConfusion h
    | respond status hdrs errBody bodyOpt =>
      by_cases hc0 : (!respOk status && decide (status ≠ 206)) = true
      · simp only [fetchAndBroadcastSegment, hph, ho] at h
        rw [if_pos hc0] at h
        dsimp only at h
        injection h with he
        rw [← he]
        exact ⟨rfl, rfl, rfl, rfl⟩
      · cases bodyOpt with
        | none =>
          simp only [fetchAndBroadcastSegment, hph, ho] at h
          rw [if_neg hc0] at h
          dsimp only at h
          exact Option.noConfusion h
        | some ob =>
          simp only [fetchAndBroadcastSegment, hph, ho] at h
          rw [if_neg hc0] at h
          dsimp only at h
          injection h with he
          rw [← he]
          exact ⟨rfl, rfl, rfl, rfl⟩
  | awaitingErrorText status errBody =>
    simp only [fetchAndBroadcastSegment, hph] at h
    exact Option.noConfusion h
  | streaming pending streamErr =>
    cases pending with
    | cons chunk rest =>
      simp only [fetchAndBroadcastSegment, hph] at h
      injection h with he
      rw [← he]
      exact ⟨rfl, rfl, rfl, rfl⟩
    | nil =>
      cases streamErr with
      | none =>
        simp only [fetchAndBroadcastSegment, hph] at h
        exact Option.noConfusion h
      | some msg =>
        simp only [fetchAndBroadcastSegment, hph] at h
        exact Option.noConfusion h

/-- A step that does not involve client `c` keeps `c` out of every session
and sends it nothing. -/
theorem notInAny_step (env : Env) {c : ClientId} {st : DOState} {a : Action}
    (hG : GInv env st) (ha : ClientFree c a) (h1 : NotInAny c st) :
    NotInAny c (step env st a) ∧
    clientFrames c (step env st a).log = clientFrames c st.log := by
  suffices hsuff : NotInAny c (stepCore env st a) ∧
      clientFrames c (stepCore env st a).log = clientFrames c st.log from hsuff
  cases a with
  | join c' u' r' =>
    have hne : c' ≠ c := ha
    simp only [stepCore]
    cases hl : lookupS st.sessions (buildKey u' r') with
    | none =>
      rw [coalescerFetch_new env c' u' r' hl]
      constructor
      · intro k0 s0 hl0
        dsimp only at hl0
        rw [lookupS_mset] at hl0
        by_cases hk : buildKey u' r' = k0
        · rw [if_pos hk] at hl0
          injection hl0 with he
          rw [← he]
          intro hc
          exact hne (List.mem_singleton.mp hc).symm
        · rw [if_neg hk] at hl0
          exact h1 k0 s0 hl0
      · dsimp only
        rw [clientFrames_append, clientFrames_originFetch, List.append_nil]
    | some s0 =>
      rw [coalescerFetch_existing env c' u' r' hl (hG.toSInv.sessFip _ s0 hl)]
      constructor
      · intro k0 s1 hl1
        dsimp only at hl1
        rw [lookupS_mset] at hl1
        by_cases hk : buildKey u' r' = k0
        · rw [if_pos hk] at hl1
          injection hl1 with he
          rw [← he]
          intro hc
          rcases mem_addClient hc with hmem | hcc
          · exact h1 _ s0 hl hmem
          · exact hne hcc.symm
        · rw [if_neg hk] at hl1
          exact h1 k0 s1 hl1
      · dsimp only
        rw [clientFrames_append, clientFrames_catchup_ne s0 hne, List.append_nil]
  | resume k2 =>
    simp only [stepCore]
    cases ht : tfind st.tasks k2 with
    | none => exact ⟨h1, rfl⟩
    | some t2 =>
      have hkey : t2.key = k2 := (tfind_mem ht).2
      have hq := segment_quiet env st t2 c (fun s hs => h1 _ s hs)
      cases hp2 : (fetchAndBroadcastSegment env st t2).2 with
      | some t' =>
        simp only [hp2]
        constructor
        · intro k0 s0 hl0
          dsimp only at hl0
          by_cases hk : k0 = t2.key
          · rw [hk] at hl0
            exact hq.2.2 s0 hl0
          · rw [hq.2.1 k0 hk] at hl0
            exact h1 k0 s0 hl0
        · exact hq.1
      | none =>
        simp only [hp2]
        constructor
        · intro k0 s0 hl0
          dsimp only at hl0
          by_cases hk : k0 = t2.key
          · rw [hk] at hl0
            exact hq.2.2 s0 hl0
          · rw [hq.2.1 k0 hk] at hl0
            exact h1 k0 s0 hl0
        · exact hq.1
  | wsClose c' k2 =>
    have hne : c' ≠ c := ha
    simp only [stepCore]
    constructor
    · intro k0 s0 hl0
      obtain ⟨s1, hl1, hrel⟩ := removeFromSession_lookup_rel st c' k2 k0 s0 hl0
      rcases hrel with rfl | he
      · exact h1 k0 _ hl1
      · rw [he]
        intro hc
        exact h1 k0 s1 hl1 (List.mem_of_mem_erase hc)
    · rw [removeFromSession_log]
  | wsError c' k2 =>
    have hne : c' ≠ c := ha
    simp only [stepCore]
    constructor
    · intro k0 s0 hl0
      obtain ⟨s1, hl1, hrel⟩ := removeFromSession_lookup_rel st c' k2 k0 s0 hl0
      rcases hrel with rfl | he
      · exact h1 k0 _ hl1
      · rw [he]
        intro hc
        exact h1 k0 s1 hl1 (List.mem_of_mem_erase hc)
    · rw [removeFromSession_log]

theorem keyFor_step (env : Env) (u r : String) {st : DOState} {a : Action}
    (hG : GInv env st)
    (hanc : ∀ c' u' r', a = .join c' u' r' → buildKey u' r' = buildKey u r →
      u' = u ∧ r' = r)
    (h : KeyFor u r st) : KeyFor u r (step env st a) := by
  suffices hsuff : KeyFor u r (stepCore env st a) from hsuff
  cases a with
  | join c' u' r' =>
    simp only [stepCore]
    cases hl : lookupS st.sessions (buildKey u' r') with
    | none =>
      rw [coalescerFetch_new env c' u' r' hl]
      intro t htm hkey
      dsimp only at htm
      rcases List.mem_append.mp htm with hm | hm
      · exact h t hm hkey
      · rw [List.mem_singleton.mp hm] at hkey ⊢
        exact hanc c' u' r' rfl hkey
    | some s0 =>
      rw [coalescerFetch_existing env c' u' r' hl (hG.toSInv.sessFip _ s0 hl)]
      intro t htm hkey
      exact h t htm hkey
  | resume k2 =>
    simp only [stepCore]
    cases ht : tfind st.tasks k2 with
    | none => exact h
    | some t2 =>
      have ht2 := tfind_mem ht
      cases hp2 : (fetchAndBroadcastSegment env st t2).2 with
      | some t' =>
        simp only [hp2]
        intro t3 htm hkey
        dsimp only at htm
        rw [segment_tasks] at htm
        rcases mem_tset htm with rfl | hm
        · obtain ⟨hek, heu, her, _⟩ := segment_cont_fields env st t2 t3 hp2
          rw [hek] at hkey
          obtain ⟨hu, hr⟩ := h t2 ht2.1 hkey
          rw [heu, her]
          exact ⟨hu, hr⟩
        · exact h t3 hm hkey
      | none =>
        simp only [hp2]
        intro t3 htm hkey
        dsimp only at htm
        rw [segment_tasks] at htm
        exact h t3 (mem_tdel.mp htm).1 hkey
  | wsClose c' k2 =>
    simp only [stepCore]
    intro t htm hkey
    rw [removeFromSession_tasks] at htm
    exact h t htm hkey
  | wsError c' k2 =>
    simp only [stepCore]
    intro t htm hkey
    rw [removeFromSession_tasks] at htm
    exact h t htm hkey

theorem quiet_runFrom (env : Env) (c : ClientId) (u r : String) :
    ∀ (acts : List Action) (st : DOState), GInv env st →
      (∀ a ∈ acts, ClientFree c a) →
      (∀ c' u' r', Action.join c' u' r' ∈ acts →
        buildKey u' r' = buildKey u r → u' = u ∧ r' = r) →
      NotInAny c st → KeyFor u r st →
      NotInAny c (runFrom env st acts) ∧ KeyFor u r (runFrom env st acts) ∧
      clientFrames c (runFrom env st acts).log = clientFrames c st.log := by
  intro acts
  induction acts with
  | nil => intro st _ _ _ h1 h2; exact ⟨h1, h2, rfl⟩
  | cons a rest ih =>
    intro st hG hfree hanc h1 h2
    rw [runFrom_cons]
    have ha := hfree a (List.mem_cons_self _ _)
    have hstep := notInAny_step env hG ha h1
    have hkf := keyFor_step env u r hG
      (fun c' u' r' (he : a = Action.join c' u' r') hk => hanc c' u' r'
        (by rw [he]; exact List.mem_cons_self _ _) hk) h2
    obtain ⟨hA, hB, hC⟩ := ih (step env st a) (GInv_step a hG)
      (fun a' hm => hfree a' (List.mem_cons_of_mem _ hm))
      (fun c' u' r' hm hk => hanc c' u' r' (List.mem_cons_of_mem _ hm) hk)
      hstep.1 hkf
    exact ⟨hA, hB, by rw [hC, hstep.2]⟩


/-- The frame trace of subscriber `c` while its session is live, indexed
by the await point of the session's leader-fetch task. -/
def ActiveA (env : Env) (c : ClientId) (u r : String) (st : DOState)
    (t : FetchTask) : Prop :=
  (t.phase = .awaitingResponse ∧ clientFrames c st.log = []) ∨
  (∃ status body hs, t.phase = .awaitingErrorText status body ∧ HdrOpt hs ∧
    clientFrames c st.log = hs) ∨
  (∃ status hdrs errBody chunks se d0 d1 pending hs,
    env.origin u r = .respond status hdrs errBody (some ⟨chunks, se⟩) ∧
    t.phase = .streaming pending se ∧
    chunks = d0 ++ d1 ++ pending ∧ HdrOpt hs ∧
    clientFrames c st.log =
      hs ++ ((d1.filter fun d => !d.isEmpty).map Frame.binaryFrame))

/-- `c` has received a complete, well-formed frame trace and is attached
to no session any more. -/
def FinB (env : Env) (c : ClientId) (u r : String) (st : DOState) : Prop :=
  NotInAny c st ∧ ∃ hs bins tm,
    clientFrames c st.log = hs ++ bins.map Frame.binaryFrame ++ [tm] ∧
    HdrOpt hs ∧ TermFr tm ∧ (∀ d ∈ bins, d ≠ []) ∧
    (∀ status hdrs errBody chunks se,
      env.origin u r = .respond status hdrs errBody (some ⟨chunks, se⟩) →
      ∃ l1 l2, chunks.filter (fun d => !d.isEmpty) = l1 ++ bins ++ l2)

/-- The per-subscriber trace invariant: after `c` joined `(u, r)`, either
its session is live and its frames-so-far match the task's await point, or
its session has finished and its trace is complete. -/
def C2Inv (env : Env) (c : ClientId) (u r : String) (st : DOState) : Prop :=
  (∃ s t, lookupS st.sessions (buildKey u r) = some s ∧ c ∈ s.clients ∧
    (∀ k' s', k' ≠ buildKey u r → lookupS st.sessions k' = some s' →
      c ∉ s'.clients) ∧
    tfind st.tasks (buildKey u r) = some t ∧ t.url = u ∧ t.range = r ∧
    ActiveA env c u r st t) ∨ FinB env c u r st

/-- The join of `c` establishes the invariant. -/
theorem C2Inv_join (env : Env) (c : ClientId) (u r : String) {st : DOState}
    (hG : GInv env st) (h1 : NotInAny c st)
    (h2 : clientFrames c st.log = []) (h3 : KeyFor u r st) :
    C2Inv env c u r (step env st (.join c u r)) := by
  suffices hsuff : C2Inv env c u r (stepCore env st (.join c u r)) from hsuff
  simp only [stepCore]
  cases hl : lookupS st.sessions (buildKey u r) with
  | none =>
    rw [coalescerFetch_new env c u r hl]
    left
    have hnt : tfind st.tasks (buildKey u r) = none := no_task_of_no_session hG hl
    refine ⟨{ url := u, clients := [c], fetchInProgress := true, responseHeaders := none, responseStatus := none, error := none, startTime := st.clock, totalClients := 1 }, { key := buildKey u r, url := u, range := r, sid := st.clock, phase := .awaitingResponse }, ?_, ?_, ?_, ?_, ?_, ?_, ?_⟩
    · dsimp only
      rw [lookupS_mset, if_pos rfl]
    · exact List.mem_singleton.mpr rfl
    · intro k' s' hk hl'
      dsimp only at hl'
      rw [lookupS_mset, if_neg (fun hh => hk hh.symm)] at hl'
      exact h1 k' s' hl'
    · dsimp only
      rw [tfind_append_none _ hnt, if_pos rfl]
    · rfl
    · rfl
    · left
      refine ⟨rfl, ?_⟩
      dsimp only
      rw [clientFrames_append, h2, List.nil_append, clientFrames_originFetch]
  | some s0 =>
    have hfip := hG.toSInv.sessFip _ s0 hl
    obtain ⟨t0, htf, hsid⟩ := hG.sessTask _ s0 hl
    have ht0mem := tfind_mem htf
    obtain ⟨hu0, hr0⟩ := h3 t0 ht0mem.1 ht0mem.2
    have hph := hG.taskPhase t0 ht0mem.1
    rw [coalescerFetch_existing env c u r hl hfip]
    left
    refine ⟨{ s0 with clients := addClient s0.clients c, totalClients := s0.totalClients + 1 }, t0, ?_, ?_, ?_, htf, hu0, hr0, ?_⟩
    · dsimp only
      rw [lookupS_mset, if_pos rfl]
    · exact mem_addClient_self _ _
    · intro k' s' hk hl'
      dsimp only at hl'
      rw [lookupS_mset, if_neg (fun hh => hk hh.symm)] at hl'
      exact h1 k' s' hl'
    · unfold PhaseInv at hph
      cases hps : t0.phase with
      | awaitingResponse =>
        rw [hps] at hph
        obtain ⟨hrs, hrh⟩ := hph s0 (by rw [ht0mem.2]; exact hl)
        left
        refine ⟨hps, ?_⟩
        dsimp only
        rw [clientFrames_append, h2, List.nil_append,
          catchupFrames_of_no_hdr c hrh]
        rfl
      | awaitingErrorText status body =>
        right; left
        refine ⟨status, body, clientFrames c (catchupFrames s0 c), hps,
          clientFrames_catchup_self c s0, ?_⟩
        dsimp only
        rw [clientFrames_append, h2, List.nil_append]
      | streaming pending se =>
        rw [hps] at hph
        obtain ⟨status, hdrs, errBody, chunks, dp, horig, hcond, hsplit, hflds⟩ := hph
        right; right
        refine ⟨status, hdrs, errBody, chunks, se, dp, [], pending,
          clientFrames c (catchupFrames s0 c), ?_, hps, ?_, ?_, ?_⟩
        · rw [← hu0, ← hr0]
          exact horig
        · rw [hsplit]
          simp
        · exact clientFrames_catchup_self c s0
        · dsimp only
          rw [clientFrames_append, h2, List.nil_append]
          simp


theorem ActiveA_frames_congr {env : Env} {c : ClientId} {u r : String}
    {st st' : DOState} {t : FetchTask}
    (hfr : clientFrames c st'.log = clientFrames c st.log)
    (h : ActiveA env c u r st t) : ActiveA env c u r st' t := by
  rcases h with ⟨h1, h2⟩ | ⟨status, body, hs, h1, h2, h3⟩ |
    ⟨status, hdrs, errBody, chunks, se, d0, d1, pending, hs, h1, h2, h3, h4, h5⟩
  · exact Or.inl ⟨h1, by rw [hfr, h2]⟩
  · exact Or.inr (Or.inl ⟨status, body, hs, h1, h2, by rw [hfr, h3]⟩)
  · exact Or.inr (Or.inr ⟨status, hdrs, errBody, chunks, se, d0, d1, pending, hs,
      h1, h2, h3, h4, by rw [hfr, h5]⟩)

theorem broadcast_frames_of_mem (env : Env) {st : DOState} {k : Key}
    {s : FileSession} (f : Frame) (c : ClientId)
    (hl : lookupS st.sessions k = some s) (hc : c ∈ s.clients)
    (hnd : s.clients.Nodup) (hsend : ∀ n, env.sendFails c n = false) :
    clientFrames c (broadcast env st k f).log = clientFrames c st.log ++ [f] ∧
    (∀ s', lookupS (broadcast env st k f).sessions k = some s' →
      c ∈ s'.clients ∧ s'.clients.Nodup ∧ s'.startTime = s.startTime ∧
      s'.clients.Sublist s.clients) := by
  have hdel := deliver_clean env s.startTime f hsend s.clients st.log hc
  constructor
  · rw [broadcast_some f hl]
    have hfm := deliver_frames_mem env s.startTime f s.clients st.log c hnd hc
    rw [hfm, if_pos hdel.1]
  · intro s' h'
    rw [broadcast_lookup_self env f hl] at h'
    injection h' with he
    rw [← he]
    exact ⟨hdel.1, deliver_fst_nodup env s.startTime f s.clients st.log hnd, rfl,
      deliver_fst_sublist env s.startTime f s.clients st.log⟩

theorem C2Inv_remove (env : Env) (c : ClientId) (u r : String) {st : DOState}
    (c' : ClientId) (k2 : Key) (hne : c' ≠ c)
    (h : C2Inv env c u r st) : C2Inv env c u r (removeFromSession st c' k2) := by
  rcases h with ⟨s, t, hl, hc, hexcl, htf, hu, hr, hAA⟩ | ⟨hN, hFin⟩
  · left
    by_cases hk2 : k2 = buildKey u r
    · subst hk2
      refine ⟨{ s with clients := s.clients.erase c' }, t,
        removeFromSession_lookup_self hl, ?_, ?_, ?_, hu, hr, ?_⟩
      · exact (List.mem_erase_of_ne (Ne.symm hne)).mpr hc
      · intro k' s' hk' hl3
        rw [removeFromSession_lookup_ne st c' _ k' (fun hh => hk' hh.symm)] at hl3
        exact hexcl k' s' hk' hl3
      · rw [removeFromSession_tasks]
        exact htf
      · exact ActiveA_frames_congr (by rw [removeFromSession_log]) hAA
    · refine ⟨s, t, ?_, hc, ?_, ?_, hu, hr, ?_⟩
      · rw [removeFromSession_lookup_ne st c' k2 _ hk2]
        exact hl
      · intro k' s' hk' hl3
        obtain ⟨s1, hl1, hrel⟩ := removeFromSession_lookup_rel st c' k2 k' s' hl3
        rcases hrel with rfl | he
        · exact hexcl k' _ hk' hl1
        · rw [he]
          intro hcm
          exact hexcl k' s1 hk' hl1 (List.mem_of_mem_erase hcm)
      · rw [removeFromSession_tasks]
        exact htf
      · exact ActiveA_frames_congr (by rw [removeFromSession_log]) hAA
  · right
    constructor
    · intro k0 s0 hl0
      obtain ⟨s1, hl1, hrel⟩ := removeFromSession_lookup_rel st c' k2 k0 s0 hl0
      rcases hrel with rfl | he
      · exact hN k0 _ hl1
      · rw [he]
        intro hcm
        exact hN k0 s1 hl1 (List.mem_of_mem_erase hcm)
    · rw [removeFromSession_log]
      exact hFin


theorem filter_mem_ne_nil {d : List Nat} {l : List (List Nat)}
    (hd : d ∈ l.filter fun x => !x.isEmpty) : d ≠ [] := by
  have h2 := (List.mem_filter.mp hd).2
  intro he
  rw [he] at h2
  exact absurd h2 (by decide)

theorem notInAny_of_rel {c : ClientId} {st stT : DOState} {k : Key}
    (hexcl : ∀ k' s', k' ≠ k → lookupS st.sessions k' = some s' → c ∉ s'.clients)
    (hrel : ∀ k0 s0, lookupS stT.sessions k0 = some s0 →
      k0 ≠ k ∧ lookupS st.sessions k0 = some s0) :
    NotInAny c stT := fun k0 s0 hl0 =>
  hexcl k0 s0 (hrel k0 s0 hl0).1 (hrel k0 s0 hl0).2

/-- Resuming the leader fetch of the session `c` is subscribed to keeps the
per-subscriber trace invariant. -/
theorem C2Inv_resume_own (env : Env) (c : ClientId) (u r : String) {st : DOState}
    {s : FileSession} {t : FetchTask} (hG : GInv env st)
    (hsend : ∀ n, env.sendFails c n = false)
    (hl : lookupS st.sessions (buildKey u r) = some s) (hc : c ∈ s.clients)
    (hexcl : ∀ k' s', k' ≠ buildKey u r → lookupS st.sessions k' = some s' →
      c ∉ s'.clients)
    (htf : tfind st.tasks (buildKey u r) = some t)
    (hu : t.url = u) (hr : t.range = r) (hAA : ActiveA env c u r st t) :
    C2Inv env c u r (stepCore env st (.resume (buildKey u r))) := by
  have htk : t.key = buildKey u r := (tfind_mem htf).2
  have hnd : s.clients.Nodup := hG.toSInv.sessNodup _ s hl
  have hlt : lookupS st.sessions t.key = some s := by rw [htk]; exact hl
  simp only [stepCore, htf]
  rcases hAA with ⟨hph, hfs⟩ | ⟨status, body, hs, hph, hHd, hfs⟩ |
    ⟨status, hdrs, errBody, chunks, se, d0, d1, pending, hs, horig, hph, hsplit,
      hHd, hfs⟩
  · -- awaitingResponse
    cases ho : env.origin u r with
    | throwBeforeResponse msg =>
      have ho' : env.origin t.url t.range = .throwBeforeResponse msg := by
        rw [hu, hr]; exact ho
      have hseg : fetchAndBroadcastSegment env st t =
          (closeSession (broadcast env (setErr st t.key msg) t.key
            (.errorFrame 500 (sliceUpTo msg 500))) t.key, none) := by
        simp only [fetchAndBroadcastSegment, hph, ho']
      rw [hseg]
      dsimp only
      have h1 := setErr_lookup_self msg hlt
      have hBF := broadcast_frames_of_mem env
        (.errorFrame 500 (sliceUpTo msg 500)) c h1 hc hnd hsend
      have hfr : clientFrames c (closeSession (broadcast env (setErr st t.key msg)
          t.key (.errorFrame 500 (sliceUpTo msg 500))) t.key).log =
          clientFrames c st.log ++ [.errorFrame 500 (sliceUpTo msg 500)] := by
        rw [closeSession_frames, hBF.1, setErr_frames]
      right
      constructor
      · refine notInAny_of_rel hexcl ?_
        intro k0 s0 hl0
        dsimp only at hl0
        by_cases hk0 : k0 = t.key
        · rw [hk0, closeSession_lookup_self] at hl0
          exact Option.noConfusion hl0
        · rw [closeSession_lookup_ne _ _ _ (fun hh => hk0 hh.symm),
            broadcast_lookup_ne _ _ _ _ _ (fun hh => hk0 hh.symm),
            setErr_lookup_ne _ _ _ _ (fun hh => hk0 hh.symm)] at hl0
          exact ⟨by rw [← htk]; exact hk0, hl0⟩
      · refine ⟨[], [], .errorFrame 500 (sliceUpTo msg 500), ?_, Or.inl rfl,
          Or.inr ⟨_, _, rfl⟩, by simp, ?_⟩
        · dsimp only
          rw [hfr, hfs]
          simp
        · intro status hdrs errBody chunks se _
          exact ⟨[], chunks.filter fun d => !d.isEmpty, by simp⟩
    | respond status hdrs errBody bodyOpt =>
      have ho' : env.origin t.url t.range = .respond status hdrs errBody bodyOpt := by
        rw [hu, hr]; exact ho
      have h1 := setResp_lookup_self status hdrs hlt
      have hBF := broadcast_frames_of_mem env (.headersFrame status hdrs) c h1
        hc hnd hsend
      have h2 := broadcast_lookup_self env (.headersFrame status hdrs) h1
      by_cases hc0 : (!respOk status && decide (status ≠ 206)) = true
      · -- error path: suspend at await response.text()
        have hseg : fetchAndBroadcastSegment env st t =
            (broadcast env (setResp st t.key status hdrs) t.key
              (.headersFrame status hdrs),
             some { t with phase := .awaitingErrorText status errBody }) := by
          simp only [fetchAndBroadcastSegment, hph, ho']
          rw [if_pos hc0]
        rw [hseg]
        dsimp only
        left
        obtain ⟨s1, hl1⟩ : ∃ s1, lookupS (broadcast env
            (setResp st t.key status hdrs) t.key
            (.headersFrame status hdrs)).sessions t.key = some s1 := ⟨_, h2⟩
        obtain ⟨hcs1, hnd1, hst1, hsub1⟩ := hBF.2 s1 hl1
        refine ⟨s1, { t with phase := .awaitingErrorText status errBody },
          ?_, hcs1, ?_, ?_, hu, hr, ?_⟩
        · dsimp only
          rw [← htk]
          exact hl1
        · intro k' s' hk' hl3
          dsimp only at hl3
          rw [broadcast_lookup_ne _ _ _ _ _ (fun hh => hk' (by rw [← hh, htk])),
            setResp_lookup_ne _ _ _ _ _ (fun hh => hk' (by rw [← hh, htk]))] at hl3
          exact hexcl k' s' hk' hl3
        · dsimp only
          rw [broadcast_tasks, setResp_tasks,
            tfind_tset st.tasks (buildKey u r) (buildKey u r) t
              { t with phase := .awaitingErrorText status errBody } htk htf,
            if_pos rfl]
        · refine Or.inr (Or.inl ⟨status, errBody, [Frame.headersFrame status hdrs],
            rfl, Or.inr ⟨status, hdrs, rfl⟩, ?_⟩)
          dsimp only
          rw [hBF.1, setResp_frames, hfs]
          simp
      · cases bodyOpt with
        | none =>
          have hseg : fetchAndBroadcastSegment env st t =
              (closeSession (closeSession (broadcast env (broadcast env
                  (setResp st t.key status hdrs) t.key
                  (.headersFrame status hdrs)) t.key .doneFrame) t.key) t.key,
               none) := by
            simp only [fetchAndBroadcastSegment, hph, ho']
            rw [if_neg hc0]
          rw [hseg]
          dsimp only
          obtain ⟨s1, hl1⟩ : ∃ s1, lookupS (broadcast env
              (setResp st t.key status hdrs) t.key
              (.headersFrame status hdrs)).sessions t.key = some s1 := ⟨_, h2⟩
          obtain ⟨hcs1, hnd1, hst1, hsub1⟩ := hBF.2 s1 hl1
          have hBF2 := broadcast_frames_of_mem env .doneFrame c hl1 hcs1 hnd1 hsend
          have hfr : clientFrames c (closeSession (closeSession (broadcast env
              (broadcast env (setResp st t.key status hdrs) t.key
                (.headersFrame status hdrs)) t.key .doneFrame) t.key) t.key).log =
              clientFrames c st.log ++ [Frame.headersFrame status hdrs] ++
                [Frame.doneFrame] := by
            rw [closeSession_frames, closeSession_frames, hBF2.1, hBF.1,
              setResp_frames]
          right
          constructor
          · refine notInAny_of_rel hexcl ?_
            intro k0 s0 hl0
            dsimp only at hl0
            by_cases hk0 : k0 = t.key
            · rw [hk0, closeSession_lookup_self] at hl0
              exact Option.noConfusion hl0
            · rw [closeSession_lookup_ne _ _ _ (fun hh => hk0 hh.symm),
                closeSession_lookup_ne _ _ _ (fun hh => hk0 hh.symm),
                broadcast_lookup_ne _ _ _ _ _ (fun hh => hk0 hh.symm),
                broadcast_lookup_ne _ _ _ _ _ (fun hh => hk0 hh.symm),
                setResp_lookup_ne _ _ _ _ _ (fun hh => hk0 hh.symm)] at hl0
              exact ⟨by rw [← htk]; exact hk0, hl0⟩
          · refine ⟨[Frame.headersFrame status hdrs], [], Frame.doneFrame, ?_,
              Or.inr ⟨status, hdrs, rfl⟩, Or.inl rfl, by simp, ?_⟩
            · dsimp only
              rw [hfr, hfs]
              simp
            · intro status' hdrs' errBody' chunks' se' _
              exact ⟨[], chunks'.filter fun d => !d.isEmpty, by simp⟩
        | some ob =>
          cases ob with
          | mk chunks0 se0 =>
            have hseg : fetchAndBroadcastSegment env st t =
                (broadcast env (setResp st t.key status hdrs) t.key
                  (.headersFrame status hdrs),
                 some { t with phase := .streaming chunks0 se0 }) := by
              simp only [fetchAndBroadcastSegment, hph, ho']
              rw [if_neg hc0]
            rw [hseg]
            dsimp only
            left
            obtain ⟨s1, hl1⟩ : ∃ s1, lookupS (broadcast env
                (setResp st t.key status hdrs) t.key
                (.headersFrame status hdrs)).sessions t.key = some s1 := ⟨_, h2⟩
            obtain ⟨hcs1, hnd1, hst1, hsub1⟩ := hBF.2 s1 hl1
            refine ⟨s1, { t with phase := .streaming chunks0 se0 },
              ?_, hcs1, ?_, ?_, hu, hr, ?_⟩
            · dsimp only
              rw [← htk]
              exact hl1
            · intro k' s' hk' hl3
              dsimp only at hl3
              rw [broadcast_lookup_ne _ _ _ _ _ (fun hh => hk' (by rw [← hh, htk])),
                setResp_lookup_ne _ _ _ _ _ (fun hh => hk' (by rw [← hh, htk]))] at hl3
              exact hexcl k' s' hk' hl3
            · dsimp only
              rw [broadcast_tasks, setResp_tasks,
                tfind_tset st.tasks (buildKey u r) (buildKey u r) t
                  { t with phase := .streaming chunks0 se0 } htk htf,
                if_pos rfl]
            · refine Or.inr (Or.inr ⟨status, hdrs, errBody, chunks0, se0, [], [],
                chunks0, [Frame.headersFrame status hdrs], ho, rfl, by simp,
                Or.inr ⟨status, hdrs, rfl⟩, ?_⟩)
              dsimp only
              rw [hBF.1, setResp_frames, hfs]
              simp
  · -- awaitingErrorText
    have hseg : fetchAndBroadcastSegment env st t =
        (closeSession (closeSession (broadcast env (setErr st t.key body) t.key
          (.errorFrame status (sliceUpTo body 500))) t.key) t.key, none) := by
      simp only [fetchAndBroadcastSegment, hph]
    rw [hseg]
    dsimp only
    have h1 := setErr_lookup_self body hlt
    have hBF := broadcast_frames_of_mem env
      (.errorFrame status (sliceUpTo body 500)) c h1 hc hnd hsend
    have hfr : clientFrames c (closeSession (closeSession (broadcast env
        (setErr st t.key body) t.key
        (.errorFrame status (sliceUpTo body 500))) t.key) t.key).log =
        clientFrames c st.log ++ [.errorFrame status (sliceUpTo body 500)] := by
      rw [closeSession_frames, closeSession_frames, hBF.1, setErr_frames]
    right
    constructor
    · refine notInAny_of_rel hexcl ?_
      intro k0 s0 hl0
      dsimp only at hl0
      by_cases hk0 : k0 = t.key
      · rw [hk0, closeSession_lookup_self] at hl0
        exact Option.noConfusion hl0
      · rw [closeSession_lookup_ne _ _ _ (fun hh => hk0 hh.symm),
          closeSession_lookup_ne _ _ _ (fun hh => hk0 hh.symm),
          broadcast_lookup_ne _ _ _ _ _ (fun hh => hk0 hh.symm),
          setErr_lookup_ne _ _ _ _ (fun hh => hk0 hh.symm)] at hl0
        exact ⟨by rw [← htk]; exact hk0, hl0⟩
    · refine ⟨hs, [], .errorFrame status (sliceUpTo body 500), ?_, hHd,
        Or.inr ⟨_, _, rfl⟩, by simp, ?_⟩
      · dsimp only
        rw [hfr, hfs]
        simp
      · intro status' hdrs' errBody' chunks' se' _
        exact ⟨[], chunks'.filter fun d => !d.isEmpty, by simp⟩
  · -- streaming
    cases pending with
    | cons chunk rest =>
      by_cases hch : 0 < chunk.length
      · have hseg : fetchAndBroadcastSegment env st t =
            (broadcast env st t.key (.binaryFrame chunk),
             some { t with phase := .streaming rest se }) := by
          simp only [fetchAndBroadcastSegment, hph]
          rw [if_pos hch]
        rw [hseg]
        dsimp only
        have hBF := broadcast_frames_of_mem env (.binaryFrame chunk) c hlt hc
          hnd hsend
        have h2 := broadcast_lookup_self env (.binaryFrame chunk) hlt
        left
        obtain ⟨s1, hl1⟩ : ∃ s1, lookupS (broadcast env st t.key
            (.binaryFrame chunk)).sessions t.key = some s1 := ⟨_, h2⟩
        obtain ⟨hcs1, hnd1, hst1, hsub1⟩ := hBF.2 s1 hl1
        have hne' : (!chunk.isEmpty) = true := by
          cases chunk with
          | nil => exact absurd hch (by simp)
          | cons a l => rfl
        refine ⟨s1, { t with phase := .streaming rest se },
          ?_, hcs1, ?_, ?_, hu, hr, ?_⟩
        · dsimp only
          rw [← htk]
          exact hl1
        · intro k' s' hk' hl3
          dsimp only at hl3
          rw [broadcast_lookup_ne _ _ _ _ _ (fun hh => hk' (by rw [← hh, htk]))] at hl3
          exact hexcl k' s' hk' hl3
        · dsimp only
          rw [broadcast_tasks,
            tfind_tset st.tasks (buildKey u r) (buildKey u r) t
              { t with phase := .streaming rest se } htk htf,
            if_pos rfl]
        · refine Or.inr (Or.inr ⟨status, hdrs, errBody, chunks, se, d0,
            d1 ++ [chunk], rest, hs, horig, rfl, ?_, hHd, ?_⟩)
          · rw [hsplit]
            simp [List.append_assoc]
          · dsimp only
            rw [hBF.1, hfs]
            simp [List.filter_append, hne', List.append_assoc]
      · have hseg : fetchAndBroadcastSegment env st t =
            (st, some { t with phase := .streaming rest se }) := by
          simp only [fetchAndBroadcastSegment, hph]
          rw [if_neg hch]
        rw [hseg]
        dsimp only
        have hni : (!chunk.isEmpty) = false := by
          cases chunk with
          | nil => rfl
          | cons a l => exact absurd (by simp) hch
        left
        refine ⟨s, { t with phase := .streaming rest se },
          hl, hc, hexcl, ?_, hu, hr, ?_⟩
        · dsimp only
          rw [tfind_tset st.tasks (buildKey u r) (buildKey u r) t
              { t with phase := .streaming rest se } htk htf,
            if_pos rfl]
        · refine Or.inr (Or.inr ⟨status, hdrs, errBody, chunks, se, d0,
            d1 ++ [chunk], rest, hs, horig, rfl, ?_, hHd, ?_⟩)
          · rw [hsplit]
            simp [List.append_assoc]
          · rw [hfs]
            simp [List.filter_append, hni]
    | nil =>
      cases hse : se with
      | none =>
        rw [hse] at hph
        have hseg : fetchAndBroadcastSegment env st t =
            (closeSession (broadcast env st t.key .doneFrame) t.key, none) := by
          simp only [fetchAndBroadcastSegment, hph]
        rw [hseg]
        dsimp only
        have hBF := broadcast_frames_of_mem env .doneFrame c hlt hc hnd hsend
        have hfr : clientFrames c (closeSession (broadcast env st t.key
            .doneFrame) t.key).log =
            clientFrames c st.log ++ [Frame.doneFrame] := by
          rw [closeSession_frames, hBF.1]
        right
        constructor
        · refine notInAny_of_rel hexcl ?_
          intro k0 s0 hl0
          dsimp only at hl0
          by_cases hk0 : k0 = t.key
          · rw [hk0, closeSession_lookup_self] at hl0
            exact Option.noConfusion hl0
          · rw [closeSession_lookup_ne _ _ _ (fun hh => hk0 hh.symm),
              broadcast_lookup_ne _ _ _ _ _ (fun hh => hk0 hh.symm)] at hl0
            exact ⟨by rw [← htk]; exact hk0, hl0⟩
        · refine ⟨hs, d1.filter fun d => !d.isEmpty, Frame.doneFrame, ?_, hHd,
            Or.inl rfl, fun d hd => filter_mem_ne_nil hd, ?_⟩
          · dsimp only
            rw [hfr, hfs]
          · intro status' hdrs' errBody' chunks' se' ho2
            rw [hse] at horig
            rw [horig] at ho2
            injection ho2 with e1 e2 e3 e4
            injection e4 with e5
            injection e5 with e6 e7
            refine ⟨d0.filter fun d => !d.isEmpty, [], ?_⟩
            rw [← e6, hsplit]
            simp [List.filter_append]
      | some msg =>
        rw [hse] at hph
        have hseg : fetchAndBroadcastSegment env st t =
            (closeSession (broadcast env (setErr st t.key msg) t.key
              (.errorFrame 500 (sliceUpTo msg 500))) t.key, none) := by
          simp only [fetchAndBroadcastSegment, hph]
        rw [hseg]
        dsimp only
        have h1 := setErr_lookup_self msg hlt
        have hBF := broadcast_frames_of_mem env
          (.errorFrame 500 (sliceUpTo msg 500)) c h1 hc hnd hsend
        have hfr : clientFrames c (closeSession (broadcast env
            (setErr st t.key msg) t.key
            (.errorFrame 500 (sliceUpTo msg 500))) t.key).log =
            clientFrames c st.log ++ [.errorFrame 500 (sliceUpTo msg 500)] := by
          rw [closeSession_frames, hBF.1, setErr_frames]
        right
        constructor
        · refine notInAny_of_rel hexcl ?_
          intro k0 s0 hl0
          dsimp only at hl0
          by_cases hk0 : k0 = t.key
          · rw [hk0, closeSession_lookup_self] at hl0
            exact Option.noConfusion hl0
          · rw [closeSession_lookup_ne _ _ _ (fun hh => hk0 hh.symm),
              broadcast_lookup_ne _ _ _ _ _ (fun hh => hk0 hh.symm),
              setErr_lookup_ne _ _ _ _ (fun hh => hk0 hh.symm)] at hl0
            exact ⟨by rw [← htk]; exact hk0, hl0⟩
        · refine ⟨hs, d1.filter fun d => !d.isEmpty,
            .errorFrame 500 (sliceUpTo msg 500), ?_, hHd,
            Or.inr ⟨_, _, rfl⟩, fun d hd => filter_mem_ne_nil hd, ?_⟩
          · dsimp only
            rw [hfr, hfs]
          · intro status' hdrs' errBody' chunks' se' ho2
            rw [hse] at horig
            rw [horig] at ho2
            injection ho2 with e1 e2 e3 e4
            injection e4 with e5
            injection e5 with e6 e7
            refine ⟨d0.filter fun d => !d.isEmpty, [], ?_⟩
            rw [← e6, hsplit]
            simp [List.filter_append]


/-- One arbitrary scheduled step (not involving `c` itself) preserves the
per-subscriber trace invariant. -/
theorem C2Inv_step (env : Env) (c : ClientId) (u r : String) {st : DOState}
    {a : Action} (hG : GInv env st) (ha : ClientFree c a)
    (hsend : ∀ n, env.sendFails c n = false)
    (h : C2Inv env c u r st) : C2Inv env c u r (step env st a) := by
  suffices hsuff : C2Inv env c u r (stepCore env st a) from hsuff
  cases a with
  | wsClose c' k2 => exact C2Inv_remove env c u r c' k2 ha h
  | wsError c' k2 => exact C2Inv_remove env c u r c' k2 ha h
  | join c' u' r' =>
    have hne : c' ≠ c := ha
    rcases h with ⟨s, t, hl, hc, hexcl, htf, hu, hr, hAA⟩ | ⟨hN, hFin⟩
    · simp only [stepCore]
      by_cases hk : buildKey u' r' = buildKey u r
      · have hl' : lookupS st.sessions (buildKey u' r') = some s := by
          rw [hk]; exact hl
        rw [coalescerFetch_existing env c' u' r' hl' (hG.toSInv.sessFip _ s hl')]
        left
        refine ⟨{ s with clients := addClient s.clients c', totalClients := s.totalClients + 1 }, t, ?_, ?_, ?_, htf, hu, hr, ?_⟩
        · dsimp only
          rw [lookupS_mset, if_pos hk]
        · exact mem_addClient_of_mem c' hc
        · intro k' s' hk' hl2
          dsimp only at hl2
          rw [lookupS_mset, if_neg (fun hh => hk' (by rw [← hh]; exact hk))] at hl2
          exact hexcl k' s' hk' hl2
        · refine ActiveA_frames_congr ?_ hAA
          dsimp only
          rw [clientFrames_append, clientFrames_catchup_ne s hne, List.append_nil]
      · cases hl2 : lookupS st.sessions (buildKey u' r') with
        | none =>
          rw [coalescerFetch_new env c' u' r' hl2]
          left
          refine ⟨s, t, ?_, hc, ?_, ?_, hu, hr, ?_⟩
          · dsimp only
            rw [lookupS_mset, if_neg hk]
            exact hl
          · intro k' s' hk' hl3
            dsimp only at hl3
            rw [lookupS_mset] at hl3
            by_cases hq : buildKey u' r' = k'
            · rw [if_pos hq] at hl3
              injection hl3 with he
              rw [← he]
              intro hcm
              exact hne (List.mem_singleton.mp hcm).symm
            · rw [if_neg hq] at hl3
              exact hexcl k' s' hk' hl3
          · dsimp only
            exact tfind_append_some _ htf
          · refine ActiveA_frames_congr ?_ hAA
            dsimp only
            rw [clientFrames_append, clientFrames_originFetch, List.append_nil]
        | some s2 =>
          rw [coalescerFetch_existing env c' u' r' hl2
            (hG.toSInv.sessFip _ s2 hl2)]
          left
          refine ⟨s, t, ?_, hc, ?_, htf, hu, hr, ?_⟩
          · dsimp only
            rw [lookupS_mset, if_neg hk]
            exact hl
          · intro k' s' hk' hl3
            dsimp only at hl3
            rw [lookupS_mset] at hl3
            by_cases hq : buildKey u' r' = k'
            · rw [if_pos hq] at hl3
              injection hl3 with he
              rw [← he]
              intro hcm
              rcases mem_addClient hcm with hmm | hcc
              · exact hexcl k' s2 hk' (by rw [← hq]; exact hl2) hmm
              · exact hne hcc.symm
            · rw [if_neg hq] at hl3
              exact hexcl k' s' hk' hl3
          · refine ActiveA_frames_congr ?_ hAA
            dsimp only
            rw [clientFrames_append, clientFrames_catchup_ne s2 hne, List.append_nil]
    · right
      have hstep := notInAny_step env hG
        (show ClientFree c (.join c' u' r') from hne) hN
      refine ⟨hstep.1, ?_⟩
      have hfr : clientFrames c (stepCore env st (Action.join c' u' r')).log =
          clientFrames c st.log := hstep.2
      rw [hfr]
      exact hFin
  | resume k2 =>
    rcases h with ⟨s, t, hl, hc, hexcl, htf, hu, hr, hAA⟩ | ⟨hN, hFin⟩
    · by_cases hk2 : k2 = buildKey u r
      · subst hk2
        exact C2Inv_resume_own env c u r hG hsend hl hc hexcl htf hu hr hAA
      · simp only [stepCore]
        cases ht2 : tfind st.tasks k2 with
        | none => exact Or.inl ⟨s, t, hl, hc, hexcl, htf, hu, hr, hAA⟩
        | some t2 =>
          have hkt : t2.key = k2 := (tfind_mem ht2).2
          have hne2 : buildKey u r ≠ t2.key := by
            rw [hkt]
            exact fun hh => hk2 hh.symm
          have hq := segment_quiet env st t2 c
            (fun s2 hs2 => hexcl t2.key s2 (by rw [hkt]; exact hk2) hs2)
          cases hp2 : (fetchAndBroadcastSegment env st t2).2 with
          | some t' =>
            simp only [hp2]
            left
            refine ⟨s, t, ?_, hc, ?_, ?_, hu, hr, ?_⟩
            · dsimp only
              rw [hq.2.1 _ hne2]
              exact hl
            · intro k' s' hk' hl3
              dsimp only at hl3
              by_cases hqq : k' = t2.key
              · rw [hqq] at hl3
                exact hq.2.2 s' hl3
              · rw [hq.2.1 k' hqq] at hl3
                exact hexcl k' s' hk' hl3
            · dsimp only
              have hkt' : t'.key = k2 := by
                rw [(segment_cont_fields env st t2 t' hp2).1, hkt]
              rw [segment_tasks,
                tfind_tset st.tasks k2 (buildKey u r) t2 t' hkt' ht2,
                if_neg hk2]
              exact htf
            · exact ActiveA_frames_congr (by dsimp only; exact hq.1) hAA
          | none =>
            simp only [hp2]
            left
            refine ⟨s, t, ?_, hc, ?_, ?_, hu, hr, ?_⟩
            · dsimp only
              rw [hq.2.1 _ hne2]
              exact hl
            · intro k' s' hk' hl3
              dsimp only at hl3
              by_cases hqq : k' = t2.key
              · rw [hqq] at hl3
                exact hq.2.2 s' hl3
              · rw [hq.2.1 k' hqq] at hl3
                exact hexcl k' s' hk' hl3
            · dsimp only
              rw [segment_tasks, tfind_tdel st.tasks k2 (buildKey u r),
                if_neg hk2]
              exact htf
            · exact ActiveA_frames_congr (by dsimp only; exact hq.1) hAA
    · right
      have hstep := notInAny_step env hG
        (show ClientFree c (.resume k2) from trivial) hN
      refine ⟨hstep.1, ?_⟩
      have hfr : clientFrames c (stepCore env st (Action.resume k2)).log =
          clientFrames c st.log := hstep.2
      rw [hfr]
      exact hFin

theorem C2Inv_fold (env : Env) (c : ClientId) (u r : String)
    (hsend : ∀ n, env.sendFails c n = false) :
    ∀ (acts : List Action) (st : DOState), GInv env st →
      (∀ a ∈ acts, ClientFree c a) →
      C2Inv env c u r st → C2Inv env c u r (runFrom env st acts) := by
  intro acts
  induction acts with
  | nil => intro st _ _ h; exact h
  | cons a rest ih =>
    intro st hG hfree h
    rw [runFrom_cons]
    exact ih (step env st a) (GInv_step a hG)
      (fun a' hm => hfree a' (List.mem_cons_of_mem _ hm))
      (C2Inv_step env c u r hG (hfree a (List.mem_cons_self _ _)) hsend h)

/-- Claim C2: consider a subscriber `c` whose transport keeps accepting
writes, that joins `(u, r)` once (the single `join c u r` in the
schedule), is not disconnected, and whose object locator does not suffer a
key collision among the earlier joins.  Along any such schedule, the
frames delivered to `c` are: at most one `headers` frame first, then zero
or more binary chunk frames that form a contiguous run of the non-empty
origin chunks in origin order, then at most one terminal frame (`done` or
`error`) — and when the leader fetch has fully run (no in-flight task is
left), exactly one terminal frame. -/
theorem C2_frame_grammar (env : Env) (c : ClientId) (u r : String)
    (pre post : List Action)
    (hsend : ∀ n, env.sendFails c n = false)
    (hpre : ∀ a ∈ pre, ClientFree c a)
    (hpost : ∀ a ∈ post, ClientFree c a)
    (hnc : ∀ c' u' r', Action.join c' u' r' ∈ pre →
      buildKey u' r' = buildKey u r → u' = u ∧ r' = r) :
    (∃ (hs : List Frame) (bins : List (List Nat)) (rest : List Frame),
      clientFrames c (run env (pre ++ Action.join c u r :: post)).log =
        hs ++ bins.map Frame.binaryFrame ++ rest ∧
      HdrOpt hs ∧
      (rest = [] ∨ rest = [Frame.doneFrame] ∨
        ∃ n m, rest = [Frame.errorFrame n m]) ∧
      (∀ d ∈ bins, d ≠ []) ∧
      (∀ status hdrs errBody chunks se,
        env.origin u r = .respond status hdrs errBody (some ⟨chunks, se⟩) →
        ∃ l1 l2, chunks.filter (fun d => !d.isEmpty) = l1 ++ bins ++ l2)) ∧
    ((run env (pre ++ Action.join c u r :: post)).tasks = [] →
      ∃ (hs : List Frame) (bins : List (List Nat)) (tm : Frame),
        clientFrames c (run env (pre ++ Action.join c u r :: post)).log =
          hs ++ bins.map Frame.binaryFrame ++ [tm] ∧
        HdrOpt hs ∧ TermFr tm) := by
  have hG0 := GInv_run env pre
  have hquiet := quiet_runFrom env c u r pre initState (GInv_init env) hpre hnc
    (fun k s hl => Option.noConfusion hl)
    (fun t htm hk => absurd htm (List.not_mem_nil t))
  have hN0 : NotInAny c (run env pre) := hquiet.1
  have hK0 : KeyFor u r (run env pre) := hquiet.2.1
  have hF0 : clientFrames c (run env pre).log = [] := by
    show clientFrames c (runFrom env initState pre).log = []
    rw [hquiet.2.2]
    rfl
  have hJ := C2Inv_join env c u r hG0 hN0 hF0 hK0
  have hG1 : GInv env (step env (run env pre) (.join c u r)) := GInv_step _ hG0
  have hInv := C2Inv_fold env c u r hsend post _ hG1 hpost hJ
  have hrun : run env (pre ++ Action.join c u r :: post) =
      runFrom env (step env (run env pre) (.join c u r)) post := by
    rw [run_append, runFrom_cons]
  rw [hrun]
  constructor
  · rcases hInv with ⟨s, t, hl, hc, hexcl, htf, hu, hr, hAA⟩ |
      ⟨hN, hs, bins, tm, heq, hHd, hTm, hNe, hOrd⟩
    · rcases hAA with ⟨hph, hfs⟩ | ⟨status, body, hs, hph, hHd, hfs⟩ |
        ⟨status, hdrs, errBody, chunks, se, d0, d1, pending, hs, horig, hph,
          hsplit, hHd, hfs⟩
      · exact ⟨[], [], [], by simp [hfs], Or.inl rfl, Or.inl rfl, by simp,
          fun status hdrs errBody chunks se _ =>
            ⟨[], chunks.filter fun d => !d.isEmpty, by simp⟩⟩
      · exact ⟨hs, [], [], by simp [hfs], hHd, Or.inl rfl, by simp,
          fun status' hdrs' errBody' chunks' se' _ =>
            ⟨[], chunks'.filter fun d => !d.isEmpty, by simp⟩⟩
      · refine ⟨hs, d1.filter fun d => !d.isEmpty, [], by simp [hfs], hHd,
          Or.inl rfl, fun d hd => filter_mem_ne_nil hd, ?_⟩
        intro status' hdrs' errBody' chunks' se' ho2
        rw [horig] at ho2
        injection ho2 with e1 e2 e3 e4
        injection e4 with e5
        injection e5 with e6 e7
        refine ⟨d0.filter fun d => !d.isEmpty,
          pending.filter fun d => !d.isEmpty, ?_⟩
        rw [← e6, hsplit]
        simp [List.filter_append]
    · refine ⟨hs, bins, [tm], heq, hHd, ?_, hNe, hOrd⟩
      rcases hTm with rfl | ⟨n, m, rfl⟩
      · exact Or.inr (Or.inl rfl)
      · exact Or.inr (Or.inr ⟨n, m, rfl⟩)
  · intro htasks
    rcases hInv with ⟨s, t, hl, hc, hexcl, htf, hu, hr, hAA⟩ |
      ⟨hN, hs, bins, tm, heq, hHd, hTm, hNe, hOrd⟩
    · have hmem := (tfind_mem htf).1
      rw [htasks] at hmem
      exact absurd hmem (List.not_mem_nil t)
    · exact ⟨hs, bins, tm, heq, hHd, hTm⟩

/-- Claim C2 witness: the clean one-chunk streamed session satisfies the
frame grammar, with the schedule run to completion. -/
theorem C2_witness :
    ((∃ (hs : List Frame) (bins : List (List Nat)) (rest : List Frame),
      clientFrames 0 (run envW ([] ++ Action.join 0 "u" "" ::
        [.resume "u|", .resume "u|", .resume "u|"])).log =
        hs ++ bins.map Frame.binaryFrame ++ rest ∧
      HdrOpt hs ∧
      (rest = [] ∨ rest = [Frame.doneFrame] ∨
        ∃ n m, rest = [Frame.errorFrame n m]) ∧
      (∀ d ∈ bins, d ≠ []) ∧
      (∀ status hdrs errBody chunks se,
        envW.origin "u" "" = .respond status hdrs errBody (some ⟨chunks, se⟩) →
        ∃ l1 l2, chunks.filter (fun d => !d.isEmpty) = l1 ++ bins ++ l2)) ∧
    ((run envW ([] ++ Action.join 0 "u" "" ::
        [.resume "u|", .resume "u|", .resume "u|"])).tasks = [] →
      ∃ (hs : List Frame) (bins : List (List Nat)) (tm : Frame),
        clientFrames 0 (run envW ([] ++ Action.join 0 "u" "" ::
          [.resume "u|", .resume "u|", .resume "u|"])).log =
          hs ++ bins.map Frame.binaryFrame ++ [tm] ∧
        HdrOpt hs ∧ TermFr tm)) :=
  C2_frame_grammar envW 0 "u" "" [] [.resume "u|", .resume "u|", .resume "u|"]
    (fun _ => rfl)
    (fun a ha => absurd ha (List.not_mem_nil a))
    (by
      intro a ha
      simp only [List.mem_cons] at ha
      rcases ha with rfl | rfl | rfl | ha
      · trivial
      · trivial
      · trivial
      · exact absurd ha (List.not_mem_nil a))
    (fun c' u' r' hm _ => absurd hm (List.not_mem_nil _))

end RXC
